import Mathlib

/-!
# VLMC workflow engine: track scheduling and deferred edits

A shallow embedding of `src/Workflow/TrackWorkflow.cpp`,
`src/Renderer/WorkflowRenderer.cpp` and `src/EffectsEngine/EffectsEngine.cpp`.

Conventions of the embedding.

* `qint64` values are `Int`; signed overflow is undefined behaviour in C++,
  so frames and lengths are taken in the range where `start + length` and
  `currentFrame - lastFrame` do not overflow.
* A `ClipWorkflow*` is a record holding the opaque object (`impl`), the
  length of the clip it plays and the list of calls made on it so far
  (`calls`, a ghost trace). What each method of `ClipWorkflow` does to the
  object is a parameter (`ClipOps`): `ClipWorkflow.cpp` is not part of the
  sources at hand.
* The polling loops `while ( cw->isRendering() ) usleep( 100 )` are bounded
  by a fuel argument: `none` means the loop was still polling when the fuel
  ran out. What the decoder thread does during one `usleep` is the
  parameter `ClipOps.usleep`.
* `(float)a / (float)b` is kept as the pair of its operands (`Position`);
  `Position.value` is the exact quotient.
* `abs( currentFrame - lastFrame )` is the absolute value of the `qint64`
  difference.
* The function-local `static qint64 lastFrame` of `TrackWorkflow::getOutput`
  is threaded explicitly: it goes in as an argument and comes back in the
  result. It is one variable for all tracks: the value one track's call
  returns is the value the next call, on any track, takes.
* `Clip`, `MainWorkflow` and the effect classes are not part of the sources
  at hand either. The renderer's calls on them are a parameter
  (`WorkflowOps`, `RendererOps`) on a world `W`, with the laws of
  `LawfulWorld` where a property needs them; a stage of the effects engine
  is a function of the values at its wired inputs.
-/

namespace Vlmc

/-! ## ClipWorkflow -/

namespace ClipWorkflow

/-- The states of a clip workflow. `None` to `Paused` are the members of
`ClipWorkflow::State` in `ClipWorkflow.h`; `Sleeping`, `Ready` and
`Initializing` are the further members `TrackWorkflow.cpp` dispatches on. -/
inductive State where
  | None
  | Stopped
  | Rendering
  | Stopping
  | EndReached
  | UnpauseRequired
  | PauseRequired
  | Paused
  | Sleeping
  | Ready
  | Initializing
  deriving DecidableEq, Repr

end ClipWorkflow

open ClipWorkflow (State)

/-- A frame buffer handed out by a clip workflow (`unsigned char*`); the
null pointer is `none : Option Frame`. -/
abbrev Frame := Nat

/-- The operands of `(float)( currentFrame - start ) / (float)( length )`. -/
structure Position where
  num : Int
  den : Int
  deriving DecidableEq, Repr

/-- The exact value of the quotient a `Position` stands for. -/
def Position.value (p : Position) : ℚ := (p.num : ℚ) / (p.den : ℚ)

/-- One call made on a clip workflow, as recorded in its trace. -/
inductive Call where
  | lockForRead
  | unlock
  | usleep (usec : Nat)
  | initializeClip
  | startRender
  | setPosition (pos : Position)
  | getOutput
  | wake
  | queryStateChange (newState : State)
  | stop
  deriving DecidableEq, Repr

/-- What the methods of `ClipWorkflow` do to the object, as functions on an
opaque object type `σ`. `usleep` is what happens to the object while the
caller sleeps (the decoder thread runs). -/
structure ClipOps (σ : Type) where
  getState : σ → State
  initializeClip : σ → σ
  startRender : σ → σ
  setPosition : Position → σ → σ
  getOutput : σ → Option Frame × σ
  wake : σ → σ
  queryStateChange : State → σ → σ
  stop : σ → σ
  usleep : Nat → σ → σ

/-- A clip workflow as the track sees it: the object, the length of its
clip (`getClip()->getLength()`), and the calls made on it so far. -/
structure ClipWorkflow (σ : Type) where
  impl : σ
  clipLength : Int
  calls : List Call

namespace ClipWorkflow

variable {σ : Type}

/-- The call `getState()`. -/
def getState (ops : ClipOps σ) (cw : ClipWorkflow σ) : State :=
  ops.getState cw.impl

/-- The call `isRendering()`: "Return true ONLY if the state is equal to
Rendering" (`ClipWorkflow.h`). -/
def isRendering (ops : ClipOps σ) (cw : ClipWorkflow σ) : Bool :=
  decide (cw.getState ops = State.Rendering)

/-- Modelled from the spec: `ClipWorkflow::isReady` is not in the header at
hand; the clip is ready once its state is `Ready` ("transitions to
`Initializing`, then to `Ready` once the decoder signals"). -/
def isReady (ops : ClipOps σ) (cw : ClipWorkflow σ) : Bool :=
  decide (cw.getState ops = State.Ready)

/-- The call `getStateLock()->lockForRead()`. -/
def lockForRead (cw : ClipWorkflow σ) : ClipWorkflow σ :=
  { cw with calls := cw.calls ++ [Call.lockForRead] }

/-- The call `getStateLock()->unlock()`. -/
def unlock (cw : ClipWorkflow σ) : ClipWorkflow σ :=
  { cw with calls := cw.calls ++ [Call.unlock] }

/-- The call `usleep( usec )` made while polling this clip. -/
def usleep (ops : ClipOps σ) (usec : Nat) (cw : ClipWorkflow σ) : ClipWorkflow σ :=
  { cw with impl := ops.usleep usec cw.impl, calls := cw.calls ++ [Call.usleep usec] }

/-- The call `initialize( m_mediaPlayer )`. -/
def initializeClip (ops : ClipOps σ) (cw : ClipWorkflow σ) : ClipWorkflow σ :=
  { cw with impl := ops.initializeClip cw.impl, calls := cw.calls ++ [Call.initializeClip] }

/-- The call `startRender()`. -/
def startRender (ops : ClipOps σ) (cw : ClipWorkflow σ) : ClipWorkflow σ :=
  { cw with impl := ops.startRender cw.impl, calls := cw.calls ++ [Call.startRender] }

/-- The call `setPosition( pos )`. -/
def setPosition (ops : ClipOps σ) (pos : Position) (cw : ClipWorkflow σ) : ClipWorkflow σ :=
  { cw with impl := ops.setPosition pos cw.impl, calls := cw.calls ++ [Call.setPosition pos] }

/-- The call `getOutput()`: the buffer returned and the clip afterwards. -/
def getOutput (ops : ClipOps σ) (cw : ClipWorkflow σ) : Option Frame × ClipWorkflow σ :=
  ((ops.getOutput cw.impl).1,
    { cw with impl := (ops.getOutput cw.impl).2, calls := cw.calls ++ [Call.getOutput] })

/-- The call `wake()`. -/
def wake (ops : ClipOps σ) (cw : ClipWorkflow σ) : ClipWorkflow σ :=
  { cw with impl := ops.wake cw.impl, calls := cw.calls ++ [Call.wake] }

/-- The call `queryStateChange( newState )`. -/
def queryStateChange (ops : ClipOps σ) (newState : State) (cw : ClipWorkflow σ) :
    ClipWorkflow σ :=
  { cw with impl := ops.queryStateChange newState cw.impl,
            calls := cw.calls ++ [Call.queryStateChange newState] }

/-- The call `stop()`. -/
def stop (ops : ClipOps σ) (cw : ClipWorkflow σ) : ClipWorkflow σ :=
  { cw with impl := ops.stop cw.impl, calls := cw.calls ++ [Call.stop] }

end ClipWorkflow

/-! ## TrackWorkflow -/

/-- The track: `m_clips` is the `QMap<qint64, ClipWorkflow*>` as the list of
its entries in iteration order (ascending key). -/
structure TrackWorkflow (σ : Type) where
  m_trackId : Nat
  m_length : Int
  m_clips : List (Int × ClipWorkflow σ)

/-- Which of its three helpers `getOutput` called for a clip. -/
inductive Dispatch where
  | renderClip
  | preloadClip
  | stopClipWorkflow
  deriving DecidableEq, Repr

namespace TrackWorkflow

variable {σ : Type}

/-- The loop `while ( cw->isRendering() == true ) usleep( 100 );` with at
most `fuel` sleeps. -/
def waitWhileRendering (ops : ClipOps σ) : Nat → ClipWorkflow σ → Option (ClipWorkflow σ)
  | 0, cw => if cw.isRendering ops = true then none else some cw
  | fuel + 1, cw =>
    if cw.isRendering ops = true then waitWhileRendering ops fuel (cw.usleep ops 100)
    else some cw

/-- The loop `while ( cw->isReady() == false ) usleep( 20 );` with at most
`fuel` sleeps. -/
def waitUntilReady (ops : ClipOps σ) : Nat → ClipWorkflow σ → Option (ClipWorkflow σ)
  | 0, cw => if cw.isReady ops = false then none else some cw
  | fuel + 1, cw =>
    if cw.isReady ops = false then waitUntilReady ops fuel (cw.usleep ops 20)
    else some cw

/-- `TrackWorkflow::renderClip`: the frame returned and the clip afterwards;
`none` when the wait for the end of a rendering outlasts the fuel. -/
def renderClip (ops : ClipOps σ) (fuel : Nat) (cw : ClipWorkflow σ)
    (currentFrame start : Int) (needRepositioning : Bool) :
    Option (Option Frame × ClipWorkflow σ) :=
  let cw := cw.lockForRead
  let waited : Option (ClipWorkflow σ) :=
    if cw.getState ops = State.Rendering then
      (waitWhileRendering ops fuel cw.unlock).map (fun c => c.lockForRead)
    else some cw
  match waited with
  | none => none
  | some cw =>
    if cw.getState ops = State.Sleeping then
      let cw := cw.unlock
      let cw :=
        if needRepositioning = true then
          cw.setPosition ops { num := currentFrame - start, den := cw.clipLength }
        else cw
      let out := cw.getOutput ops
      some (out.1, out.2.wake ops)
    else if cw.getState ops = State.Stopped then
      let cw := cw.unlock
      let cw := cw.initializeClip ops
      let cw := cw.startRender ops
      let cw :=
        if start ≠ currentFrame then
          cw.setPosition ops { num := currentFrame - start, den := cw.clipLength }
        else cw
      some (none, cw)
    else if cw.getState ops = State.Ready ∨ cw.getState ops = State.Initializing then
      let cw := cw.unlock
      some (none, cw.startRender ops)
    else if cw.getState ops = State.EndReached then
      some (none, cw.unlock)
    else
      some (none, cw.unlock)

/-- `TrackWorkflow::preloadClip`. -/
def preloadClip (ops : ClipOps σ) (cw : ClipWorkflow σ) : ClipWorkflow σ :=
  let cw := cw.lockForRead
  if cw.getState ops = State.Stopped then
    let cw := cw.unlock
    cw.initializeClip ops
  else
    cw.unlock

/-- `TrackWorkflow::stopClipWorkflow`; `none` when a polling loop outlasts
the fuel. -/
def stopClipWorkflow (ops : ClipOps σ) (fuel : Nat) (cw : ClipWorkflow σ) :
    Option (ClipWorkflow σ) :=
  let cw := cw.lockForRead
  if cw.getState ops = State.Stopped then
    some cw.unlock
  else if cw.getState ops = State.Sleeping ∨ cw.getState ops = State.Ready ∨
      cw.getState ops = State.EndReached then
    let cw := cw.unlock
    let cw := cw.queryStateChange ops State.Stopping
    let cw := cw.wake ops
    some (cw.stop ops)
  else if cw.getState ops = State.Rendering then
    let cw := cw.unlock
    match waitWhileRendering ops fuel cw with
    | none => none
    | some cw =>
      let cw := cw.queryStateChange ops State.Stopping
      let cw := cw.wake ops
      some (cw.stop ops)
  else if cw.getState ops = State.Initializing then
    let cw := cw.unlock
    match waitUntilReady ops fuel cw with
    | none => none
    | some cw => some (cw.stop ops)
  else
    some cw.unlock

/-- `TrackWorkflow::checkEnd`. The last entry of `m_clips` is
`m_clips.end() - 1`, the clip with the greatest start. -/
def checkEnd (tw : TrackWorkflow σ) (currentFrame : Int) : Bool :=
  match tw.m_clips.getLast? with
  | none => true
  | some it => decide (it.2.clipLength + it.1 < currentFrame)

/-- The local variables of `getOutput` that its loop updates, with the
clips already visited and the helper called for each. -/
structure LoopState (σ : Type) where
  ret : Option Frame
  lastFrame : Int
  visited : List (Int × ClipWorkflow σ)
  dispatched : List Dispatch

/-- One turn of the `while ( it != end )` loop of `getOutput`, for the
entry `it`. -/
def getOutputBody (ops : ClipOps σ) (fuel : Nat) (nbFrameBeforePreload : Int)
    (currentFrame : Int) (needRepositioning : Bool) (st : LoopState σ)
    (it : Int × ClipWorkflow σ) : Option (LoopState σ) :=
  let start := it.1
  let cw := it.2
  if start ≤ currentFrame ∧ currentFrame ≤ start + cw.clipLength then
    match renderClip ops fuel cw currentFrame start needRepositioning with
    | none => none
    | some r =>
      some { ret := r.1, lastFrame := currentFrame,
             visited := st.visited ++ [(start, r.2)],
             dispatched := st.dispatched ++ [Dispatch.renderClip] }
  else if start > currentFrame ∧ start - currentFrame < nbFrameBeforePreload then
    some { st with visited := st.visited ++ [(start, preloadClip ops cw)],
                   dispatched := st.dispatched ++ [Dispatch.preloadClip] }
  else
    match stopClipWorkflow ops fuel cw with
    | none => none
    | some cw =>
      some { st with visited := st.visited ++ [(start, cw)],
                     dispatched := st.dispatched ++ [Dispatch.stopClipWorkflow] }

/-- The `while ( it != end )` loop of `getOutput` over the entries still to
visit. -/
def getOutputLoop (ops : ClipOps σ) (fuel : Nat) (nbFrameBeforePreload : Int)
    (currentFrame : Int) (needRepositioning : Bool) :
    List (Int × ClipWorkflow σ) → LoopState σ → Option (LoopState σ)
  | [], st => some st
  | it :: rest, st =>
    match getOutputBody ops fuel nbFrameBeforePreload currentFrame needRepositioning st it with
    | none => none
    | some st => getOutputLoop ops fuel nbFrameBeforePreload currentFrame needRepositioning rest st

/-- What one call of `getOutput` leaves behind: the frame returned, the
track, the static `lastFrame`, whether `trackEndReached` was emitted, and
the helper called for each clip, in iteration order. -/
structure Output (σ : Type) where
  ret : Option Frame
  track : TrackWorkflow σ
  lastFrame : Int
  trackEndReached : Bool
  dispatched : List Dispatch

/-- `TrackWorkflow::getOutput`. `nbFrameBeforePreload` is the constant
`TrackWorkflow::nbFrameBeforePreload` of the header, `lastFrame` the value
of the static variable on entry. -/
def getOutput (ops : ClipOps σ) (fuel : Nat) (nbFrameBeforePreload : Int)
    (tw : TrackWorkflow σ) (lastFrame : Int) (currentFrame : Int) : Option (Output σ) :=
  let trackEndReached := checkEnd tw currentFrame
  let needRepositioning : Bool := decide (|currentFrame - lastFrame| > 1)
  match getOutputLoop ops fuel nbFrameBeforePreload currentFrame needRepositioning tw.m_clips
      { ret := none, lastFrame := lastFrame, visited := [], dispatched := [] } with
  | none => none
  | some st =>
    some { ret := st.ret, track := { tw with m_clips := st.visited },
           lastFrame := st.lastFrame, trackEndReached := trackEndReached,
           dispatched := st.dispatched }

end TrackWorkflow

/-! ## Notions the properties are stated with -/

/-- The polls `stopClipWorkflow` and `renderClip` would make on this clip
end within `fuel` sleeps: the wait for the end of a rendering when the clip
is `Rendering`, the wait for readiness when it is `Initializing`. -/
def Settles {σ : Type} (ops : ClipOps σ) (fuel : Nat) (cw : ClipWorkflow σ) : Prop :=
  (cw.getState ops = State.Rendering →
      (TrackWorkflow.waitWhileRendering ops fuel cw).isSome = true) ∧
  (cw.getState ops = State.Initializing →
      (TrackWorkflow.waitUntilReady ops fuel cw).isSome = true)

/-- The helper the loop body of `getOutput` picks for an entry: the outcome
of its two tests. -/
def dispatchOf {σ : Type} (nbFrameBeforePreload currentFrame : Int)
    (it : Int × ClipWorkflow σ) : Dispatch :=
  if it.1 ≤ currentFrame ∧ currentFrame ≤ it.1 + it.2.clipLength then Dispatch.renderClip
  else if it.1 > currentFrame ∧ it.1 - currentFrame < nbFrameBeforePreload then
    Dispatch.preloadClip
  else Dispatch.stopClipWorkflow

/-- The clips occupy pairwise non-overlapping intervals
`[start, start + length)`: of any two, one ends where or before the other
starts. -/
def NonOverlapping {σ : Type} (clips : List (Int × ClipWorkflow σ)) : Prop :=
  clips.Pairwise (fun a b => a.1 + a.2.clipLength ≤ b.1 ∨ b.1 + b.2.clipLength ≤ a.1)

/-- The keys of a `QMap` are distinct and iterated in ascending order. -/
def KeysAscending {σ : Type} (clips : List (Int × ClipWorkflow σ)) : Prop :=
  clips.Pairwise (fun a b => a.1 < b.1)

/-- What the loop body of `getOutput` makes of the entry `it`: the entry
`v` it leaves in the map has the same key, and its clip workflow is what
the helper picked for `it` returned. -/
def Visited {σ : Type} (ops : ClipOps σ) (fuel : Nat) (nbFrameBeforePreload currentFrame : Int)
    (needRepositioning : Bool) (it v : Int × ClipWorkflow σ) : Prop :=
  v.1 = it.1 ∧ v.2.clipLength = it.2.clipLength ∧
  match dispatchOf nbFrameBeforePreload currentFrame it with
  | Dispatch.renderClip =>
    ∃ r, TrackWorkflow.renderClip ops fuel it.2 currentFrame it.1 needRepositioning = some r ∧
      v.2 = r.2
  | Dispatch.preloadClip => v.2 = TrackWorkflow.preloadClip ops it.2
  | Dispatch.stopClipWorkflow => TrackWorkflow.stopClipWorkflow ops fuel it.2 = some v.2

/-- The first test of the loop body of `getOutput`, "Is the clip supposed to
render now ?": `start <= currentFrame && currentFrame <= start + length`. -/
def isActive {σ : Type} (currentFrame : Int) (it : Int × ClipWorkflow σ) : Bool :=
  decide (it.1 ≤ currentFrame ∧ currentFrame ≤ it.1 + it.2.clipLength)

instance {σ : Type} (ops : ClipOps σ) (fuel : Nat) (cw : ClipWorkflow σ) :
    Decidable (Settles ops fuel cw) := by
  unfold Settles
  infer_instance

instance {σ : Type} (clips : List (Int × ClipWorkflow σ)) : Decidable (NonOverlapping clips) := by
  unfold NonOverlapping
  infer_instance

instance {σ : Type} (clips : List (Int × ClipWorkflow σ)) : Decidable (KeysAscending clips) := by
  unfold KeysAscending
  infer_instance

/-- The part of `renderClip` below its wait: what it does with the clip `cw`
as it finds it under the lock. -/
def renderObserved {σ : Type} (ops : ClipOps σ) (cw : ClipWorkflow σ)
    (currentFrame start : Int) (needRepositioning : Bool) : Option Frame × ClipWorkflow σ :=
  if cw.getState ops = State.Sleeping then
    (((if needRepositioning = true then
          cw.unlock.setPosition ops { num := currentFrame - start, den := cw.unlock.clipLength }
        else cw.unlock).getOutput ops).1,
      ((if needRepositioning = true then
          cw.unlock.setPosition ops { num := currentFrame - start, den := cw.unlock.clipLength }
        else cw.unlock).getOutput ops).2.wake ops)
  else if cw.getState ops = State.Stopped then
    (none,
      if start ≠ currentFrame then
        ((cw.unlock.initializeClip ops).startRender ops).setPosition ops
          { num := currentFrame - start,
            den := ((cw.unlock.initializeClip ops).startRender ops).clipLength }
      else (cw.unlock.initializeClip ops).startRender ops)
  else if cw.getState ops = State.Ready ∨ cw.getState ops = State.Initializing then
    (none, cw.unlock.startRender ops)
  else if cw.getState ops = State.EndReached then (none, cw.unlock)
  else (none, cw.unlock)

/-- Reading a trace of calls on a clip with its state lock free (`false`) or
held for reading (`true`): the state of the lock after the trace, or `none`
when the trace takes the lock while it is held, releases it while it is
free, or makes any other call (a sleep of the polling loops, `initialize`,
`startRender`, `setPosition`, `getOutput`, `wake`, `queryStateChange`,
`stop`) while it is held. -/
def lockScan : Bool → List Call → Option Bool
  | held, [] => some held
  | held, c :: rest =>
    match c with
    | Call.lockForRead => if held = true then none else lockScan true rest
    | Call.unlock => if held = true then lockScan false rest else none
    | _ => if held = true then none else lockScan false rest

/-! ## A reference clip workflow -/

/-- Modelled from the spec: `ClipWorkflow.cpp` is not among the sources.
The object of the reference clip workflow: its state, the state last
requested through `queryStateChange`, the last position sought, and the
buffer it holds. -/
structure SimClip where
  state : State
  required : Option State
  position : Option Position
  frame : Frame
  deriving DecidableEq, Repr

/-- Modelled from the spec: the methods of `ClipWorkflow` (section 4.1).
`initialize` acts only from `Stopped` and enters `Initializing`;
`startRender` takes `Ready` to `Rendering`; `getOutput` hands out the
buffer; `wake` sends a `Sleeping` clip back to `Rendering` for its next
frame; `queryStateChange` only records the request; `stop` returns to
`Stopped`; during a sleep the decoder thread takes `Initializing` to
`Ready` and `Rendering` to `Sleeping`. -/
def simOps : ClipOps SimClip where
  getState c := c.state
  initializeClip c := if c.state = State.Stopped then { c with state := State.Initializing } else c
  startRender c := if c.state = State.Ready then { c with state := State.Rendering } else c
  setPosition pos c := { c with position := some pos }
  getOutput c := (some c.frame, c)
  wake c :=
    if c.state = State.Sleeping then { c with state := State.Rendering, frame := c.frame + 1 }
    else c
  queryStateChange newState c := { c with required := some newState }
  stop c := { c with state := State.Stopped, required := none }
  usleep _ c :=
    if c.state = State.Initializing then { c with state := State.Ready }
    else if c.state = State.Rendering then { c with state := State.Sleeping }
    else c

/-- A reference clip workflow in state `s` for a clip of `len` frames, with
no call made on it yet. -/
def simClip (s : State) (len : Int) : ClipWorkflow SimClip :=
  { impl := { state := s, required := none, position := none, frame := 0 },
    clipLength := len, calls := [] }

/-- The track of the gap example: clip A on frames 0 to 100, asleep, and
clip B on frames 150 to 250, stopped. -/
def gapTrack : TrackWorkflow SimClip :=
  { m_trackId := 0, m_length := 250,
    m_clips := [(0, simClip State.Sleeping 100), (150, simClip State.Stopped 100)] }

/-- A track with one clip rendered, one about to be, and one far ahead
that is still rendering. -/
def threeClipTrack : TrackWorkflow SimClip :=
  { m_trackId := 0, m_length := 410,
    m_clips := [(0, simClip State.Sleeping 100), (120, simClip State.Stopped 50),
      (400, simClip State.Rendering 10)] }

/-- The track of the repositioning example: one clip with `start = 100` and
`length = 50`, asleep with a frame ready. -/
def seekTrack : TrackWorkflow SimClip :=
  { m_trackId := 0, m_length := 150, m_clips := [(100, simClip State.Sleeping 50)] }

/-- Two clips that abut: the first on frames 0 to 100, the second on frames
100 to 200, both asleep. -/
def abutTrack : TrackWorkflow SimClip :=
  { m_trackId := 0, m_length := 200,
    m_clips := [(0, simClip State.Sleeping 100), (100, simClip State.Sleeping 100)] }

/-- A track as two `addClip` calls build it, a clip of 1000 frames at 0 and
a clip of 5 frames at 10: the clip that starts last ends first. -/
def overlapTrack : TrackWorkflow SimClip :=
  { m_trackId := 0, m_length := 15,
    m_clips := [(0, simClip State.Stopped 1000), (10, simClip State.Stopped 5)] }

/-- A track with one clip on frames 0 to 100, asleep. -/
def nearTrack : TrackWorkflow SimClip :=
  { m_trackId := 0, m_length := 100, m_clips := [(0, simClip State.Sleeping 100)] }

/-- Another track, with one clip on frames 450 to 550, asleep. -/
def farTrack : TrackWorkflow SimClip :=
  { m_trackId := 1, m_length := 550, m_clips := [(450, simClip State.Sleeping 100)] }

/-- A second track with one clip on frames 0 to 100, asleep. -/
def twinTrack : TrackWorkflow SimClip :=
  { m_trackId := 1, m_length := 100, m_clips := [(0, simClip State.Sleeping 100)] }

/-- A decoder that never finishes a frame: as `simOps`, but a sleep changes
nothing. -/
def stuckOps : ClipOps SimClip :=
  { simOps with usleep := fun _ c => c }

/-! ## WorkflowRenderer -/

/-- A `Clip*`, by identity. -/
abbrev ClipPtr := Nat

/-- A `QUuid`. -/
abbrev Uuid := Nat

/-- A `MainWorkflow::TrackType` enumerator, by value. -/
abbrev TrackType := Nat

/-- The deferred commands `WorkflowRenderer.cpp` builds, with the arguments
it passes to their constructors (the `m_mainWorkflow` argument is the one
main workflow and is left out). -/
inductive Action where
  | AddClip (trackId : Nat) (trackType : TrackType) (clip : ClipPtr) (startingPos : Int)
  | RemoveClip (trackId : Nat) (trackType : TrackType) (uuid : Uuid)
  | ResizeClip (clip : ClipPtr) (newBegin newEnd : Int)
  | Pause
  | Unpause
  deriving DecidableEq, Repr

/-- What the renderer's collaborators do, as functions on a world `W` that
holds the main workflow and the clips it refers to: `MainWorkflow::addClip`,
`MainWorkflow::removeClip`, `Clip::setBoundaries`, and pausing and
unpausing the main workflow. -/
structure WorkflowOps (W : Type) where
  addClip : ClipPtr → Nat → Int → TrackType → W → W
  removeClip : Uuid → Nat → TrackType → W → W
  setBoundaries : ClipPtr → Int → Int → W → W
  pause : W → W
  unpause : W → W

/-- Modelled from the spec: the `execute()` of each action class is not
among the sources. "Each self-contained (captures its target and
parameters, exposes a single `execute()`)": executing a command applies the
operation it names to the target and parameters it captured. -/
def Action.execute {W : Type} (ops : WorkflowOps W) : Action → W → W
  | Action.AddClip trackId trackType clip startingPos =>
    ops.addClip clip trackId startingPos trackType
  | Action.RemoveClip trackId trackType uuid => ops.removeClip uuid trackId trackType
  | Action.ResizeClip clip newBegin newEnd => ops.setBoundaries clip newBegin newEnd
  | Action.Pause => ops.pause
  | Action.Unpause => ops.unpause

/-- Modelled from the spec: the container type of `m_actions` is not among
the sources. "An ordered list of commands"; "producers append"; the
consumer drains it "executing strictly in enqueue order": the oldest entry
is at the head. -/
structure ActionStack where
  items : List Action
  deriving DecidableEq, Repr

namespace ActionStack

/-- Modelled from the spec: `addAction` appends the command ("producers
append under one mutex"). -/
def addAction (s : ActionStack) (act : Action) : ActionStack :=
  { items := s.items ++ [act] }

/-- Modelled from the spec: `push` appends the command, as `addAction`
does. -/
def push (s : ActionStack) (act : Action) : ActionStack :=
  { items := s.items ++ [act] }

/-- Modelled from the spec: `top` is the next command to execute, the
oldest one ("executing strictly in enqueue order"). -/
def top (s : ActionStack) : Option Action := s.items.head?

/-- Modelled from the spec: `pop` removes the command `top` returns. -/
def pop (s : ActionStack) : ActionStack := { items := s.items.tail }

/-- The number of commands held. -/
def size (s : ActionStack) : Nat := s.items.length

/-- Whether no command is held. -/
def empty (s : ActionStack) : Bool := s.items.isEmpty

end ActionStack

/-- What happened in the renderer, in order (a ghost trace): the actions
mutex taken and released, a command put into `m_actions`, a command
executed, a call of `m_mainWorkflow->getSynchroneOutput()`. -/
inductive RendererEvent where
  | lockActions
  | unlockActions
  | enqueued (act : Action)
  | executed (act : Action)
  | getSynchroneOutput
  deriving DecidableEq, Repr

/-- The renderer: the world its main workflow and clips live in, the
pending commands, its flags, the trace of what it did, the bytes of its
video buffer `m_renderVideoFrame` and the audio sample pointer
`m_renderAudioSample` (`none` while it has not been assigned). -/
structure WorkflowRenderer (W : Type) where
  m_mainWorkflow : W
  m_actions : ActionStack
  m_isRendering : Bool
  m_paused : Bool
  m_stopping : Bool
  journal : List RendererEvent
  m_renderVideoFrame : List Nat := []
  m_renderAudioSample : Option Nat := none

namespace WorkflowRenderer

variable {W : Type}

/-- A `QMutexLocker lock( m_actionsMutex )` coming into scope. -/
def lockActions (r : WorkflowRenderer W) : WorkflowRenderer W :=
  { r with journal := r.journal ++ [RendererEvent.lockActions] }

/-- The `QMutexLocker` going out of scope. -/
def unlockActions (r : WorkflowRenderer W) : WorkflowRenderer W :=
  { r with journal := r.journal ++ [RendererEvent.unlockActions] }

/-- The call `m_actions.addAction( act )`. -/
def addAction (r : WorkflowRenderer W) (act : Action) : WorkflowRenderer W :=
  { r with m_actions := r.m_actions.addAction act,
           journal := r.journal ++ [RendererEvent.enqueued act] }

/-- The call `m_actions.push( act )`. -/
def push (r : WorkflowRenderer W) (act : Action) : WorkflowRenderer W :=
  { r with m_actions := r.m_actions.push act,
           journal := r.journal ++ [RendererEvent.enqueued act] }

set_option linter.unusedVariables false in
/-- The body of the `while ( m_actions.empty() == false )` loop of
`checkActions`, repeated until the container is empty. -/
def checkActionsLoop (ops : WorkflowOps W) (r : WorkflowRenderer W) : WorkflowRenderer W :=
  if h : r.m_actions.empty = false then
    match r.m_actions.top with
    | none => r
    | some act =>
      checkActionsLoop ops
        { r with m_actions := r.m_actions.pop,
                 m_mainWorkflow := act.execute ops r.m_mainWorkflow,
                 journal := r.journal ++ [RendererEvent.executed act] }
  else r
termination_by r.m_actions.size
decreasing_by
  cases hi : r.m_actions.items with
  | nil => simp [ActionStack.empty, hi] at h
  | cons a l => simp [ActionStack.size, ActionStack.pop, hi]

/-- `WorkflowRenderer::checkActions`. -/
def checkActions (ops : WorkflowOps W) (r : WorkflowRenderer W) : WorkflowRenderer W :=
  let r := r.lockActions
  if r.m_actions.size = 0 then
    r.unlockActions
  else
    (checkActionsLoop ops r).unlockActions

/-- `WorkflowRenderer::removeClip`. -/
def removeClip (ops : WorkflowOps W) (r : WorkflowRenderer W) (uuid : Uuid) (trackId : Nat)
    (trackType : TrackType) : WorkflowRenderer W :=
  if r.m_isRendering = true then
    let act := Action.RemoveClip trackId trackType uuid
    let r := r.lockActions
    let r := r.addAction act
    r.unlockActions
  else
    { r with m_mainWorkflow := ops.removeClip uuid trackId trackType r.m_mainWorkflow }

/-- `WorkflowRenderer::addClip`. -/
def addClip (ops : WorkflowOps W) (r : WorkflowRenderer W) (clip : ClipPtr) (trackId : Nat)
    (startingPos : Int) (trackType : TrackType) : WorkflowRenderer W :=
  if r.m_isRendering = true then
    let act := Action.AddClip trackId trackType clip startingPos
    let r := r.lockActions
    let r := r.addAction act
    r.unlockActions
  else
    { r with m_mainWorkflow := ops.addClip clip trackId startingPos trackType r.m_mainWorkflow }

/-- `WorkflowRenderer::resizeClip`. -/
def resizeClip (ops : WorkflowOps W) (r : WorkflowRenderer W) (clip : ClipPtr)
    (newBegin newEnd : Int) : WorkflowRenderer W :=
  if r.m_isRendering = true then
    let act := Action.ResizeClip clip newBegin newEnd
    let r := r.lockActions
    let r := r.addAction act
    r.unlockActions
  else
    { r with m_mainWorkflow := ops.setBoundaries clip newBegin newEnd r.m_mainWorkflow }

end WorkflowRenderer

/-- A run of enqueue calls on the renderer: each command goes in through
`m_actions.push` (`true`) or `m_actions.addAction` (`false`), in list
order. -/
def enqueueAll {W : Type} (r : WorkflowRenderer W) (acts : List (Bool × Action)) :
    WorkflowRenderer W :=
  acts.foldl (fun r p => if p.1 = true then r.push p.2 else r.addAction p.2) r

/-- A world that is the list of the operations applied to it, oldest
first: the operations of any other world can be replayed from it. -/
def journalOps : WorkflowOps (List Action) where
  addClip clip trackId startingPos trackType w :=
    w ++ [Action.AddClip trackId trackType clip startingPos]
  removeClip uuid trackId trackType w := w ++ [Action.RemoveClip trackId trackType uuid]
  setBoundaries clip newBegin newEnd w := w ++ [Action.ResizeClip clip newBegin newEnd]
  pause w := w ++ [Action.Pause]
  unpause w := w ++ [Action.Unpause]

/-- A renderer that is not rendering, over an empty journal world, with
nothing queued. -/
def idleRenderer : WorkflowRenderer (List Action) :=
  { m_mainWorkflow := [], m_actions := { items := [] }, m_isRendering := false,
    m_paused := false, m_stopping := false, journal := [] }

/-- The same renderer while it renders. -/
def playingRenderer : WorkflowRenderer (List Action) :=
  { idleRenderer with m_isRendering := true }

/-! ## The renderer's other entry points -/

/-- The `MainWorkflow::FrameChangedReason` enumerators the renderer passes
to `setCurrentFrame`. -/
inductive FrameChangedReason where
  | TimelineCursor
  | PreviewCursor
  | RulerCursor
  deriving DecidableEq, Repr

/-- What `lock` reads of `*(ret->video)`: the bytes `frame.octets` and the
count `nboctets`. -/
structure VideoFrame where
  octets : List Nat
  nboctets : Nat
  deriving DecidableEq, Repr

/-- A `MainWorkflow::OutputBuffers`: the video frame and the audio sample
pointer of one tick. -/
structure OutputBuffers where
  video : VideoFrame
  audio : Nat
  deriving DecidableEq, Repr

/-- The further calls the renderer makes on its collaborators, on the same
world `W`: `MainWorkflow::setCurrentFrame`, `Clip::getBegin`, `getEnd`,
`getUuid` and `setEnd`, `new Clip( clip, begin, end )` (the address of the
new clip and the world with it), the `Clip*` that
`MainWorkflow::removeClip` returns, `delete` on that pointer, and
`MainWorkflow::getSynchroneOutput`. -/
structure RendererOps (W : Type) extends WorkflowOps W where
  setCurrentFrame : Int → FrameChangedReason → W → W
  getBegin : ClipPtr → W → Int
  getEnd : ClipPtr → W → Int
  getUuid : ClipPtr → W → Uuid
  setEnd : ClipPtr → Int → W → W
  newClip : ClipPtr → Int → Int → W → ClipPtr × W
  removedClip : Uuid → Nat → TrackType → W → Option ClipPtr
  deleteClip : Option ClipPtr → W → W
  getSynchroneOutput : W → OutputBuffers × W

/-- The call `memcpy( dst, src, n )` on byte lists, for `n` within both:
the first `n` bytes of `dst` become those of `src`. -/
def memcpy (dst src : List Nat) (n : Nat) : List Nat :=
  src.take n ++ dst.drop n

namespace WorkflowRenderer

variable {W : Type}

/-- `WorkflowRenderer::timelineCursorChanged`. -/
def timelineCursorChanged (ops : RendererOps W) (r : WorkflowRenderer W) (newFrame : Int) :
    WorkflowRenderer W :=
  { r with m_mainWorkflow :=
      ops.setCurrentFrame newFrame FrameChangedReason.TimelineCursor r.m_mainWorkflow }

/-- `WorkflowRenderer::previewWidgetCursorChanged`. -/
def previewWidgetCursorChanged (ops : RendererOps W) (r : WorkflowRenderer W)
    (newFrame : Int) : WorkflowRenderer W :=
  { r with m_mainWorkflow :=
      ops.setCurrentFrame newFrame FrameChangedReason.PreviewCursor r.m_mainWorkflow }

/-- `WorkflowRenderer::rulerCursorChanged`. -/
def rulerCursorChanged (ops : RendererOps W) (r : WorkflowRenderer W) (newFrame : Int) :
    WorkflowRenderer W :=
  { r with m_mainWorkflow :=
      ops.setCurrentFrame newFrame FrameChangedReason.RulerCursor r.m_mainWorkflow }

/-- `WorkflowRenderer::split`: the new clip and the renderer afterwards. -/
def split (ops : RendererOps W) (r : WorkflowRenderer W) (toSplit : ClipPtr) (trackId : Nat)
    (newClipPos newClipBegin : Int) (trackType : TrackType) : ClipPtr × WorkflowRenderer W :=
  let made := ops.newClip toSplit newClipBegin (ops.getEnd toSplit r.m_mainWorkflow)
    r.m_mainWorkflow
  let newClip := made.1
  let r := { r with m_mainWorkflow := made.2 }
  if r.m_isRendering = true then
    let act := Action.AddClip trackId trackType newClip newClipPos
    let act2 := Action.ResizeClip toSplit (ops.getBegin toSplit r.m_mainWorkflow) newClipBegin
    let r := r.lockActions
    let r := r.addAction act
    let r := r.push act2
    (newClip, r.unlockActions)
  else
    let r := { r with m_mainWorkflow := ops.setEnd toSplit newClipBegin r.m_mainWorkflow }
    let placed := ops.addClip newClip trackId newClipPos trackType r.m_mainWorkflow
    (newClip, { r with m_mainWorkflow := placed })

/-- `WorkflowRenderer::unsplit`. -/
def unsplit (ops : RendererOps W) (r : WorkflowRenderer W) (origin splitted : ClipPtr)
    (trackId : Nat) (oldEnd : Int) (trackType : TrackType) : WorkflowRenderer W :=
  if r.m_isRendering = true then
    let act := Action.RemoveClip trackId trackType (ops.getUuid splitted r.m_mainWorkflow)
    let act2 := Action.ResizeClip origin (ops.getBegin splitted r.m_mainWorkflow) oldEnd
    let r := r.lockActions
    let r := r.addAction act
    let r := r.addAction act2
    r.unlockActions
  else
    let uuid := ops.getUuid splitted r.m_mainWorkflow
    let removed := ops.removedClip uuid trackId trackType r.m_mainWorkflow
    let r := { r with m_mainWorkflow := ops.removeClip uuid trackId trackType r.m_mainWorkflow }
    let r := { r with m_mainWorkflow := ops.deleteClip removed r.m_mainWorkflow }
    { r with m_mainWorkflow := ops.setEnd origin oldEnd r.m_mainWorkflow }

/-- `WorkflowRenderer::lock`: the bytes of the buffer it returns
(`self->m_renderVideoFrame`) and the renderer afterwards. -/
def lock (ops : RendererOps W) (self : WorkflowRenderer W) : List Nat × WorkflowRenderer W :=
  let self :=
    if self.m_stopping = false then
      let fetched := ops.getSynchroneOutput self.m_mainWorkflow
      let ret := fetched.1
      { self with
        m_mainWorkflow := fetched.2,
        journal := self.journal ++ [RendererEvent.getSynchroneOutput],
        m_renderVideoFrame := memcpy self.m_renderVideoFrame ret.video.octets ret.video.nboctets,
        m_renderAudioSample := some ret.audio }
    else self
  (self.m_renderVideoFrame, self)

/-- `WorkflowRenderer::unlock`. -/
def unlock (ops : RendererOps W) (self : WorkflowRenderer W) : WorkflowRenderer W :=
  checkActions ops.toWorkflowOps self

end WorkflowRenderer

/-- Modelled from the spec: `Clip` with its boundaries and `MainWorkflow`
are not among the sources. What the renderer relies on, as laws of the
world's operations ("Clip: identity, trimmed interval `[begin, end)`";
"Track: ordered mapping from start-time" to clips): a new clip is a new
object with the boundaries given; `setEnd` and `setBoundaries` set the
boundaries of their clip and of no other; adding, removing, pausing and
unpausing leave all boundaries alone; `addClip` puts the clip on the track
at the position given, and resizing leaves the tracks alone. `trackClips`
is the list of clips on a track with their positions. -/
structure LawfulWorld {W : Type} (ops : RendererOps W)
    (trackClips : Nat → TrackType → W → List (ClipPtr × Int)) : Prop where
  newClip_ne : ∀ src b e w, (ops.newClip src b e w).1 ≠ src
  newClip_begin : ∀ src b e w, ops.getBegin (ops.newClip src b e w).1 (ops.newClip src b e w).2 = b
  newClip_end : ∀ src b e w, ops.getEnd (ops.newClip src b e w).1 (ops.newClip src b e w).2 = e
  newClip_other : ∀ src b e w c, c ≠ (ops.newClip src b e w).1 →
    ops.getBegin c (ops.newClip src b e w).2 = ops.getBegin c w ∧
    ops.getEnd c (ops.newClip src b e w).2 = ops.getEnd c w
  setEnd_end : ∀ c e w, ops.getEnd c (ops.setEnd c e w) = e
  setEnd_begin : ∀ c e w c2, ops.getBegin c2 (ops.setEnd c e w) = ops.getBegin c2 w
  setEnd_other : ∀ c e w c2, c2 ≠ c → ops.getEnd c2 (ops.setEnd c e w) = ops.getEnd c2 w
  setBoundaries_self : ∀ c b e w,
    ops.getBegin c (ops.setBoundaries c b e w) = b ∧ ops.getEnd c (ops.setBoundaries c b e w) = e
  setBoundaries_other : ∀ c b e w c2, c2 ≠ c →
    ops.getBegin c2 (ops.setBoundaries c b e w) = ops.getBegin c2 w ∧
    ops.getEnd c2 (ops.setBoundaries c b e w) = ops.getEnd c2 w
  setBoundaries_tracks : ∀ c b e w t tt,
    trackClips t tt (ops.setBoundaries c b e w) = trackClips t tt w
  addClip_bounds : ∀ c t pos tt w c2,
    ops.getBegin c2 (ops.addClip c t pos tt w) = ops.getBegin c2 w ∧
    ops.getEnd c2 (ops.addClip c t pos tt w) = ops.getEnd c2 w
  addClip_tracks : ∀ c t pos tt w, (c, pos) ∈ trackClips t tt (ops.addClip c t pos tt w)
  removeClip_bounds : ∀ u t tt w c2,
    ops.getBegin c2 (ops.removeClip u t tt w) = ops.getBegin c2 w ∧
    ops.getEnd c2 (ops.removeClip u t tt w) = ops.getEnd c2 w
  pause_bounds : ∀ w c2,
    ops.getBegin c2 (ops.pause w) = ops.getBegin c2 w ∧
    ops.getEnd c2 (ops.pause w) = ops.getEnd c2 w
  unpause_bounds : ∀ w c2,
    ops.getBegin c2 (ops.unpause w) = ops.getBegin c2 w ∧
    ops.getEnd c2 (ops.unpause w) = ops.getEnd c2 w

/-! ## A reference world for the renderer -/

/-- Modelled from the spec: a `Clip` as the renderer sees it, "identity
(unique id), trimmed interval `[begin, end)`". -/
structure ClipData where
  uuid : Uuid
  m_begin : Int
  m_end : Int
  deriving DecidableEq, Repr

/-- A clip placed on a track at a start frame. -/
structure Placement where
  trackId : Nat
  trackType : TrackType
  clip : ClipPtr
  start : Int
  deriving DecidableEq, Repr

/-- Modelled from the spec: the clips by address, the next address to hand
out, the clips placed on the tracks, the clips deleted, and the main
workflow's current frame, the origin of its last change and its pause
flag. -/
structure EditWorld where
  clips : ClipPtr → ClipData
  fresh : ClipPtr
  tracks : List Placement
  deleted : List ClipPtr
  currentFrame : Int
  reason : Option FrameChangedReason
  paused : Bool

/-- Whether a placement is the clip with this id on this track. -/
def EditWorld.holds (w : EditWorld) (uuid : Uuid) (trackId : Nat) (trackType : TrackType)
    (p : Placement) : Bool :=
  decide (p.trackId = trackId ∧ p.trackType = trackType ∧ (w.clips p.clip).uuid = uuid)

/-- Modelled from the spec: the operations of `Clip` and `MainWorkflow` on
the reference world. A new clip gets an address never handed out before
(and other than that of the clip it copies) and that address as its id;
`removeClip` takes the clip with the id given off the track and returns
it; `getSynchroneOutput` hands out a four-byte frame for the current frame
and moves to the next frame. -/
def editOps : RendererOps EditWorld where
  addClip clip trackId startingPos trackType w :=
    let placed : Placement :=
      { trackId := trackId, trackType := trackType, clip := clip, start := startingPos }
    { w with tracks := w.tracks ++ [placed] }
  removeClip uuid trackId trackType w :=
    { w with tracks := w.tracks.filter (fun p => !(w.holds uuid trackId trackType p)) }
  setBoundaries clip newBegin newEnd w :=
    let resized : ClipData := { (w.clips clip) with m_begin := newBegin, m_end := newEnd }
    { w with clips := Function.update w.clips clip resized }
  pause w := { w with paused := true }
  unpause w := { w with paused := false }
  setCurrentFrame frame reason w := { w with currentFrame := frame, reason := some reason }
  getBegin clip w := (w.clips clip).m_begin
  getEnd clip w := (w.clips clip).m_end
  getUuid clip w := (w.clips clip).uuid
  setEnd clip newEnd w :=
    let resized : ClipData := { (w.clips clip) with m_end := newEnd }
    { w with clips := Function.update w.clips clip resized }
  newClip src newBegin newEnd w :=
    let address := max w.fresh (src + 1)
    let made : ClipData := { uuid := address, m_begin := newBegin, m_end := newEnd }
    (address, { w with clips := Function.update w.clips address made, fresh := address + 1 })
  removedClip uuid trackId trackType w :=
    (w.tracks.find? (w.holds uuid trackId trackType)).map (fun p => p.clip)
  deleteClip removed w :=
    match removed with
    | none => w
    | some clip => { w with deleted := w.deleted ++ [clip] }
  getSynchroneOutput w :=
    let video : VideoFrame :=
      { octets := List.replicate 4 (w.currentFrame.toNat % 256), nboctets := 4 }
    ({ video := video, audio := w.currentFrame.toNat },
      { w with currentFrame := w.currentFrame + 1 })

/-- The clips on a track of the reference world, with their positions. -/
def editTrackClips (trackId : Nat) (trackType : TrackType) (w : EditWorld) :
    List (ClipPtr × Int) :=
  (w.tracks.filter (fun p => decide (p.trackId = trackId ∧ p.trackType = trackType))).map
    (fun p => (p.clip, p.start))

/-- A world with one clip, at address 1, with boundaries 0 and 100, placed
on track 0 at frame 0. -/
def oneClipWorld : EditWorld :=
  { clips := fun c => { uuid := c, m_begin := 0, m_end := 100 },
    fresh := 2,
    tracks := [{ trackId := 0, trackType := 0, clip := 1, start := 0 }],
    deleted := [], currentFrame := 0, reason := none, paused := false }

/-- A renderer over `oneClipWorld`, rendering or not, with nothing queued
and a video buffer of eight zero bytes. -/
def editRenderer (rendering : Bool) : WorkflowRenderer EditWorld :=
  { m_mainWorkflow := oneClipWorld, m_actions := { items := [] }, m_isRendering := rendering,
    m_paused := false, m_stopping := false, journal := [],
    m_renderVideoFrame := List.replicate 8 0, m_renderAudioSample := none }

/-- What a split of `toSplit` at `p` is to leave in the world `w`: the new
clip with boundaries `p` and `e`, the clip split with boundaries `b` and
`p`, and the new clip on the track at `pos`. -/
def SplitDone {W : Type} (ops : RendererOps W)
    (trackClips : Nat → TrackType → W → List (ClipPtr × Int))
    (toSplit newClip : ClipPtr) (b e p : Int) (trackId : Nat) (trackType : TrackType)
    (pos : Int) (w : W) : Prop :=
  ops.getBegin newClip w = p ∧ ops.getEnd newClip w = e ∧
  ops.getBegin toSplit w = b ∧ ops.getEnd toSplit w = p ∧
  (newClip, pos) ∈ trackClips trackId trackType w

/-- The renderer over `oneClipWorld` after its clip was split at 40 while
not rendering (clip 1 now has boundaries 0 and 40, the new clip 2 has
boundaries 40 and 100 and lies on track 0 at frame 40), with the rendering
flag set as given. -/
def splitRenderer (rendering : Bool) : WorkflowRenderer EditWorld :=
  { (WorkflowRenderer.split editOps (editRenderer false) 1 0 40 40 0).2 with
    m_isRendering := rendering }

/-- A renderer that is not stopping, over a world at frame 7. -/
def frameSevenRenderer : WorkflowRenderer EditWorld :=
  { editRenderer true with m_mainWorkflow := { oneClipWorld with currentFrame := 7 } }

/-! ## EffectsEngine -/

/-- The places frames are held in: the input slots `m_videoInputs[i]`, the
connection from the output `out` of `m_effects[0]` to the input `in` of
`m_effects[1]`, and the output slots `m_videoOutputs[i]`. -/
inductive Slot where
  | videoInput (i : Nat)
  | link
  | videoOutput (i : Nat)
  deriving DecidableEq, Repr

/-- Modelled from the spec: the effect classes are not among the sources.
A stage has named input ports, each wired to a slot, and an output wired to
a slot; "each stage reads only its wired inputs and writes its wired
output, a pure function of current slot contents given static wiring":
`compute` is that function, from the named values read to the value
written. -/
structure Effect (F : Type) where
  compute : List (String × F) → F
  inputs : List (String × Slot)
  output : Option Slot

namespace Effect

variable {F : Type}

/-- Modelled from the spec: `connect( slot, name )` wires the input port
`name` to the slot. -/
def connect (fx : Effect F) (slot : Slot) (name : String) : Effect F :=
  { fx with inputs := fx.inputs ++ [(name, slot)] }

/-- Modelled from the spec: wiring the output of the stage to a slot
(`connect( "out", slot )`, and the near end of `connectOutput`). -/
def connectOut (fx : Effect F) (slot : Slot) : Effect F :=
  { fx with output := some slot }

/-- Modelled from the spec: `render()` of one stage reads the slots its
inputs are wired to, computes, and writes the slot its output is wired
to. -/
def render (fx : Effect F) (slots : Slot → F) : Slot → F :=
  match fx.output with
  | none => slots
  | some out => Function.update slots out (fx.compute (fx.inputs.map (fun p => (p.1, slots p.2))))

end Effect

/-- The engine: the contents of its slots, its stages `m_effects`, and the
stages rendered so far (a ghost trace). -/
structure EffectsEngine (F : Type) where
  slots : Slot → F
  m_effects : Nat → Effect F
  rendered : List Nat

namespace EffectsEngine

variable {F : Type}

/-- `EffectsEngine::render`. -/
def render (e : EffectsEngine F) : EffectsEngine F :=
  let e := { e with slots := (e.m_effects 0).render e.slots, rendered := e.rendered ++ [0] }
  { e with slots := (e.m_effects 1).render e.slots, rendered := e.rendered ++ [1] }

/-- `EffectsEngine::setInputFrame`. -/
def setInputFrame (e : EffectsEngine F) (frame : F) (tracknumber : Nat) : EffectsEngine F :=
  { e with slots := Function.update e.slots (Slot.videoInput tracknumber) frame }

/-- `EffectsEngine::getOutputFrame`. -/
def getOutputFrame (e : EffectsEngine F) (tracknumber : Nat) : F :=
  e.slots (Slot.videoOutput tracknumber)

/-- `EffectsEngine::loadEffects`: two new stages, not wired yet; `mixer` and
`pouet` are what `MixerEffect` and `PouetEffect` compute. -/
def loadEffects (mixer pouet : List (String × F) → F) (e : EffectsEngine F) :
    EffectsEngine F :=
  { e with m_effects := fun k =>
      if k = 0 then { compute := mixer, inputs := [], output := none }
      else if k = 1 then { compute := pouet, inputs := [], output := none }
      else e.m_effects k }

/-- `EffectsEngine::patchEffects`. -/
def patchEffects (e : EffectsEngine F) : EffectsEngine F :=
  let first := (List.range 64).foldl
    (fun fx i => fx.connect (Slot.videoInput i) ("track" ++ toString i)) (e.m_effects 0)
  let first := first.connectOut Slot.link
  let second := (e.m_effects 1).connect Slot.link "in"
  let second := second.connectOut (Slot.videoOutput 0)
  { e with m_effects := fun k => if k = 0 then first else if k = 1 then second else e.m_effects k }

/-- `EffectsEngine::start`. -/
def start (mixer pouet : List (String × F) → F) (e : EffectsEngine F) : EffectsEngine F :=
  patchEffects (loadEffects mixer pouet e)

end EffectsEngine

/-- An engine over number frames: input slot `i` holds `i`, the connection
between the stages holds `stale`, every output slot holds 0. -/
def numberEngine (stale : Nat) : EffectsEngine Nat :=
  { slots := fun s =>
      match s with
      | Slot.videoInput i => i
      | Slot.link => stale
      | Slot.videoOutput _ => 0,
    m_effects := fun _ => { compute := fun _ => 0, inputs := [], output := none },
    rendered := [] }

/-- A mixer over number frames: the sum of the values at its inputs. -/
def sumMixer (ins : List (String × Nat)) : Nat := (ins.map (fun p => p.2)).sum

/-- A second stage over number frames: one more than the sum of its
inputs. -/
def succEffect (ins : List (String × Nat)) : Nat := (ins.map (fun p => p.2)).sum + 1

/-! ## Building a track -/

namespace TrackWorkflow

variable {σ : Type}

/-- The constructor `TrackWorkflow::TrackWorkflow( trackId )`: `m_length( 0 )`
and a map with no entry. -/
def construct (trackId : Nat) : TrackWorkflow σ :=
  { m_trackId := trackId, m_length := 0, m_clips := [] }

/-- Qt's `QMap::insert( key, value )` on the entries in ascending key order:
the value of an entry with that key is replaced, otherwise the entry goes
before the first entry with a greater key. -/
def qmapInsert (key : Int) (value : ClipWorkflow σ) :
    List (Int × ClipWorkflow σ) → List (Int × ClipWorkflow σ)
  | [] => [(key, value)]
  | it :: rest =>
    if key < it.1 then (key, value) :: it :: rest
    else if key = it.1 then (key, value) :: rest
    else it :: qmapInsert key value rest

/-- `TrackWorkflow::computeLength`. The test for an empty map has neither
`else` nor `return`, so the two lines below it run on every call; `none` is
the undefined `m_clips.end() - 1` of an empty map. -/
def computeLength (tw : TrackWorkflow σ) : Option (TrackWorkflow σ) :=
  let tw := if tw.m_clips.length = 0 then { tw with m_length := 0 } else tw
  match tw.m_clips.getLast? with
  | none => none
  | some it => some { tw with m_length := it.1 + it.2.clipLength }

/-- `TrackWorkflow::addClip`: `made` is the object `new ClipWorkflow( clip )`
makes, `clipLength` the value of `clip->getLength()`. -/
def addClip (tw : TrackWorkflow σ) (made : σ) (clipLength : Int) (start : Int) :
    Option (TrackWorkflow σ) :=
  let cw : ClipWorkflow σ := { impl := made, clipLength := clipLength, calls := [] }
  computeLength { tw with m_clips := qmapInsert start cw tw.m_clips }

/-- `TrackWorkflow::getLength`. -/
def getLength (tw : TrackWorkflow σ) : Int := tw.m_length

/-- A sequence of `addClip` calls on a track, one for each
`(made, clipLength, start)`, in order. -/
def addClips (tw : TrackWorkflow σ) : List (σ × Int × Int) → Option (TrackWorkflow σ)
  | [] => some tw
  | a :: rest =>
    match addClip tw a.1 a.2.1 a.2.2 with
    | none => none
    | some tw => addClips tw rest

end TrackWorkflow

/-- A stopped reference clip workflow object, as a new one. -/
def stoppedSim : SimClip :=
  { state := State.Stopped, required := none, position := none, frame := 0 }

/-- Three `addClip` calls, out of key order: 100 frames at 0, 100 frames at
150, 50 frames at 20. -/
def threeAdds : List (SimClip × Int × Int) :=
  [(stoppedSim, 100, 0), (stoppedSim, 100, 150), (stoppedSim, 50, 20)]

/-- A track played up to frame 100, the end of its first clip: that clip on
frames 0 to 100 and a second on frames 150 to 250, both asleep with a frame
ready. -/
def resumeTrack : TrackWorkflow SimClip :=
  { m_trackId := 0, m_length := 250,
    m_clips := [(0, simClip State.Sleeping 100), (150, simClip State.Sleeping 100)] }

/-- A track whose only clip, 50 frames at 100, is stopped. -/
def stoppedTrack : TrackWorkflow SimClip :=
  { m_trackId := 0, m_length := 150, m_clips := [(100, simClip State.Stopped 50)] }

/-! ## Polling loops -/

section Polling

variable {σ : Type}

open TrackWorkflow

theorem waitWhileRendering_of_not_rendering (ops : ClipOps σ) (fuel : Nat)
    (cw : ClipWorkflow σ) (h : cw.getState ops ≠ State.Rendering) :
    waitWhileRendering ops fuel cw = some cw := by
  cases fuel <;> simp [waitWhileRendering, ClipWorkflow.isRendering, h]

theorem waitUntilReady_of_ready (ops : ClipOps σ) (fuel : Nat)
    (cw : ClipWorkflow σ) (h : cw.getState ops = State.Ready) :
    waitUntilReady ops fuel cw = some cw := by
  cases fuel <;> simp [waitUntilReady, ClipWorkflow.isReady, h]

/-- The wait for the end of a rendering looks at the object only: on a
clip with other recorded calls it sleeps as often and appends the same
calls. -/
theorem waitWhileRendering_eq (ops : ClipOps σ) (fuel : Nat) (cw : ClipWorkflow σ) :
    waitWhileRendering ops fuel cw =
      (waitWhileRendering ops fuel { impl := cw.impl, clipLength := 0, calls := [] }).map
        (fun w => { impl := w.impl, clipLength := cw.clipLength, calls := cw.calls ++ w.calls }) := by
  induction fuel generalizing cw with
  | zero =>
    by_cases h : ops.getState cw.impl = State.Rendering <;>
      simp [waitWhileRendering, ClipWorkflow.isRendering, ClipWorkflow.getState, h]
  | succ n ih =>
    by_cases h : ops.getState cw.impl = State.Rendering
    · simp only [waitWhileRendering, ClipWorkflow.isRendering, ClipWorkflow.getState, h,
        decide_True, if_true]
      rw [ih (cw.usleep ops 100),
        ih (ClipWorkflow.usleep ops 100 { impl := cw.impl, clipLength := 0, calls := [] })]
      simp [ClipWorkflow.usleep, Option.map_map, Function.comp_def, List.append_assoc]
    · simp [waitWhileRendering, ClipWorkflow.isRendering, ClipWorkflow.getState, h]

/-- The wait for readiness looks at the object only. -/
theorem waitUntilReady_eq (ops : ClipOps σ) (fuel : Nat) (cw : ClipWorkflow σ) :
    waitUntilReady ops fuel cw =
      (waitUntilReady ops fuel { impl := cw.impl, clipLength := 0, calls := [] }).map
        (fun w => { impl := w.impl, clipLength := cw.clipLength, calls := cw.calls ++ w.calls }) := by
  induction fuel generalizing cw with
  | zero =>
    by_cases h : ops.getState cw.impl = State.Ready <;>
      simp [waitUntilReady, ClipWorkflow.isReady, ClipWorkflow.getState, h]
  | succ n ih =>
    by_cases h : ops.getState cw.impl = State.Ready
    · simp [waitUntilReady, ClipWorkflow.isReady, ClipWorkflow.getState, h]
    · simp only [waitUntilReady, ClipWorkflow.isReady, ClipWorkflow.getState, h,
        decide_False, if_true]
      rw [ih (cw.usleep ops 20),
        ih (ClipWorkflow.usleep ops 20 { impl := cw.impl, clipLength := 0, calls := [] })]
      simp [ClipWorkflow.usleep, Option.map_map, Function.comp_def, List.append_assoc]

/-- Whether the wait for the end of a rendering ends within the fuel depends
on the object only. -/
theorem waitWhileRendering_isSome_congr (ops : ClipOps σ) (fuel : Nat)
    (cw cw2 : ClipWorkflow σ) (h : cw2.impl = cw.impl) :
    (waitWhileRendering ops fuel cw2).isSome = (waitWhileRendering ops fuel cw).isSome := by
  rw [waitWhileRendering_eq ops fuel cw2, waitWhileRendering_eq ops fuel cw, h]
  simp

/-- Whether the wait for readiness ends within the fuel depends on the
object only. -/
theorem waitUntilReady_isSome_congr (ops : ClipOps σ) (fuel : Nat)
    (cw cw2 : ClipWorkflow σ) (h : cw2.impl = cw.impl) :
    (waitUntilReady ops fuel cw2).isSome = (waitUntilReady ops fuel cw).isSome := by
  rw [waitUntilReady_eq ops fuel cw2, waitUntilReady_eq ops fuel cw, h]
  simp

/-- When the wait for the end of a rendering returns, the clip is no longer
`Rendering`. -/
theorem waitWhileRendering_state (ops : ClipOps σ) (fuel : Nat) (cw cw2 : ClipWorkflow σ)
    (h : waitWhileRendering ops fuel cw = some cw2) :
    cw2.getState ops ≠ State.Rendering := by
  induction fuel generalizing cw with
  | zero =>
    by_cases hr : cw.getState ops = State.Rendering
    · simp [waitWhileRendering, ClipWorkflow.isRendering, hr] at h
    · simp [waitWhileRendering, ClipWorkflow.isRendering, hr] at h
      exact h ▸ hr
  | succ n ih =>
    by_cases hr : cw.getState ops = State.Rendering
    · simp only [waitWhileRendering, ClipWorkflow.isRendering, hr, decide_True, if_true] at h
      exact ih _ h
    · simp [waitWhileRendering, ClipWorkflow.isRendering, hr] at h
      exact h ▸ hr

/-- With a decoder that never finishes its frame, the wait for the end of a
rendering outlasts any fuel. -/
theorem waitWhileRendering_stuck (fuel : Nat) (cw : ClipWorkflow SimClip)
    (h : cw.impl.state = State.Rendering) :
    waitWhileRendering stuckOps fuel cw = none := by
  induction fuel generalizing cw with
  | zero =>
    simp [waitWhileRendering, ClipWorkflow.isRendering, ClipWorkflow.getState, stuckOps, simOps, h]
  | succ n ih =>
    have hs : (cw.usleep stuckOps 100).impl.state = State.Rendering := h
    have hr : cw.isRendering stuckOps = true := by
      simp [ClipWorkflow.isRendering, ClipWorkflow.getState, stuckOps, simOps, h]
    simp only [waitWhileRendering, hr, if_true]
    exact ih _ hs

/-- With a decoder that never finishes its frame, `stopClipWorkflow` on a
clip caught `Rendering` does not return, whatever the fuel: the assumption
that the polls end is needed. -/
theorem stopClipWorkflow_stuck (fuel : Nat) :
    stopClipWorkflow stuckOps fuel (simClip State.Rendering 10) = none := by
  have hw := waitWhileRendering_stuck fuel (simClip State.Rendering 10).lockForRead.unlock rfl
  have h1 : (simClip State.Rendering 10).lockForRead.getState stuckOps = State.Rendering := rfl
  simp only [stopClipWorkflow, h1, hw]
  simp

end Polling

/-! ## Stopping and preloading one clip -/

section OneClip

variable {σ : Type}

open TrackWorkflow

@[simp] theorem getState_lockForRead (ops : ClipOps σ) (cw : ClipWorkflow σ) :
    cw.lockForRead.getState ops = cw.getState ops := rfl

@[simp] theorem getState_unlock (ops : ClipOps σ) (cw : ClipWorkflow σ) :
    cw.unlock.getState ops = cw.getState ops := rfl

/-- From a state none of the tests of `stopClipWorkflow` names, it takes and
releases the state lock and does nothing else. -/
theorem stopClipWorkflow_unexpected (ops : ClipOps σ) (fuel : Nat) (cw : ClipWorkflow σ)
    (h : cw.getState ops = State.Stopping ∨ cw.getState ops = State.UnpauseRequired ∨
      cw.getState ops = State.PauseRequired ∨ cw.getState ops = State.Paused ∨
      cw.getState ops = State.None) :
    stopClipWorkflow ops fuel cw =
      some { cw with calls := cw.calls ++ [Call.lockForRead, Call.unlock] } := by
  simp only [ClipWorkflow.getState] at h
  rcases h with h | h | h | h | h <;>
    simp [stopClipWorkflow, ClipWorkflow.getState, h, ClipWorkflow.unlock,
      ClipWorkflow.lockForRead]

/-- From the states `stopClipWorkflow` tests for, it returns (when its poll
ends within the fuel) a clip on which `stop()` was the last call, or the
clip was `Stopped` and is untouched. -/
theorem stopClipWorkflow_expected (ops : ClipOps σ) (fuel : Nat) (cw : ClipWorkflow σ)
    (hsettle : Settles ops fuel cw)
    (h : cw.getState ops = State.Stopped ∨ cw.getState ops = State.Sleeping ∨
      cw.getState ops = State.Ready ∨ cw.getState ops = State.EndReached ∨
      cw.getState ops = State.Rendering ∨ cw.getState ops = State.Initializing) :
    ∃ cw2, stopClipWorkflow ops fuel cw = some cw2 ∧
      (cw2.impl = cw.impl ∧ cw.getState ops = State.Stopped ∨ ∃ s, cw2.impl = ops.stop s) := by
  rcases h with h | h | h | h | h | h
  · refine ⟨cw.lockForRead.unlock, ?_, Or.inl ⟨rfl, h⟩⟩
    simp [stopClipWorkflow, h]
  · refine ⟨(((cw.lockForRead.unlock).queryStateChange ops State.Stopping).wake ops).stop ops,
      ?_, Or.inr ⟨_, rfl⟩⟩
    simp [stopClipWorkflow, h]
  · refine ⟨(((cw.lockForRead.unlock).queryStateChange ops State.Stopping).wake ops).stop ops,
      ?_, Or.inr ⟨_, rfl⟩⟩
    simp [stopClipWorkflow, h]
  · refine ⟨(((cw.lockForRead.unlock).queryStateChange ops State.Stopping).wake ops).stop ops,
      ?_, Or.inr ⟨_, rfl⟩⟩
    simp [stopClipWorkflow, h]
  · have hs := hsettle.1 h
    rw [← waitWhileRendering_isSome_congr ops fuel cw cw.lockForRead.unlock rfl] at hs
    obtain ⟨w, hw⟩ := Option.isSome_iff_exists.mp hs
    refine ⟨((w.queryStateChange ops State.Stopping).wake ops).stop ops, ?_, Or.inr ⟨_, rfl⟩⟩
    simp [stopClipWorkflow, h, hw]
  · have hs := hsettle.2 h
    rw [← waitUntilReady_isSome_congr ops fuel cw cw.lockForRead.unlock rfl] at hs
    obtain ⟨w, hw⟩ := Option.isSome_iff_exists.mp hs
    refine ⟨w.stop ops, ?_, Or.inr ⟨_, rfl⟩⟩
    simp [stopClipWorkflow, h, hw]

/-- C4 (as stated, refuted): with a `stop()` that always ends in `Stopped`
and polls that end at once, `stopClipWorkflow` called on a clip in state
`Paused` returns with the clip still `Paused`. -/
theorem stopClipWorkflow_paused_stays_paused :
    (∀ s, simOps.getState (simOps.stop s) = State.Stopped) ∧
    Settles simOps 4 (simClip State.Paused 10) ∧
    ∃ cw2, stopClipWorkflow simOps 4 (simClip State.Paused 10) = some cw2 ∧
      cw2.getState simOps = State.Paused ∧ cw2.getState simOps ≠ State.Stopped := by
  refine ⟨fun s => rfl, ⟨by decide, by decide⟩, _, rfl, by decide, by decide⟩

/-- C4 (amended): assuming `ClipWorkflow::stop()` ends in `Stopped` and the
polls end within the fuel, `stopClipWorkflow` returns with the clip
`Stopped` from each of the states it tests for (`Stopped`, `Sleeping`,
`Ready`, `EndReached`, `Rendering`, `Initializing`); from `Stopping`,
`UnpauseRequired`, `PauseRequired`, `Paused` and `None` it returns having
only taken and released the state lock, the clip unchanged. -/
theorem stopClipWorkflow_ends_stopped (ops : ClipOps σ) (fuel : Nat) (cw : ClipWorkflow σ)
    (hstop : ∀ s, ops.getState (ops.stop s) = State.Stopped)
    (hsettle : Settles ops fuel cw) :
    ((cw.getState ops = State.Stopped ∨ cw.getState ops = State.Sleeping ∨
        cw.getState ops = State.Ready ∨ cw.getState ops = State.EndReached ∨
        cw.getState ops = State.Rendering ∨ cw.getState ops = State.Initializing) →
      ∃ cw2, stopClipWorkflow ops fuel cw = some cw2 ∧ cw2.getState ops = State.Stopped) ∧
    ((cw.getState ops = State.Stopping ∨ cw.getState ops = State.UnpauseRequired ∨
        cw.getState ops = State.PauseRequired ∨ cw.getState ops = State.Paused ∨
        cw.getState ops = State.None) →
      stopClipWorkflow ops fuel cw =
        some { cw with calls := cw.calls ++ [Call.lockForRead, Call.unlock] }) := by
  refine ⟨fun h => ?_, stopClipWorkflow_unexpected ops fuel cw⟩
  obtain ⟨cw2, h2, h3⟩ := stopClipWorkflow_expected ops fuel cw hsettle h
  refine ⟨cw2, h2, ?_⟩
  rcases h3 with ⟨hi, hst⟩ | ⟨s, hs⟩
  · simpa [ClipWorkflow.getState, hi] using hst
  · simp [ClipWorkflow.getState, hs, hstop]

/-- Witness for C4 (amended): a reference clip caught `Rendering`, with a
decoder that finishes its frame during the first sleep. -/
theorem stopClipWorkflow_ends_stopped_witness :
    (∃ cw2, stopClipWorkflow simOps 4 (simClip State.Rendering 10) = some cw2 ∧
      cw2.getState simOps = State.Stopped) ∧
    (simClip State.Rendering 10).getState simOps = State.Rendering :=
  ⟨(stopClipWorkflow_ends_stopped simOps 4 (simClip State.Rendering 10) (fun _ => rfl)
      ⟨by decide, by decide⟩).1 (by decide), by decide⟩

/-- C5: `stopClipWorkflow` on a `Stopped` clip returns at once: it takes and
releases the state lock, makes no other call (no `queryStateChange`, `wake`
or `stop`), and leaves the object, hence its state `Stopped`, as it was.
So when a call returns a clip that is `Stopped`, a second call right after
it changes nothing either, whatever fuel it is given. -/
theorem stopClipWorkflow_stopped_noop (ops : ClipOps σ) (fuel : Nat) (cw : ClipWorkflow σ)
    (h : cw.getState ops = State.Stopped) :
    stopClipWorkflow ops fuel cw =
        some { cw with calls := cw.calls ++ [Call.lockForRead, Call.unlock] } ∧
    (∀ cw2, stopClipWorkflow ops fuel cw = some cw2 →
      cw2.impl = cw.impl ∧ cw2.getState ops = State.Stopped ∧
      (∀ c ∈ cw2.calls.drop cw.calls.length,
        c ≠ Call.stop ∧ c ≠ Call.wake ∧ ∀ t, c ≠ Call.queryStateChange t)) ∧
    (∀ fuel0 cw0, stopClipWorkflow ops fuel0 cw0 = some cw → ∀ fuel2,
      ∃ cw2, stopClipWorkflow ops fuel2 cw = some cw2 ∧ cw2.impl = cw.impl ∧
        cw2.getState ops = State.Stopped ∧
        cw2.calls = cw.calls ++ [Call.lockForRead, Call.unlock]) := by
  have key : ∀ f, stopClipWorkflow ops f cw =
      some { cw with calls := cw.calls ++ [Call.lockForRead, Call.unlock] } := by
    intro f
    simp only [ClipWorkflow.getState] at h
    simp [stopClipWorkflow, ClipWorkflow.getState, h, ClipWorkflow.unlock,
      ClipWorkflow.lockForRead]
  refine ⟨key fuel, ?_, ?_⟩
  · intro cw2 h2
    rw [key fuel] at h2
    cases h2
    refine ⟨rfl, h, ?_⟩
    intro c hc
    simp at hc
    rcases hc with rfl | rfl <;> simp
  · intro _ _ _ fuel2
    exact ⟨_, key fuel2, rfl, h, rfl⟩

/-- Witness for C5: a reference clip that is `Stopped`. -/
theorem stopClipWorkflow_stopped_noop_witness :
    stopClipWorkflow simOps 0 (simClip State.Stopped 10) =
      some { simClip State.Stopped 10 with calls := [Call.lockForRead, Call.unlock] } :=
  (stopClipWorkflow_stopped_noop simOps 0 (simClip State.Stopped 10) (by decide)).1

/-- C8: `preloadClip` calls `initialize` exactly when the clip is `Stopped`
(after taking and releasing the state lock) and otherwise only takes and
releases the lock; so two calls in a row on a `Stopped` clip that
`initialize` takes out of `Stopped` make exactly one `initialize` call. -/
theorem preloadClip_initializes_iff_stopped (ops : ClipOps σ) (cw : ClipWorkflow σ) :
    (cw.getState ops = State.Stopped →
      preloadClip ops cw =
        { cw with impl := ops.initializeClip cw.impl,
                  calls := cw.calls ++ [Call.lockForRead, Call.unlock, Call.initializeClip] }) ∧
    (cw.getState ops ≠ State.Stopped →
      preloadClip ops cw = { cw with calls := cw.calls ++ [Call.lockForRead, Call.unlock] }) ∧
    (Call.initializeClip ∈ (preloadClip ops cw).calls.drop cw.calls.length ↔
      cw.getState ops = State.Stopped) ∧
    (cw.getState ops = State.Stopped →
      ops.getState (ops.initializeClip cw.impl) ≠ State.Stopped →
      preloadClip ops (preloadClip ops cw) =
        { cw with impl := ops.initializeClip cw.impl,
                  calls := cw.calls ++ [Call.lockForRead, Call.unlock, Call.initializeClip,
                    Call.lockForRead, Call.unlock] } ∧
      ((preloadClip ops (preloadClip ops cw)).calls.drop cw.calls.length).count
        Call.initializeClip = 1) := by
  have h1 : cw.getState ops = State.Stopped →
      preloadClip ops cw =
        { cw with impl := ops.initializeClip cw.impl,
                  calls := cw.calls ++ [Call.lockForRead, Call.unlock, Call.initializeClip] } := by
    intro h
    simp only [ClipWorkflow.getState] at h
    simp [preloadClip, ClipWorkflow.getState, h, ClipWorkflow.unlock, ClipWorkflow.lockForRead,
      ClipWorkflow.initializeClip]
  have h2 : ∀ c : ClipWorkflow σ, c.getState ops ≠ State.Stopped →
      preloadClip ops c = { c with calls := c.calls ++ [Call.lockForRead, Call.unlock] } := by
    intro c h
    simp only [ClipWorkflow.getState, ne_eq] at h
    simp [preloadClip, ClipWorkflow.getState, h, ClipWorkflow.unlock, ClipWorkflow.lockForRead]
  refine ⟨h1, h2 cw, ?_, ?_⟩
  · by_cases h : cw.getState ops = State.Stopped
    · simp [h1 h, h]
    · simp [h2 cw h, h]
  · intro h hi
    have h3 : preloadClip ops (preloadClip ops cw) =
        { cw with impl := ops.initializeClip cw.impl,
                  calls := cw.calls ++ [Call.lockForRead, Call.unlock, Call.initializeClip,
                    Call.lockForRead, Call.unlock] } := by
      rw [h1 h, h2 _ (by simpa [ClipWorkflow.getState] using hi)]
      simp
    refine ⟨h3, ?_⟩
    rw [h3]
    simp

/-- Witness for C8: a reference clip that is `Stopped`, preloaded twice. -/
theorem preloadClip_initializes_iff_stopped_witness :
    ((preloadClip simOps (preloadClip simOps (simClip State.Stopped 10))).calls.drop
        (simClip State.Stopped 10).calls.length).count Call.initializeClip = 1 :=
  ((preloadClip_initializes_iff_stopped simOps (simClip State.Stopped 10)).2.2.2
    (by decide) (by decide)).2

end OneClip

/-! ## The helpers return, and keep the clip's length -/

section Helpers

variable {σ : Type}

open TrackWorkflow

theorem waitWhileRendering_clipLength (ops : ClipOps σ) (fuel : Nat) (cw w : ClipWorkflow σ)
    (h : waitWhileRendering ops fuel cw = some w) : w.clipLength = cw.clipLength := by
  rw [waitWhileRendering_eq] at h
  simp only [Option.map_eq_some'] at h
  obtain ⟨a, -, rfl⟩ := h
  rfl

theorem waitUntilReady_clipLength (ops : ClipOps σ) (fuel : Nat) (cw w : ClipWorkflow σ)
    (h : waitUntilReady ops fuel cw = some w) : w.clipLength = cw.clipLength := by
  rw [waitUntilReady_eq] at h
  simp only [Option.map_eq_some'] at h
  obtain ⟨a, -, rfl⟩ := h
  rfl

theorem preloadClip_clipLength (ops : ClipOps σ) (cw : ClipWorkflow σ) :
    (preloadClip ops cw).clipLength = cw.clipLength := by
  unfold preloadClip
  simp only
  split_ifs <;> rfl

theorem stopClipWorkflow_clipLength (ops : ClipOps σ) (fuel : Nat) (cw w : ClipWorkflow σ)
    (h : stopClipWorkflow ops fuel cw = some w) : w.clipLength = cw.clipLength := by
  unfold stopClipWorkflow at h
  simp only at h
  split_ifs at h
  · cases h; rfl
  · cases h; rfl
  · cases hw : waitWhileRendering ops fuel cw.lockForRead.unlock with
    | none => simp [hw] at h
    | some c =>
      simp only [hw, Option.some.injEq] at h
      subst h
      exact waitWhileRendering_clipLength ops fuel cw.lockForRead.unlock c hw
  · cases hw : waitUntilReady ops fuel cw.lockForRead.unlock with
    | none => simp [hw] at h
    | some c =>
      simp only [hw, Option.some.injEq] at h
      subst h
      exact waitUntilReady_clipLength ops fuel cw.lockForRead.unlock c hw
  · cases h; rfl

/-- After its wait, `renderClip` returns whatever state it finds. -/
theorem renderClip_after_wait (ops : ClipOps σ) (cw : ClipWorkflow σ)
    (currentFrame start : Int) (needRepositioning : Bool) :
    ∃ r : Option Frame × ClipWorkflow σ,
      (if cw.getState ops = State.Sleeping then
        some (((if needRepositioning = true then
                cw.unlock.setPosition ops
                  { num := currentFrame - start, den := cw.unlock.clipLength }
              else cw.unlock).getOutput ops).1,
          ((if needRepositioning = true then
                cw.unlock.setPosition ops
                  { num := currentFrame - start, den := cw.unlock.clipLength }
              else cw.unlock).getOutput ops).2.wake ops)
      else if cw.getState ops = State.Stopped then
        some (none,
          if start ≠ currentFrame then
            ((cw.unlock.initializeClip ops).startRender ops).setPosition ops
              { num := currentFrame - start,
                den := ((cw.unlock.initializeClip ops).startRender ops).clipLength }
          else (cw.unlock.initializeClip ops).startRender ops)
      else if cw.getState ops = State.Ready ∨ cw.getState ops = State.Initializing then
        some (none, cw.unlock.startRender ops)
      else if cw.getState ops = State.EndReached then some (none, cw.unlock)
      else some (none, cw.unlock)) = some r ∧ r.2.clipLength = cw.clipLength := by
  split_ifs <;> exact ⟨_, rfl, rfl⟩

/-- When its poll ends within the fuel, `renderClip` returns, and the clip
it returns has the length it had. -/
theorem renderClip_returns (ops : ClipOps σ) (fuel : Nat) (cw : ClipWorkflow σ)
    (currentFrame start : Int) (needRepositioning : Bool) (hs : Settles ops fuel cw) :
    ∃ r, renderClip ops fuel cw currentFrame start needRepositioning = some r ∧
      r.2.clipLength = cw.clipLength := by
  unfold renderClip
  by_cases h : cw.getState ops = State.Rendering
  · have hw := hs.1 h
    rw [← waitWhileRendering_isSome_congr ops fuel cw cw.lockForRead.unlock rfl] at hw
    obtain ⟨w, hw⟩ := Option.isSome_iff_exists.mp hw
    have hl := waitWhileRendering_clipLength ops fuel _ _ hw
    obtain ⟨r, hr, hrl⟩ :=
      renderClip_after_wait ops w.lockForRead currentFrame start needRepositioning
    refine ⟨r, ?_, hrl.trans hl⟩
    simp only [getState_lockForRead, h, if_true, hw, Option.map_some']
    exact hr
  · obtain ⟨r, hr, hrl⟩ :=
      renderClip_after_wait ops cw.lockForRead currentFrame start needRepositioning
    refine ⟨r, ?_, hrl⟩
    simp only [getState_lockForRead, h, if_false]
    exact hr

/-- The clip `renderClip` returns has the length it had. -/
theorem renderClip_clipLength (ops : ClipOps σ) (fuel : Nat) (cw : ClipWorkflow σ)
    (currentFrame start : Int) (needRepositioning : Bool) (r : Option Frame × ClipWorkflow σ)
    (hr : renderClip ops fuel cw currentFrame start needRepositioning = some r) :
    r.2.clipLength = cw.clipLength := by
  unfold renderClip at hr
  by_cases hs : cw.getState ops = State.Rendering
  · simp only [getState_lockForRead, hs, if_true] at hr
    cases hw : waitWhileRendering ops fuel cw.lockForRead.unlock with
    | none => simp [hw] at hr
    | some w =>
      simp only [hw, Option.map_some'] at hr
      obtain ⟨r2, hr2, hl2⟩ :=
        renderClip_after_wait ops w.lockForRead currentFrame start needRepositioning
      have he : some r2 = some r := hr2.symm.trans hr
      cases he
      rw [hl2]
      exact waitWhileRendering_clipLength ops fuel cw.lockForRead.unlock w hw
  · simp only [getState_lockForRead, hs, if_false] at hr
    obtain ⟨r2, hr2, hl2⟩ :=
      renderClip_after_wait ops cw.lockForRead currentFrame start needRepositioning
    have he : some r2 = some r := hr2.symm.trans hr
    cases he
    exact hl2

/-- When its poll ends within the fuel, `stopClipWorkflow` returns. -/
theorem stopClipWorkflow_returns (ops : ClipOps σ) (fuel : Nat) (cw : ClipWorkflow σ)
    (hs : Settles ops fuel cw) : ∃ w, stopClipWorkflow ops fuel cw = some w := by
  by_cases h : cw.getState ops = State.Stopped ∨ cw.getState ops = State.Sleeping ∨
      cw.getState ops = State.Ready ∨ cw.getState ops = State.EndReached ∨
      cw.getState ops = State.Rendering ∨ cw.getState ops = State.Initializing
  · obtain ⟨w, hw, -⟩ := stopClipWorkflow_expected ops fuel cw hs h
    exact ⟨w, hw⟩
  · refine ⟨_, stopClipWorkflow_unexpected ops fuel cw ?_⟩
    revert h
    cases cw.getState ops <;> simp

end Helpers

/-! ## The loop of `getOutput` -/

section Loop

variable {σ : Type}

open TrackWorkflow

theorem forall₂_getElem? {α β : Type} {R : α → β → Prop} {l : List α} {vs : List β}
    (h : List.Forall₂ R l vs) (i : Nat) (a : α) (ha : l[i]? = some a) :
    ∃ v, vs[i]? = some v ∧ R a v := by
  induction h generalizing i with
  | nil => simp at ha
  | cons hab _ ih =>
    cases i with
    | zero =>
      simp only [List.getElem?_cons_zero, Option.some.injEq] at ha
      subst ha
      exact ⟨_, by simp, hab⟩
    | succ n =>
      simp only [List.getElem?_cons_succ] at ha
      obtain ⟨v, hv, hr⟩ := ih n ha
      exact ⟨v, by simpa using hv, hr⟩

/-- One turn of the loop, when it returns: the entry is replaced by what the
helper picked for it returned, the helper is recorded, and `ret` and
`lastFrame` are written exactly when the helper is `renderClip`. -/
theorem getOutputBody_spec (ops : ClipOps σ) (fuel : Nat) (nb currentFrame : Int)
    (need : Bool) (st st2 : LoopState σ) (it : Int × ClipWorkflow σ)
    (h : getOutputBody ops fuel nb currentFrame need st it = some st2) :
    (∃ v, Visited ops fuel nb currentFrame need it v ∧ st2.visited = st.visited ++ [v]) ∧
    st2.dispatched = st.dispatched ++ [dispatchOf nb currentFrame it] ∧
    (dispatchOf nb currentFrame it = Dispatch.renderClip →
      st2.lastFrame = currentFrame ∧
      ∃ r, renderClip ops fuel it.2 currentFrame it.1 need = some r ∧ st2.ret = r.1) ∧
    (dispatchOf nb currentFrame it ≠ Dispatch.renderClip →
      st2.ret = st.ret ∧ st2.lastFrame = st.lastFrame) := by
  unfold getOutputBody at h
  simp only at h
  by_cases ha : it.1 ≤ currentFrame ∧ currentFrame ≤ it.1 + it.2.clipLength
  · have hd : dispatchOf nb currentFrame it = Dispatch.renderClip := by simp [dispatchOf, ha]
    rw [if_pos ha] at h
    cases hr : renderClip ops fuel it.2 currentFrame it.1 need with
    | none => simp [hr] at h
    | some r =>
      simp only [hr, Option.some.injEq] at h
      subst h
      have hl : r.2.clipLength = it.2.clipLength :=
        renderClip_clipLength ops fuel it.2 currentFrame it.1 need r hr
      refine ⟨⟨(it.1, r.2), ⟨rfl, hl, ?_⟩, rfl⟩, by rw [hd], fun _ => ⟨rfl, r, rfl, rfl⟩,
        fun hn => absurd hd hn⟩
      rw [hd]
      exact ⟨r, hr, rfl⟩
  · rw [if_neg ha] at h
    by_cases hu : it.1 > currentFrame ∧ it.1 - currentFrame < nb
    · have hd : dispatchOf nb currentFrame it = Dispatch.preloadClip := by
        simp [dispatchOf, ha, hu]
      rw [if_pos hu] at h
      cases h
      refine ⟨⟨(it.1, preloadClip ops it.2), ⟨rfl, preloadClip_clipLength ops it.2, ?_⟩, rfl⟩,
        by rw [hd], fun hn => ?_, fun _ => ⟨rfl, rfl⟩⟩
      · rw [hd]
      · rw [hd] at hn
        cases hn
    · have hd : dispatchOf nb currentFrame it = Dispatch.stopClipWorkflow := by
        simp [dispatchOf, ha, hu]
      rw [if_neg hu] at h
      cases hw : stopClipWorkflow ops fuel it.2 with
      | none => simp [hw] at h
      | some w =>
        simp only [hw, Option.some.injEq] at h
        subst h
        refine ⟨⟨(it.1, w), ⟨rfl, stopClipWorkflow_clipLength ops fuel it.2 w hw, ?_⟩, rfl⟩,
          by rw [hd], fun hn => ?_, fun _ => ⟨rfl, rfl⟩⟩
        · rw [hd]
          exact hw
        · rw [hd] at hn
          cases hn

/-- One turn of the loop returns when the polls on its clip end within the
fuel. -/
theorem getOutputBody_returns (ops : ClipOps σ) (fuel : Nat) (nb currentFrame : Int)
    (need : Bool) (st : LoopState σ) (it : Int × ClipWorkflow σ)
    (hs : Settles ops fuel it.2) :
    ∃ st2, getOutputBody ops fuel nb currentFrame need st it = some st2 := by
  unfold getOutputBody
  simp only
  split_ifs
  · obtain ⟨r, hr, -⟩ := renderClip_returns ops fuel it.2 currentFrame it.1 need hs
    rw [hr]
    exact ⟨_, rfl⟩
  · exact ⟨_, rfl⟩
  · obtain ⟨w, hw⟩ := stopClipWorkflow_returns ops fuel it.2 hs
    rw [hw]
    exact ⟨_, rfl⟩

/-- The loop returns when the polls on every clip end within the fuel. -/
theorem getOutputLoop_returns (ops : ClipOps σ) (fuel : Nat) (nb currentFrame : Int)
    (need : Bool) (clips : List (Int × ClipWorkflow σ)) (st : LoopState σ)
    (hs : ∀ it ∈ clips, Settles ops fuel it.2) :
    ∃ st2, getOutputLoop ops fuel nb currentFrame need clips st = some st2 := by
  induction clips generalizing st with
  | nil => exact ⟨st, rfl⟩
  | cons it rest ih =>
    obtain ⟨st1, h1⟩ :=
      getOutputBody_returns ops fuel nb currentFrame need st it (hs it (List.mem_cons_self _ _))
    obtain ⟨st2, h2⟩ := ih st1 (fun x hx => hs x (List.mem_cons_of_mem _ hx))
    exact ⟨st2, by simp only [getOutputLoop, h1, h2]⟩

/-- The loop, when it returns: every entry is replaced by what its helper
returned, the helpers are recorded in iteration order, `ret` and
`lastFrame` are untouched when no clip is rendered, and `lastFrame` is the
current frame when one is. -/
theorem getOutputLoop_spec (ops : ClipOps σ) (fuel : Nat) (nb currentFrame : Int)
    (need : Bool) (clips : List (Int × ClipWorkflow σ)) (st st2 : LoopState σ)
    (h : getOutputLoop ops fuel nb currentFrame need clips st = some st2) :
    (∃ vs, List.Forall₂ (Visited ops fuel nb currentFrame need) clips vs ∧
      st2.visited = st.visited ++ vs) ∧
    st2.dispatched = st.dispatched ++ clips.map (dispatchOf nb currentFrame) ∧
    ((∀ it ∈ clips, dispatchOf nb currentFrame it ≠ Dispatch.renderClip) →
      st2.ret = st.ret ∧ st2.lastFrame = st.lastFrame) ∧
    ((∃ it ∈ clips, dispatchOf nb currentFrame it = Dispatch.renderClip) →
      st2.lastFrame = currentFrame) := by
  induction clips generalizing st with
  | nil =>
    simp only [getOutputLoop, Option.some.injEq] at h
    subst h
    exact ⟨⟨[], List.Forall₂.nil, by simp⟩, by simp, fun _ => ⟨rfl, rfl⟩, by simp⟩
  | cons it rest ih =>
    simp only [getOutputLoop] at h
    cases hb : getOutputBody ops fuel nb currentFrame need st it with
    | none => simp [hb] at h
    | some st1 =>
      simp only [hb] at h
      obtain ⟨⟨v, hv, hvis⟩, hdis, hren, hnot⟩ :=
        getOutputBody_spec ops fuel nb currentFrame need st st1 it hb
      obtain ⟨⟨vs, hvs, hvis2⟩, hdis2, hnot2, hren2⟩ := ih st1 h
      refine ⟨⟨v :: vs, List.Forall₂.cons hv hvs, by rw [hvis2, hvis]; simp⟩,
        by rw [hdis2, hdis]; simp, ?_, ?_⟩
      · intro hall
        have h1 := hnot (hall it (List.mem_cons_self _ _))
        have h2 := hnot2 (fun x hx => hall x (List.mem_cons_of_mem _ hx))
        exact ⟨h2.1.trans h1.1, h2.2.trans h1.2⟩
      · intro hex
        by_cases hr : ∃ x ∈ rest, dispatchOf nb currentFrame x = Dispatch.renderClip
        · exact hren2 hr
        · have hall : ∀ x ∈ rest, dispatchOf nb currentFrame x ≠ Dispatch.renderClip :=
            fun x hx hd => hr ⟨x, hx, hd⟩
          obtain ⟨x, hx, hd⟩ := hex
          rcases List.mem_cons.mp hx with rfl | hx
          · exact (hnot2 hall).2.trans (hren hd).1
          · exact absurd hd (hall x hx)

/-- `getOutput` returns when the polls on every clip of the track end within
the fuel, and what it returns is what its loop left. -/
theorem getOutput_returns (ops : ClipOps σ) (fuel : Nat) (nb : Int) (tw : TrackWorkflow σ)
    (lastFrame currentFrame : Int) (hs : ∀ it ∈ tw.m_clips, Settles ops fuel it.2) :
    ∃ out st, getOutput ops fuel nb tw lastFrame currentFrame = some out ∧
      getOutputLoop ops fuel nb currentFrame (decide (|currentFrame - lastFrame| > 1))
        tw.m_clips { ret := none, lastFrame := lastFrame, visited := [], dispatched := [] }
        = some st ∧
      out.ret = st.ret ∧ out.track = { tw with m_clips := st.visited } ∧
      out.lastFrame = st.lastFrame ∧ out.trackEndReached = checkEnd tw currentFrame ∧
      out.dispatched = st.dispatched := by
  obtain ⟨st, hst⟩ := getOutputLoop_returns ops fuel nb currentFrame
    (decide (|currentFrame - lastFrame| > 1)) tw.m_clips
    { ret := none, lastFrame := lastFrame, visited := [], dispatched := [] } hs
  refine ⟨{ ret := st.ret, track := { tw with m_clips := st.visited },
            lastFrame := st.lastFrame, trackEndReached := checkEnd tw currentFrame,
            dispatched := st.dispatched }, st, ?_, hst, rfl, rfl, rfl, rfl, rfl⟩
  simp only [getOutput, hst]

end Loop

/-! ## What one tick does to a track -/

section Tick

variable {σ : Type}

open TrackWorkflow

/-- `getOutput`, when the polls end within the fuel: it returns, every
entry of the map is replaced by what its helper returned, the helpers
called are those `dispatchOf` names, and the frame and `lastFrame` are
written exactly when some clip is rendered. -/
theorem getOutput_spec (ops : ClipOps σ) (fuel : Nat) (nb : Int) (tw : TrackWorkflow σ)
    (lastFrame currentFrame : Int) (hs : ∀ it ∈ tw.m_clips, Settles ops fuel it.2) :
    ∃ out, getOutput ops fuel nb tw lastFrame currentFrame = some out ∧
      out.trackEndReached = checkEnd tw currentFrame ∧
      out.dispatched = tw.m_clips.map (dispatchOf nb currentFrame) ∧
      List.Forall₂ (Visited ops fuel nb currentFrame (decide (|currentFrame - lastFrame| > 1)))
        tw.m_clips out.track.m_clips ∧
      ((∀ it ∈ tw.m_clips, dispatchOf nb currentFrame it ≠ Dispatch.renderClip) →
        out.ret = none ∧ out.lastFrame = lastFrame) ∧
      ((∃ it ∈ tw.m_clips, dispatchOf nb currentFrame it = Dispatch.renderClip) →
        out.lastFrame = currentFrame) := by
  obtain ⟨out, st, hout, hst, hret, htrack, hlast, hend, hdis⟩ :=
    getOutput_returns ops fuel nb tw lastFrame currentFrame hs
  obtain ⟨⟨vs, hvs, hvis⟩, hd, hnone, hsome⟩ :=
    getOutputLoop_spec ops fuel nb currentFrame _ tw.m_clips _ st hst
  refine ⟨out, hout, hend, ?_, ?_, ?_, ?_⟩
  · rw [hdis, hd]; simp
  · rw [htrack]
    simp only [List.nil_append] at hvis
    rw [hvis]
    exact hvs
  · intro h
    rw [hret, hlast]
    exact hnone h
  · intro h
    rw [hlast]
    exact hsome h

/-- The helper picked for an entry, by the two tests of the loop body. -/
theorem dispatchOf_iff (nb currentFrame : Int) (it : Int × ClipWorkflow σ) :
    (dispatchOf nb currentFrame it = Dispatch.renderClip ↔
      it.1 ≤ currentFrame ∧ currentFrame ≤ it.1 + it.2.clipLength) ∧
    (dispatchOf nb currentFrame it = Dispatch.preloadClip ↔
      0 < it.1 - currentFrame ∧ it.1 - currentFrame < nb) ∧
    (dispatchOf nb currentFrame it = Dispatch.stopClipWorkflow ↔
      ¬ (it.1 ≤ currentFrame ∧ currentFrame ≤ it.1 + it.2.clipLength) ∧
      ¬ (0 < it.1 - currentFrame ∧ it.1 - currentFrame < nb)) := by
  unfold dispatchOf
  by_cases ha : it.1 ≤ currentFrame ∧ currentFrame ≤ it.1 + it.2.clipLength
  · have hn : ¬ (0 < it.1 - currentFrame ∧ it.1 - currentFrame < nb) := by
      intro h
      omega
    simp [ha, hn]
  · by_cases hu : it.1 > currentFrame ∧ it.1 - currentFrame < nb
    · have hu2 : 0 < it.1 - currentFrame ∧ it.1 - currentFrame < nb := ⟨by omega, hu.2⟩
      rw [if_neg ha, if_pos hu]
      simp [ha, hu2]
    · have hu2 : ¬ (0 < it.1 - currentFrame ∧ it.1 - currentFrame < nb) := by
        intro h
        exact hu ⟨by omega, h.2⟩
      rw [if_neg ha, if_neg hu]
      simp only [ha, hu2, not_false_eq_true, and_self, iff_true, reduceCtorEq]

/-- C9: on every tick on which it returns (the polls ending within the
fuel), whether or not the end of the track is signalled, `getOutput` calls
for every clip exactly one helper, in iteration order: `renderClip` iff
`start <= currentFrame <= start + length`, `preloadClip` iff
`0 < start - currentFrame < nbFrameBeforePreload`, `stopClipWorkflow` iff
neither holds; the two conditions exclude each other, and each clip is left
as its helper returned it. -/
theorem getOutput_one_helper_per_clip (ops : ClipOps σ) (fuel : Nat) (nb : Int)
    (tw : TrackWorkflow σ) (lastFrame currentFrame : Int)
    (hs : ∀ it ∈ tw.m_clips, Settles ops fuel it.2) :
    ∃ out, getOutput ops fuel nb tw lastFrame currentFrame = some out ∧
      out.trackEndReached = checkEnd tw currentFrame ∧
      List.Forall₂
        (fun (it : Int × ClipWorkflow σ) (d : Dispatch) =>
          (d = Dispatch.renderClip ↔
            it.1 ≤ currentFrame ∧ currentFrame ≤ it.1 + it.2.clipLength) ∧
          (d = Dispatch.preloadClip ↔ 0 < it.1 - currentFrame ∧ it.1 - currentFrame < nb) ∧
          (d = Dispatch.stopClipWorkflow ↔
            ¬ (it.1 ≤ currentFrame ∧ currentFrame ≤ it.1 + it.2.clipLength) ∧
            ¬ (0 < it.1 - currentFrame ∧ it.1 - currentFrame < nb)) ∧
          ¬ ((it.1 ≤ currentFrame ∧ currentFrame ≤ it.1 + it.2.clipLength) ∧
            (0 < it.1 - currentFrame ∧ it.1 - currentFrame < nb)))
        tw.m_clips out.dispatched ∧
      List.Forall₂ (Visited ops fuel nb currentFrame (decide (|currentFrame - lastFrame| > 1)))
        tw.m_clips out.track.m_clips := by
  obtain ⟨out, hout, hend, hd, hv, -, -⟩ :=
    getOutput_spec ops fuel nb tw lastFrame currentFrame hs
  refine ⟨out, hout, hend, ?_, hv⟩
  rw [hd, List.forall₂_map_right_iff, List.forall₂_same]
  intro it _
  obtain ⟨h1, h2, h3⟩ := dispatchOf_iff nb currentFrame it
  refine ⟨h1, h2, h3, ?_⟩
  intro h
  omega

/-- Witness for C9: at frame 100 of `threeClipTrack`, with a preload window
of 60 frames, the first clip is rendered, the second preloaded and the
third stopped (after one sleep, its rendering being over). -/
theorem getOutput_one_helper_per_clip_witness :
    (∀ it ∈ threeClipTrack.m_clips, Settles simOps 2 it.2) ∧
    ∃ out, getOutput simOps 2 60 threeClipTrack 99 100 = some out ∧
      out.dispatched =
        [Dispatch.renderClip, Dispatch.preloadClip, Dispatch.stopClipWorkflow] := by
  have hs : ∀ it ∈ threeClipTrack.m_clips, Settles simOps 2 it.2 := by decide
  obtain ⟨out, hout, -, -, -⟩ := getOutput_one_helper_per_clip simOps 2 60 threeClipTrack 99 100 hs
  refine ⟨hs, out, hout, ?_⟩
  have h2 : getOutput simOps 2 60 threeClipTrack 99 100 = some out := hout
  rw [show getOutput simOps 2 60 threeClipTrack 99 100 = some _ from rfl] at h2
  cases h2
  rfl

/-- In a map with ascending keys, no key is greater than that of the last
entry. -/
theorem key_le_last (clips : List (Int × ClipWorkflow σ)) (hk : KeysAscending clips)
    (last it : Int × ClipWorkflow σ) (hlast : clips.getLast? = some last) (hit : it ∈ clips) :
    it.1 ≤ last.1 := by
  obtain ⟨ys, rfl⟩ := List.getLast?_eq_some_iff.mp hlast
  rcases List.mem_append.mp hit with h | h
  · have := (List.pairwise_append.mp hk).2.2 it h last (List.mem_singleton_self _)
    exact le_of_lt this
  · rw [List.mem_singleton.mp h]

/-- C7: on a track with ascending keys and clips of non-negative length, at
a frame in a gap (no clip passes the test for rendering, some clip ends at
or after the frame), `checkEnd` is false and `getOutput` (the polls ending
within the fuel) returns no frame, calls `renderClip` for no clip, does not
signal the end of the track, leaves `lastFrame` alone, and leaves every
clip as `preloadClip` returned it when `0 < start - currentFrame <
nbFrameBeforePreload`, as `stopClipWorkflow` returned it otherwise. -/
theorem getOutput_in_gap (ops : ClipOps σ) (fuel : Nat) (nb : Int) (tw : TrackWorkflow σ)
    (lastFrame currentFrame : Int)
    (hk : KeysAscending tw.m_clips)
    (hlen : ∀ it ∈ tw.m_clips, 0 ≤ it.2.clipLength)
    (hs : ∀ it ∈ tw.m_clips, Settles ops fuel it.2)
    (hna : ∀ it ∈ tw.m_clips,
      ¬ (it.1 ≤ currentFrame ∧ currentFrame ≤ it.1 + it.2.clipLength))
    (hlater : ∃ it ∈ tw.m_clips, currentFrame ≤ it.1 + it.2.clipLength) :
    checkEnd tw currentFrame = false ∧
    ∃ out, getOutput ops fuel nb tw lastFrame currentFrame = some out ∧
      out.ret = none ∧ out.trackEndReached = false ∧ out.lastFrame = lastFrame ∧
      Dispatch.renderClip ∉ out.dispatched ∧
      List.Forall₂
        (fun (it : Int × ClipWorkflow σ) (d : Dispatch) =>
          d = if 0 < it.1 - currentFrame ∧ it.1 - currentFrame < nb then Dispatch.preloadClip
            else Dispatch.stopClipWorkflow)
        tw.m_clips out.dispatched ∧
      List.Forall₂
        (fun (it v : Int × ClipWorkflow σ) =>
          v.1 = it.1 ∧
          ((0 < it.1 - currentFrame ∧ it.1 - currentFrame < nb) → v.2 = preloadClip ops it.2) ∧
          (¬ (0 < it.1 - currentFrame ∧ it.1 - currentFrame < nb) →
            stopClipWorkflow ops fuel it.2 = some v.2))
        tw.m_clips out.track.m_clips := by
  have hend : checkEnd tw currentFrame = false := by
    obtain ⟨it, hit, hle⟩ := hlater
    have hgt : currentFrame < it.1 := by
      have := hna it hit
      omega
    unfold checkEnd
    cases hl : tw.m_clips.getLast? with
    | none =>
      rw [List.getLast?_eq_none_iff.mp hl] at hit
      cases hit
    | some last =>
      have h1 := key_le_last tw.m_clips hk last it hl hit
      have h2 := hlen last (List.mem_of_getLast?_eq_some hl)
      simp only [decide_eq_false_iff_not, not_lt]
      omega
  have hnot : ∀ it ∈ tw.m_clips, dispatchOf nb currentFrame it ≠ Dispatch.renderClip :=
    fun it hit hd => hna it hit ((dispatchOf_iff nb currentFrame it).1.mp hd)
  obtain ⟨out, hout, hsig, hd, hv, hnone, -⟩ :=
    getOutput_spec ops fuel nb tw lastFrame currentFrame hs
  refine ⟨hend, out, hout, (hnone hnot).1, hsig.trans hend, (hnone hnot).2, ?_, ?_, ?_⟩
  · rw [hd]
    intro hmem
    obtain ⟨it, hit, hdis⟩ := List.mem_map.mp hmem
    exact hnot it hit hdis
  · rw [hd, List.forall₂_map_right_iff, List.forall₂_same]
    intro it hit
    obtain ⟨h1, h2, h3⟩ := dispatchOf_iff nb currentFrame it
    by_cases hu : 0 < it.1 - currentFrame ∧ it.1 - currentFrame < nb
    · rw [if_pos hu]
      exact h2.mpr hu
    · rw [if_neg hu]
      exact h3.mpr ⟨hna it hit, hu⟩
  · have hmem : ∀ it v, it ∈ tw.m_clips →
        Visited ops fuel nb currentFrame (decide (|currentFrame - lastFrame| > 1)) it v →
        v.1 = it.1 ∧
        ((0 < it.1 - currentFrame ∧ it.1 - currentFrame < nb) → v.2 = preloadClip ops it.2) ∧
        (¬ (0 < it.1 - currentFrame ∧ it.1 - currentFrame < nb) →
          stopClipWorkflow ops fuel it.2 = some v.2) := by
      intro it v hit hvis
      obtain ⟨h1, h2, h3⟩ := dispatchOf_iff nb currentFrame it
      obtain ⟨hkey, -, hm⟩ := hvis
      refine ⟨hkey, fun hu => ?_, fun hu => ?_⟩
      · rw [h2.mpr hu] at hm
        exact hm
      · rw [h3.mpr ⟨hna it hit, hu⟩] at hm
        exact hm
    have hv2 : List.Forall₂
        (fun it v => it ∈ tw.m_clips ∧
          Visited ops fuel nb currentFrame (decide (|currentFrame - lastFrame| > 1)) it v)
        tw.m_clips out.track.m_clips := by
      rw [List.forall₂_and_left]
      exact ⟨fun _ h => h, hv⟩
    exact hv2.imp (fun it v h => hmem it v h.1 h.2)

/-- Witness for C7: clips A on 0 to 100 and B on 150 to 250, at frame 125 with
a preload window of 60 frames: no frame comes back, A is stopped and B is
preloaded. -/
theorem getOutput_in_gap_witness :
    checkEnd gapTrack 125 = false ∧
    ∃ out, getOutput simOps 1 60 gapTrack 124 125 = some out ∧
      out.ret = none ∧ out.trackEndReached = false ∧ out.lastFrame = 124 ∧
      out.dispatched = [Dispatch.stopClipWorkflow, Dispatch.preloadClip] := by
  obtain ⟨hend, out, hout, hret, hsig, hlast, -, -, -⟩ :=
    getOutput_in_gap simOps 1 60 gapTrack 124 125 (by decide) (by decide) (by decide)
      (by decide) (by decide)
  refine ⟨hend, out, hout, hret, hsig, hlast, ?_⟩
  have h2 : getOutput simOps 1 60 gapTrack 124 125 = some out := hout
  rw [show getOutput simOps 1 60 gapTrack 124 125 = some _ from rfl] at h2
  cases h2
  rfl

/-- What `renderClip` does with a clip it finds `Sleeping`: it releases the
lock, seeks when asked to, takes the output and wakes the clip. -/
theorem renderClip_sleeping (ops : ClipOps σ) (fuel : Nat) (cw : ClipWorkflow σ)
    (currentFrame start : Int) (need : Bool) (h : cw.getState ops = State.Sleeping) :
    renderClip ops fuel cw currentFrame start need =
      some (if need = true then
          ((ops.getOutput
              (ops.setPosition { num := currentFrame - start, den := cw.clipLength } cw.impl)).1,
            { impl := ops.wake (ops.getOutput
                (ops.setPosition { num := currentFrame - start, den := cw.clipLength }
                  cw.impl)).2,
              clipLength := cw.clipLength,
              calls := cw.calls ++ [Call.lockForRead, Call.unlock,
                Call.setPosition { num := currentFrame - start, den := cw.clipLength },
                Call.getOutput, Call.wake] })
        else
          ((ops.getOutput cw.impl).1,
            { impl := ops.wake (ops.getOutput cw.impl).2,
              clipLength := cw.clipLength,
              calls := cw.calls ++ [Call.lockForRead, Call.unlock, Call.getOutput,
                Call.wake] })) := by
  simp only [ClipWorkflow.getState] at h
  cases need <;>
    simp [renderClip, ClipWorkflow.getState, h, ClipWorkflow.lockForRead, ClipWorkflow.unlock,
      ClipWorkflow.setPosition, ClipWorkflow.getOutput, ClipWorkflow.wake]

/-- C6: for a clip of the track that passes the test for rendering and is
`Sleeping`, `getOutput` (the polls on the track ending within the fuel)
makes exactly these calls on the clip: when
`|currentFrame - lastFrame| > 1`, lock, unlock, `setPosition` with the
operands `currentFrame - start` and `length`, then `getOutput`, then
`wake`; when the difference is at most 1, the same without `setPosition`.
The frame returned by the tick is remembered as `lastFrame`, so a request
for the next frame right after is not a jump. -/
theorem getOutput_seeks_iff_jump (ops : ClipOps σ) (fuel : Nat) (nb : Int)
    (tw : TrackWorkflow σ) (lastFrame currentFrame : Int) (i : Nat) (start : Int)
    (cw : ClipWorkflow σ)
    (hs : ∀ it ∈ tw.m_clips, Settles ops fuel it.2)
    (hi : tw.m_clips[i]? = some (start, cw))
    (hact : start ≤ currentFrame ∧ currentFrame ≤ start + cw.clipLength)
    (hsl : cw.getState ops = State.Sleeping) :
    ∃ out cw2, getOutput ops fuel nb tw lastFrame currentFrame = some out ∧
      out.track.m_clips[i]? = some (start, cw2) ∧
      (|currentFrame - lastFrame| > 1 →
        cw2.calls = cw.calls ++ [Call.lockForRead, Call.unlock,
          Call.setPosition { num := currentFrame - start, den := cw.clipLength },
          Call.getOutput, Call.wake] ∧
        (Position.value { num := currentFrame - start, den := cw.clipLength } =
          ((currentFrame - start : Int) : ℚ) / ((cw.clipLength : Int) : ℚ))) ∧
      (¬ |currentFrame - lastFrame| > 1 →
        cw2.calls = cw.calls ++ [Call.lockForRead, Call.unlock, Call.getOutput, Call.wake]) ∧
      (∀ pos, Call.setPosition pos ∈ cw2.calls.drop cw.calls.length ↔
        |currentFrame - lastFrame| > 1 ∧
          pos = { num := currentFrame - start, den := cw.clipLength }) ∧
      out.lastFrame = currentFrame ∧ ¬ |(currentFrame + 1) - out.lastFrame| > 1 := by
  obtain ⟨out, hout, -, -, hv, -, hsome⟩ :=
    getOutput_spec ops fuel nb tw lastFrame currentFrame hs
  obtain ⟨v, hvi, hkey, -, hm⟩ := forall₂_getElem? hv i (start, cw) hi
  have hd : dispatchOf nb currentFrame (start, cw) = Dispatch.renderClip :=
    (dispatchOf_iff nb currentFrame (start, cw)).1.mpr hact
  rw [hd] at hm
  obtain ⟨r, hr, hv2⟩ := hm
  have hlast : out.lastFrame = currentFrame :=
    hsome ⟨(start, cw), List.getElem?_mem hi, hd⟩
  rw [renderClip_sleeping ops fuel cw currentFrame start _ hsl] at hr
  refine ⟨out, v.2, hout, ?_, ?_, ?_, ?_, hlast, ?_⟩
  · rw [hvi]
    simp only [Option.some.injEq]
    exact Prod.ext hkey rfl
  · intro hj
    simp only [hj, decide_True, if_true, Option.some.injEq] at hr
    rw [hv2, ← hr]
    exact ⟨rfl, rfl⟩
  · intro hj
    simp only [hj, decide_False, Bool.false_eq_true, if_false, Option.some.injEq] at hr
    rw [hv2, ← hr]
  · intro pos
    by_cases hj : |currentFrame - lastFrame| > 1
    · simp only [hj, decide_True, if_true, Option.some.injEq] at hr
      rw [hv2, ← hr]
      simp [hj]
    · simp only [hj, decide_False, Bool.false_eq_true, if_false, Option.some.injEq] at hr
      rw [hv2, ← hr]
      simp [hj]
  · rw [hlast]
    simp

/-- Witness for C6: the clip with `start = 100` and `length = 50`, asleep. A
request for frame 120 when the last rendered frame was 0 seeks to the
position with operands 20 and 50, whose value is 2/5 = 0.4; during the
request for frame 121 that follows, the clip (found rendering its next
frame, then asleep after one sleep) gets no `setPosition` call. -/
theorem getOutput_seeks_iff_jump_witness :
    (∃ out cw2, getOutput simOps 1 60 seekTrack 0 120 = some out ∧
      out.track.m_clips[0]? = some (100, cw2) ∧
      cw2.calls = [Call.lockForRead, Call.unlock, Call.setPosition { num := 20, den := 50 },
        Call.getOutput, Call.wake] ∧
      out.lastFrame = 120) ∧
    Position.value { num := 20, den := 50 } = 2 / 5 ∧
    ∃ out out2, getOutput simOps 1 60 seekTrack 0 120 = some out ∧
      getOutput simOps 1 60 out.track out.lastFrame 121 = some out2 ∧
      out2.track.m_clips.map (fun it => it.2.calls) =
        [[Call.lockForRead, Call.unlock, Call.setPosition { num := 20, den := 50 },
          Call.getOutput, Call.wake,
          Call.lockForRead, Call.unlock, Call.usleep 100, Call.lockForRead, Call.unlock,
          Call.getOutput, Call.wake]] := by
  refine ⟨?_, by norm_num [Position.value], _, _, rfl, rfl, rfl⟩
  obtain ⟨out, cw2, hout, hi, hjump, -, -, hlast, -⟩ :=
    getOutput_seeks_iff_jump simOps 1 60 seekTrack 0 120 0 100 (simClip State.Sleeping 50)
      (by decide) rfl (by decide) rfl
  exact ⟨out, cw2, hout, hi, (hjump (by decide)).1.trans rfl, hlast⟩

/-! ### How many clips are rendered on one tick -/

theorem countP_le_one_of_pairwise {α : Type} {R : α → α → Prop} {p : α → Bool} {l : List α}
    (hl : l.Pairwise R) (hex : ∀ a b, p a = true → p b = true → ¬ R a b) :
    l.countP p ≤ 1 := by
  induction l with
  | nil => simp
  | cons a l ih =>
    obtain ⟨ha, hl2⟩ := List.pairwise_cons.mp hl
    by_cases hp : p a = true
    · have hz : l.countP p = 0 := by
        rw [List.countP_eq_zero]
        intro b hb hpb
        exact hex a b hp hpb (ha b hb)
      rw [List.countP_cons_of_pos _ _ hp, hz]
    · rw [List.countP_cons_of_neg _ _ hp]
      exact ih hl2

theorem two_le_countP {α : Type} {p : α → Bool} {l : List α} {a b : α}
    (ha : a ∈ l) (hb : b ∈ l) (hab : a ≠ b) (hpa : p a = true) (hpb : p b = true) :
    2 ≤ l.countP p := by
  induction l with
  | nil => cases ha
  | cons x l ih =>
    rcases List.mem_cons.mp ha with rfl | ha2
    · rcases List.mem_cons.mp hb with rfl | hb2
      · exact absurd rfl hab
      · have : 0 < l.countP p := List.countP_pos_iff.mpr ⟨b, hb2, hpb⟩
        rw [List.countP_cons_of_pos _ _ hpa]
        omega
    · rcases List.mem_cons.mp hb with rfl | hb2
      · have : 0 < l.countP p := List.countP_pos_iff.mpr ⟨a, ha2, hpa⟩
        rw [List.countP_cons_of_pos _ _ hpb]
        omega
      · have := ih ha2 hb2
        by_cases hx : p x = true
        · rw [List.countP_cons_of_pos _ _ hx]
          omega
        · rw [List.countP_cons_of_neg _ _ hx]
          exact this

theorem countP_le_add_of_or {α : Type} {p q r : α → Bool} {l : List α}
    (h : ∀ a ∈ l, p a = true → q a = true ∨ r a = true) :
    l.countP p ≤ l.countP q + l.countP r := by
  induction l with
  | nil => simp
  | cons a l ih =>
    have ih2 := ih (fun x hx => h x (List.mem_cons_of_mem _ hx))
    by_cases hp : p a = true
    · rw [List.countP_cons_of_pos _ _ hp]
      rcases h a (List.mem_cons_self _ _) hp with hq | hr
      · rw [List.countP_cons_of_pos _ _ hq]
        have := List.countP_le_length r (l := l)
        by_cases hr : r a = true
        · rw [List.countP_cons_of_pos _ _ hr]; omega
        · rw [List.countP_cons_of_neg _ _ hr]; omega
      · rw [List.countP_cons_of_pos _ _ hr]
        by_cases hq : q a = true
        · rw [List.countP_cons_of_pos _ _ hq]; omega
        · rw [List.countP_cons_of_neg _ _ hq]; omega
    · rw [List.countP_cons_of_neg _ _ hp]
      have h1 : l.countP q ≤ (a :: l).countP q := by
        by_cases hq : q a = true
        · rw [List.countP_cons_of_pos _ _ hq]; omega
        · rw [List.countP_cons_of_neg _ _ hq]
      have h2 : l.countP r ≤ (a :: l).countP r := by
        by_cases hr : r a = true
        · rw [List.countP_cons_of_pos _ _ hr]; omega
        · rw [List.countP_cons_of_neg _ _ hr]
      omega

/-- The number of `renderClip` calls recorded is the number of clips that
pass the test for rendering. -/
theorem count_renderClip (nb currentFrame : Int) (clips : List (Int × ClipWorkflow σ)) :
    (clips.map (dispatchOf nb currentFrame)).count Dispatch.renderClip =
      clips.countP (isActive currentFrame) := by
  rw [List.count_eq_countP, List.countP_map]
  apply List.countP_congr
  intro it _
  have h := (dispatchOf_iff nb currentFrame it).1
  simp only [Function.comp_apply, beq_iff_eq, isActive, decide_eq_true_eq]
  exact h

/-- On a track of pairwise non-overlapping clips of positive length, at most
two clips pass the test for rendering, and two do exactly when one clip
ends at the current frame and another starts there. -/
theorem countP_isActive (currentFrame : Int) (clips : List (Int × ClipWorkflow σ))
    (hno : NonOverlapping clips) (hpos : ∀ it ∈ clips, 0 < it.2.clipLength) :
    clips.countP (isActive currentFrame) ≤ 2 ∧
    (clips.countP (isActive currentFrame) ≤ 1 ↔
      ¬ ∃ a ∈ clips, ∃ b ∈ clips,
        a.1 + a.2.clipLength = currentFrame ∧ b.1 = currentFrame) := by
  have hsymm : Symmetric (fun a b : Int × ClipWorkflow σ =>
      a.1 + a.2.clipLength ≤ b.1 ∨ b.1 + b.2.clipLength ≤ a.1) := fun a b h => h.symm
  -- the clips that hold the frame inside, and those that end at it
  let inside : Int × ClipWorkflow σ → Bool :=
    fun it => decide (it.1 ≤ currentFrame ∧ currentFrame < it.1 + it.2.clipLength)
  let atEnd : Int × ClipWorkflow σ → Bool :=
    fun it => decide (it.1 + it.2.clipLength = currentFrame)
  have hsplit : clips.countP (isActive currentFrame) ≤
      clips.countP inside + clips.countP atEnd := by
    apply countP_le_add_of_or
    intro a _ ha
    simp only [isActive, decide_eq_true_eq] at ha
    simp only [inside, atEnd, decide_eq_true_eq]
    omega
  -- pairwise facts restricted to the members, which have positive length
  have hno2 : clips.Pairwise (fun a b : Int × ClipWorkflow σ =>
      0 < a.2.clipLength ∧ 0 < b.2.clipLength ∧
      (a.1 + a.2.clipLength ≤ b.1 ∨ b.1 + b.2.clipLength ≤ a.1)) := by
    have h1 : clips.Pairwise (fun a b : Int × ClipWorkflow σ =>
        0 < a.2.clipLength ∧ 0 < b.2.clipLength) :=
      List.pairwise_of_forall_mem_list (fun a ha b hb => ⟨hpos a ha, hpos b hb⟩)
    exact (h1.and hno).imp (fun h => ⟨h.1.1, h.1.2, h.2⟩)
  have hin : clips.countP inside ≤ 1 := by
    apply countP_le_one_of_pairwise hno2
    intro a b ha hb hr
    simp only [inside, decide_eq_true_eq] at ha hb
    omega
  have hat : clips.countP atEnd ≤ 1 := by
    apply countP_le_one_of_pairwise hno2
    intro a b ha hb hr
    simp only [atEnd, decide_eq_true_eq] at ha hb
    omega
  refine ⟨by omega, ?_, ?_⟩
  · rintro hle ⟨a, ha, b, hb, hae, hbs⟩
    have hab : a ≠ b := by
      intro h
      have := hpos a ha
      rw [h] at hae
      rw [h] at this
      omega
    have hpa : isActive currentFrame a = true := by
      have := hpos a ha
      simp only [isActive, decide_eq_true_eq]
      omega
    have hpb : isActive currentFrame b = true := by
      have := hpos b hb
      simp only [isActive, decide_eq_true_eq]
      omega
    have := two_le_countP ha hb hab hpa hpb
    omega
  · intro hnone
    by_contra hgt
    have h1 : 0 < clips.countP inside := by omega
    have h2 : 0 < clips.countP atEnd := by omega
    obtain ⟨b, hb, hbin⟩ := List.countP_pos_iff.mp h1
    obtain ⟨a, ha, haend⟩ := List.countP_pos_iff.mp h2
    simp only [inside, decide_eq_true_eq] at hbin
    simp only [atEnd, decide_eq_true_eq] at haend
    have hab : a ≠ b := by
      intro h
      rw [h] at haend
      omega
    have hr := hno.forall hsymm ha hb hab
    have hpa := hpos a ha
    exact hnone ⟨a, ha, b, hb, haend, by omega⟩

/-- C1 (as stated, refuted): two clips of positive length on the
non-overlapping intervals `[0, 100)` and `[100, 200)`; at frame 100 both
pass the test `start <= currentFrame <= start + length`, and `getOutput`
calls `renderClip` twice. -/
theorem getOutput_renders_both_abutting_clips :
    NonOverlapping abutTrack.m_clips ∧
    (∀ it ∈ abutTrack.m_clips, 0 < it.2.clipLength) ∧
    abutTrack.m_clips.countP (isActive 100) = 2 ∧
    ∃ out, TrackWorkflow.getOutput simOps 1 60 abutTrack 99 100 = some out ∧
      out.dispatched = [Dispatch.renderClip, Dispatch.renderClip] ∧
      ¬ out.dispatched.count Dispatch.renderClip ≤ 1 := by
  refine ⟨by decide, by decide, by decide, _, rfl, rfl, by decide⟩

/-- C1 (amended): on a track whose clips occupy pairwise non-overlapping
intervals `[start, start + length)` with `length > 0`, `getOutput` (the
polls ending within the fuel) calls `renderClip` once for each clip that
passes its test `start <= currentFrame <= start + length`; that is at most
two clips, and at most one unless one clip ends at `currentFrame`
(`start + length = currentFrame`) and another starts there, in which case
both are rendered. -/
theorem getOutput_renders_at_most_one_unless_abutting (ops : ClipOps σ) (fuel : Nat)
    (nb : Int) (tw : TrackWorkflow σ) (lastFrame currentFrame : Int)
    (hno : NonOverlapping tw.m_clips)
    (hpos : ∀ it ∈ tw.m_clips, 0 < it.2.clipLength)
    (hs : ∀ it ∈ tw.m_clips, Settles ops fuel it.2) :
    ∃ out, getOutput ops fuel nb tw lastFrame currentFrame = some out ∧
      out.dispatched.count Dispatch.renderClip = tw.m_clips.countP (isActive currentFrame) ∧
      out.dispatched.count Dispatch.renderClip ≤ 2 ∧
      (out.dispatched.count Dispatch.renderClip ≤ 1 ↔
        ¬ ∃ a ∈ tw.m_clips, ∃ b ∈ tw.m_clips,
          a.1 + a.2.clipLength = currentFrame ∧ b.1 = currentFrame) := by
  obtain ⟨out, hout, -, hd, -, -, -⟩ := getOutput_spec ops fuel nb tw lastFrame currentFrame hs
  have hc : out.dispatched.count Dispatch.renderClip =
      tw.m_clips.countP (isActive currentFrame) := by
    rw [hd]
    exact count_renderClip nb currentFrame tw.m_clips
  obtain ⟨h2, h1⟩ := countP_isActive currentFrame tw.m_clips hno hpos
  refine ⟨out, hout, hc, ?_, ?_⟩
  · rw [hc]; exact h2
  · rw [hc]; exact h1

/-- Witness for C1 (amended): clips A on 0 to 100 and B on 150 to 250 do not
abut; at frame 50 one `renderClip` call is made. -/
theorem getOutput_renders_at_most_one_unless_abutting_witness :
    NonOverlapping gapTrack.m_clips ∧
    ∃ out, getOutput simOps 1 60 gapTrack 49 50 = some out ∧
      out.dispatched.count Dispatch.renderClip = 1 := by
  obtain ⟨out, hout, hc, -, -⟩ :=
    getOutput_renders_at_most_one_unless_abutting simOps 1 60 gapTrack 49 50
      (by decide) (by decide) (by decide)
  exact ⟨by decide, out, hout, hc.trans (by decide)⟩

/-! ### The end of the track -/

/-- C2 (as stated, refuted): on the track with a clip of 1000 frames at 0
and a clip of 5 frames at 10, `checkEnd( 20 )` is true although the track
has clips and 20 is not greater than the greatest `start + length`, which
is 1000. -/
theorem checkEnd_true_before_greatest_end :
    checkEnd overlapTrack 20 = true ∧
    overlapTrack.m_clips ≠ [] ∧
    (∃ it ∈ overlapTrack.m_clips, it.1 + it.2.clipLength = 1000 ∧ ¬ 20 > it.1 + it.2.clipLength) ∧
    ¬ (checkEnd overlapTrack 20 = true ↔
        overlapTrack.m_clips = [] ∨
          ∀ it ∈ overlapTrack.m_clips, 20 > it.1 + it.2.clipLength) := by
  refine ⟨by decide, List.cons_ne_nil _ _, by decide, fun h => ?_⟩
  rcases h.mp (by decide) with h0 | hall
  · exact List.cons_ne_nil _ _ h0
  · have h1 := hall (0, simClip State.Stopped 1000) (List.mem_cons_self _ _)
    revert h1
    decide

/-- C2 (amended): `checkEnd( f )` is true iff the track has no clips or the
last entry of the map, the clip with the greatest start, has
`start + length < f`. When the clips are pairwise non-overlapping with
non-negative lengths, that clip has the greatest `start + length`, and
`checkEnd( f )` is true iff the track has no clips or `f` is greater than
`start + length` of every clip. -/
theorem checkEnd_iff_last_clip_ended (tw : TrackWorkflow σ) (currentFrame : Int) :
    (checkEnd tw currentFrame = true ↔
      tw.m_clips = [] ∨
        ∃ last, tw.m_clips.getLast? = some last ∧ last.1 + last.2.clipLength < currentFrame) ∧
    (KeysAscending tw.m_clips →
      ∀ last, tw.m_clips.getLast? = some last → ∀ it ∈ tw.m_clips, it.1 ≤ last.1) ∧
    (KeysAscending tw.m_clips → NonOverlapping tw.m_clips →
      (∀ it ∈ tw.m_clips, 0 ≤ it.2.clipLength) →
      (checkEnd tw currentFrame = true ↔
        tw.m_clips = [] ∨ ∀ it ∈ tw.m_clips, currentFrame > it.1 + it.2.clipLength)) := by
  have h1 : checkEnd tw currentFrame = true ↔
      tw.m_clips = [] ∨
        ∃ last, tw.m_clips.getLast? = some last ∧
          last.1 + last.2.clipLength < currentFrame := by
    unfold checkEnd
    cases hl : tw.m_clips.getLast? with
    | none => simp [List.getLast?_eq_none_iff.mp hl]
    | some last =>
      have hne : tw.m_clips ≠ [] := by
        intro h
        rw [h] at hl
        cases hl
      simp only [decide_eq_true_eq, hne, false_or, Option.some.injEq, exists_eq_left']
      omega
  refine ⟨h1, fun hk last hl it hit => key_le_last tw.m_clips hk last it hl hit, ?_⟩
  intro hk hno hlen
  rw [h1]
  constructor
  · rintro (h | ⟨last, hl, hlt⟩)
    · exact Or.inl h
    · right
      intro it hit
      obtain ⟨ys, hys⟩ := List.getLast?_eq_some_iff.mp hl
      rw [hys] at hit hk hno
      rcases List.mem_append.mp hit with h | h
      · have hkey := (List.pairwise_append.mp hk).2.2 it h last (List.mem_singleton_self _)
        have hov := (List.pairwise_append.mp hno).2.2 it h last (List.mem_singleton_self _)
        have hl0 := hlen last (List.mem_of_getLast?_eq_some hl)
        omega
      · rw [List.mem_singleton.mp h]
        omega
  · rintro (h | hall)
    · exact Or.inl h
    · cases hl : tw.m_clips.getLast? with
      | none => exact Or.inl (List.getLast?_eq_none_iff.mp hl)
      | some last =>
        have := hall last (List.mem_of_getLast?_eq_some hl)
        exact Or.inr ⟨last, rfl, by omega⟩

/-- Witness for C2 (amended): clips A on 0 to 100 and B on 150 to 250; frame
251 is past the end of the track, frame 250 is not. -/
theorem checkEnd_iff_last_clip_ended_witness :
    (checkEnd gapTrack 251 = true ↔
      gapTrack.m_clips = [] ∨ ∀ it ∈ gapTrack.m_clips, 251 > it.1 + it.2.clipLength) ∧
    checkEnd gapTrack 251 = true ∧ checkEnd gapTrack 250 = false :=
  ⟨(checkEnd_iff_last_clip_ended gapTrack 251).2.2 (by decide) (by decide) (by decide),
    by decide, by decide⟩

end Tick

/-! ## The deferred commands of the renderer -/

section Renderer

variable {W : Type}

open WorkflowRenderer

/-- The loop of `checkActions` executes the commands held, from the head of
the container on, and leaves it empty. -/
theorem checkActionsLoop_eq (ops : WorkflowOps W) (items : List Action)
    (r : WorkflowRenderer W) (h : r.m_actions.items = items) :
    checkActionsLoop ops r =
      { r with m_actions := { items := [] },
               m_mainWorkflow := items.foldl (fun w a => a.execute ops w) r.m_mainWorkflow,
               journal := r.journal ++ items.map RendererEvent.executed } := by
  induction items generalizing r with
  | nil =>
    rw [checkActionsLoop]
    have he : r.m_actions = { items := [] } := by
      cases hr : r.m_actions
      rw [hr] at h
      simp only at h
      rw [h]
    simp only [ActionStack.empty, h, List.isEmpty_nil, Bool.true_eq_false, dite_false,
      List.foldl_nil, List.map_nil, List.append_nil]
    cases r
    simp only at he
    rw [he]
  | cons a rest ih =>
    rw [checkActionsLoop]
    simp only [ActionStack.empty, h, List.isEmpty_cons, ActionStack.top, List.head?_cons,
      dite_true]
    rw [ih _ (by simp [ActionStack.pop, h])]
    simp

/-- `checkActions` as a whole: the mutex is taken, the commands held are
executed from the head on, the container is left empty, the mutex is
released. -/
theorem checkActions_eq (ops : WorkflowOps W) (r : WorkflowRenderer W) :
    checkActions ops r =
      { r with m_actions := { items := [] },
               m_mainWorkflow :=
                 r.m_actions.items.foldl (fun w a => a.execute ops w) r.m_mainWorkflow,
               journal := r.journal ++ [RendererEvent.lockActions] ++
                 r.m_actions.items.map RendererEvent.executed ++
                 [RendererEvent.unlockActions] } := by
  unfold checkActions
  simp only
  by_cases h : r.lockActions.m_actions.size = 0
  · rw [if_pos h]
    have hi : r.m_actions.items = [] := List.length_eq_zero.mp h
    have he : r.m_actions = { items := [] } := by
      cases hr : r.m_actions
      rw [hr] at hi
      simp only at hi
      rw [hi]
    simp [unlockActions, lockActions, hi, he]
  · rw [if_neg h, checkActionsLoop_eq ops r.m_actions.items r.lockActions rfl]
    simp [unlockActions, lockActions]

theorem enqueueAll_eq (r : WorkflowRenderer W) (acts : List (Bool × Action)) :
    enqueueAll r acts =
      { r with m_actions := { items := r.m_actions.items ++ acts.map Prod.snd },
               journal := r.journal ++ acts.map (fun p => RendererEvent.enqueued p.2) } := by
  induction acts generalizing r with
  | nil => simp [enqueueAll]
  | cons p rest ih =>
    have hstep : enqueueAll r (p :: rest) =
        enqueueAll (if p.1 = true then r.push p.2 else r.addAction p.2) rest := rfl
    rw [hstep, ih]
    split_ifs <;> simp [push, addAction, ActionStack.push, ActionStack.addAction]

/-- C3: after a drain by `checkActions` the container is empty; commands
then enqueued through `addAction` or `push` are held in enqueue order; the
next `checkActions` executes exactly those commands, each once, in that
order (between taking and releasing the mutex), applies them to the world
in that order, and leaves the container empty; a `checkActions` right after
it executes nothing and leaves the world as it is. -/
theorem checkActions_executes_in_enqueue_order (ops : WorkflowOps W)
    (r : WorkflowRenderer W) (acts : List (Bool × Action)) :
    (checkActions ops r).m_actions.items = [] ∧
    (enqueueAll (checkActions ops r) acts).m_actions.items = acts.map Prod.snd ∧
    (checkActions ops (enqueueAll (checkActions ops r) acts)).journal =
      (enqueueAll (checkActions ops r) acts).journal ++ [RendererEvent.lockActions] ++
        acts.map (fun p => RendererEvent.executed p.2) ++ [RendererEvent.unlockActions] ∧
    (checkActions ops (enqueueAll (checkActions ops r) acts)).m_mainWorkflow =
      (acts.map Prod.snd).foldl (fun w a => a.execute ops w)
        (checkActions ops r).m_mainWorkflow ∧
    (checkActions ops (enqueueAll (checkActions ops r) acts)).m_actions.items = [] ∧
    checkActions ops (checkActions ops (enqueueAll (checkActions ops r) acts)) =
      { checkActions ops (enqueueAll (checkActions ops r) acts) with
        journal := (checkActions ops (enqueueAll (checkActions ops r) acts)).journal ++
          [RendererEvent.lockActions, RendererEvent.unlockActions] } := by
  refine ⟨?_, ?_, ?_, ?_, ?_, ?_⟩
  · rw [checkActions_eq]
  · rw [enqueueAll_eq, checkActions_eq]
    simp
  · rw [checkActions_eq ops (enqueueAll _ _), enqueueAll_eq, checkActions_eq]
    simp [List.map_map, Function.comp_def]
  · rw [checkActions_eq ops (enqueueAll _ _), enqueueAll_eq, checkActions_eq]
    simp
  · rw [checkActions_eq ops (enqueueAll _ _)]
  · rw [checkActions_eq ops (checkActions ops _), checkActions_eq ops (enqueueAll _ _)]
    simp

/-- C10: when the renderer is not rendering, `addClip`, `removeClip` and
`resizeClip` apply the operation to the world at once and change nothing
else, the pending commands included; when it is rendering, each appends
one command with the same target and parameters to the pending commands
(between taking and releasing the actions mutex) and leaves the world as
it is. -/
theorem edits_immediate_or_queued (ops : WorkflowOps W) (r : WorkflowRenderer W) :
    (r.m_isRendering = false →
      (∀ clip trackId startingPos trackType,
        addClip ops r clip trackId startingPos trackType =
          { r with m_mainWorkflow :=
              ops.addClip clip trackId startingPos trackType r.m_mainWorkflow }) ∧
      (∀ uuid trackId trackType,
        removeClip ops r uuid trackId trackType =
          { r with m_mainWorkflow := ops.removeClip uuid trackId trackType r.m_mainWorkflow }) ∧
      (∀ clip newBegin newEnd,
        resizeClip ops r clip newBegin newEnd =
          { r with m_mainWorkflow :=
              ops.setBoundaries clip newBegin newEnd r.m_mainWorkflow })) ∧
    (r.m_isRendering = true →
      (∀ clip trackId startingPos trackType,
        addClip ops r clip trackId startingPos trackType =
          { r with
            m_actions :=
              { items := r.m_actions.items ++
                  [Action.AddClip trackId trackType clip startingPos] },
            journal := r.journal ++ [RendererEvent.lockActions,
              RendererEvent.enqueued (Action.AddClip trackId trackType clip startingPos),
              RendererEvent.unlockActions] }) ∧
      (∀ uuid trackId trackType,
        removeClip ops r uuid trackId trackType =
          { r with
            m_actions :=
              { items := r.m_actions.items ++ [Action.RemoveClip trackId trackType uuid] },
            journal := r.journal ++ [RendererEvent.lockActions,
              RendererEvent.enqueued (Action.RemoveClip trackId trackType uuid),
              RendererEvent.unlockActions] }) ∧
      (∀ clip newBegin newEnd,
        resizeClip ops r clip newBegin newEnd =
          { r with
            m_actions :=
              { items := r.m_actions.items ++ [Action.ResizeClip clip newBegin newEnd] },
            journal := r.journal ++ [RendererEvent.lockActions,
              RendererEvent.enqueued (Action.ResizeClip clip newBegin newEnd),
              RendererEvent.unlockActions] })) := by
  constructor
  · intro h
    refine ⟨?_, ?_, ?_⟩ <;> intros <;>
      simp [addClip, removeClip, resizeClip, h]
  · intro h
    refine ⟨?_, ?_, ?_⟩ <;> intros <;>
      simp [addClip, removeClip, resizeClip, h, lockActions, unlockActions, addAction,
        ActionStack.addAction]

/-- Witness for C10: the same `addClip` call on a renderer that is idle and
on one that renders, over the journal world. -/
theorem edits_immediate_or_queued_witness :
    addClip journalOps idleRenderer 7 0 25 1 =
      { idleRenderer with m_mainWorkflow := [Action.AddClip 0 1 7 25] } ∧
    addClip journalOps playingRenderer 7 0 25 1 =
      { playingRenderer with
        m_actions := { items := [Action.AddClip 0 1 7 25] },
        journal := [RendererEvent.lockActions,
          RendererEvent.enqueued (Action.AddClip 0 1 7 25), RendererEvent.unlockActions] } :=
  ⟨((edits_immediate_or_queued journalOps idleRenderer).1 rfl).1 7 0 25 1,
    ((edits_immediate_or_queued journalOps playingRenderer).2 rfl).1 7 0 25 1⟩

end Renderer

/-! ## Cursor changes, the video buffer, split and unsplit -/

section RendererEntryPoints

variable {W : Type}

open WorkflowRenderer

/-- C11 (as stated, refuted): on a renderer that is rendering, with nothing
queued, `timelineCursorChanged( 42 )` appends no action (the container and
the trace are as before) and the main workflow's current frame is 42 when
it returns: `setCurrentFrame` was called directly. -/
theorem timelineCursorChanged_not_queued_while_rendering :
    (editRenderer true).m_isRendering = true ∧
    (timelineCursorChanged editOps (editRenderer true) 42).m_actions.items = [] ∧
    (timelineCursorChanged editOps (editRenderer true) 42).journal = [] ∧
    (editRenderer true).m_mainWorkflow.currentFrame = 0 ∧
    (timelineCursorChanged editOps (editRenderer true) 42).m_mainWorkflow.currentFrame = 42 ∧
    (timelineCursorChanged editOps (editRenderer true) 42).m_mainWorkflow.reason =
      some FrameChangedReason.TimelineCursor := by
  refine ⟨rfl, rfl, rfl, rfl, rfl, rfl⟩

/-- C11 (amended): whether the renderer is rendering or not,
`timelineCursorChanged`, `previewWidgetCursorChanged` and
`rulerCursorChanged` call `MainWorkflow::setCurrentFrame` directly, with
the new frame and their own origin tag, and change nothing else of the
renderer: no action is appended and the actions mutex is not taken. -/
theorem cursorChanged_sets_frame_directly (ops : RendererOps W) (r : WorkflowRenderer W)
    (newFrame : Int) (rendering : Bool) :
    timelineCursorChanged ops { r with m_isRendering := rendering } newFrame =
      { r with m_isRendering := rendering,
               m_mainWorkflow :=
                 ops.setCurrentFrame newFrame FrameChangedReason.TimelineCursor
                   r.m_mainWorkflow } ∧
    previewWidgetCursorChanged ops { r with m_isRendering := rendering } newFrame =
      { r with m_isRendering := rendering,
               m_mainWorkflow :=
                 ops.setCurrentFrame newFrame FrameChangedReason.PreviewCursor
                   r.m_mainWorkflow } ∧
    rulerCursorChanged ops { r with m_isRendering := rendering } newFrame =
      { r with m_isRendering := rendering,
               m_mainWorkflow :=
                 ops.setCurrentFrame newFrame FrameChangedReason.RulerCursor
                   r.m_mainWorkflow } ∧
    (timelineCursorChanged ops { r with m_isRendering := rendering } newFrame).m_actions =
      r.m_actions ∧
    (previewWidgetCursorChanged ops { r with m_isRendering := rendering } newFrame).m_actions =
      r.m_actions ∧
    (rulerCursorChanged ops { r with m_isRendering := rendering } newFrame).m_actions =
      r.m_actions ∧
    (timelineCursorChanged ops { r with m_isRendering := rendering } newFrame).journal =
      r.journal ∧
    (previewWidgetCursorChanged ops { r with m_isRendering := rendering } newFrame).journal =
      r.journal ∧
    (rulerCursorChanged ops { r with m_isRendering := rendering } newFrame).journal =
      r.journal :=
  ⟨rfl, rfl, rfl, rfl, rfl, rfl, rfl, rfl, rfl⟩

/-- The bytes `memcpy` leaves: the first `n` are those of the source, the
others those the destination had. -/
theorem memcpy_spec (dst src : List Nat) (n : Nat) (hs : n ≤ src.length)
    (hd : n ≤ dst.length) :
    (memcpy dst src n).length = dst.length ∧
    (memcpy dst src n).take n = src.take n ∧
    (memcpy dst src n).drop n = dst.drop n := by
  have hl : (src.take n).length = n := by simp [hs]
  refine ⟨?_, ?_, ?_⟩
  · simp only [memcpy, List.length_append, List.length_take, List.length_drop]
    omega
  · unfold memcpy
    rw [List.take_append_of_le_length (by omega)]
    rw [List.take_of_length_le (by omega)]
  · unfold memcpy
    rw [List.drop_append_of_le_length (by omega)]
    rw [List.drop_of_length_le (by omega)]
    simp

/-- C16: `lock` returns the renderer's video buffer in every case. When
`m_stopping` is false it calls `getSynchroneOutput` once, copies the
`nboctets` bytes of the video frame of the pair it got to the start of the
buffer (the buffer keeps its size and its other bytes, for a frame that
fits) and stores the pair's audio sample; when `m_stopping` is true it
leaves the renderer as it was: no `getSynchroneOutput` call, the buffer
and the audio sample unchanged. -/
theorem lock_returns_video_buffer (ops : RendererOps W) (self : WorkflowRenderer W) :
    (lock ops self).1 = (lock ops self).2.m_renderVideoFrame ∧
    (self.m_stopping = false →
      (lock ops self).2 =
        { self with
          m_mainWorkflow := (ops.getSynchroneOutput self.m_mainWorkflow).2,
          journal := self.journal ++ [RendererEvent.getSynchroneOutput],
          m_renderVideoFrame :=
            memcpy self.m_renderVideoFrame
              (ops.getSynchroneOutput self.m_mainWorkflow).1.video.octets
              (ops.getSynchroneOutput self.m_mainWorkflow).1.video.nboctets,
          m_renderAudioSample := some (ops.getSynchroneOutput self.m_mainWorkflow).1.audio } ∧
      ((ops.getSynchroneOutput self.m_mainWorkflow).1.video.nboctets ≤
          (ops.getSynchroneOutput self.m_mainWorkflow).1.video.octets.length →
        (ops.getSynchroneOutput self.m_mainWorkflow).1.video.nboctets ≤
          self.m_renderVideoFrame.length →
        (lock ops self).1.length = self.m_renderVideoFrame.length ∧
        (lock ops self).1.take (ops.getSynchroneOutput self.m_mainWorkflow).1.video.nboctets =
          (ops.getSynchroneOutput self.m_mainWorkflow).1.video.octets.take
            (ops.getSynchroneOutput self.m_mainWorkflow).1.video.nboctets ∧
        (lock ops self).1.drop (ops.getSynchroneOutput self.m_mainWorkflow).1.video.nboctets =
          self.m_renderVideoFrame.drop
            (ops.getSynchroneOutput self.m_mainWorkflow).1.video.nboctets)) ∧
    (self.m_stopping = true →
      (lock ops self).2 = self ∧ (lock ops self).1 = self.m_renderVideoFrame ∧
      RendererEvent.getSynchroneOutput ∉ (lock ops self).2.journal.drop self.journal.length) := by
  refine ⟨rfl, fun h => ?_, fun h => ?_⟩
  · have hl : lock ops self =
        ((memcpy self.m_renderVideoFrame
            (ops.getSynchroneOutput self.m_mainWorkflow).1.video.octets
            (ops.getSynchroneOutput self.m_mainWorkflow).1.video.nboctets),
          { self with
            m_mainWorkflow := (ops.getSynchroneOutput self.m_mainWorkflow).2,
            journal := self.journal ++ [RendererEvent.getSynchroneOutput],
            m_renderVideoFrame :=
              memcpy self.m_renderVideoFrame
                (ops.getSynchroneOutput self.m_mainWorkflow).1.video.octets
                (ops.getSynchroneOutput self.m_mainWorkflow).1.video.nboctets,
            m_renderAudioSample :=
              some (ops.getSynchroneOutput self.m_mainWorkflow).1.audio }) := by
      simp [lock, h]
    rw [hl]
    exact ⟨rfl, fun hs hd => memcpy_spec _ _ _ hs hd⟩
  · have hl : lock ops self = (self.m_renderVideoFrame, self) := by
      simp [lock, h]
    rw [hl]
    exact ⟨rfl, rfl, by simp⟩

/-- Witness for C16: a renderer that is not stopping, with a buffer of
eight zero bytes, over a world whose next frame is four bytes of value 7
with audio sample 7; and the same renderer once it is stopping. -/
theorem lock_returns_video_buffer_witness :
    (lock editOps frameSevenRenderer).1 = [7, 7, 7, 7, 0, 0, 0, 0] ∧
    (lock editOps frameSevenRenderer).2.m_renderAudioSample = some 7 ∧
    (lock editOps frameSevenRenderer).2.journal = [RendererEvent.getSynchroneOutput] ∧
    (lock editOps { frameSevenRenderer with m_stopping := true }).2 =
      { frameSevenRenderer with m_stopping := true } ∧
    (lock editOps { frameSevenRenderer with m_stopping := true }).1 =
      [0, 0, 0, 0, 0, 0, 0, 0] := by
  have h1 := (lock_returns_video_buffer editOps frameSevenRenderer).2.1 rfl
  have h2 := (lock_returns_video_buffer editOps
    { frameSevenRenderer with m_stopping := true }).2.2 rfl
  refine ⟨rfl, ?_, ?_, h2.1, h2.2.1⟩
  · rw [h1.1]
    rfl
  · rw [h1.1]
    rfl

/-- The reference world keeps the laws. -/
theorem editOps_lawful : LawfulWorld editOps editTrackClips where
  newClip_ne := by
    intro src b e w
    intro h
    have h2 : src + 1 ≤ max w.fresh (src + 1) := le_max_right _ _
    have h3 : max w.fresh (src + 1) = src := h
    rw [h3] at h2
    exact Nat.not_succ_le_self src h2
  newClip_begin := by
    intro src b e w
    simp [editOps]
  newClip_end := by
    intro src b e w
    simp [editOps]
  newClip_other := by
    intro src b e w c hc
    have hc2 : c ≠ max w.fresh (src + 1) := hc
    simp [editOps, Function.update_noteq hc2]
  setEnd_end := by
    intro c e w
    simp [editOps]
  setEnd_begin := by
    intro c e w c2
    by_cases h : c2 = c
    · subst h
      simp [editOps]
    · simp [editOps, Function.update_noteq h]
  setEnd_other := by
    intro c e w c2 h
    simp [editOps, Function.update_noteq h]
  setBoundaries_self := by
    intro c b e w
    simp [editOps]
  setBoundaries_other := by
    intro c b e w c2 h
    simp [editOps, Function.update_noteq h]
  setBoundaries_tracks := by
    intro c b e w t tt
    rfl
  addClip_bounds := by
    intro c t pos tt w c2
    exact ⟨rfl, rfl⟩
  addClip_tracks := by
    intro c t pos tt w
    simp [editOps, editTrackClips]
  removeClip_bounds := by
    intro u t tt w c2
    exact ⟨rfl, rfl⟩
  pause_bounds := by
    intro w c2
    exact ⟨rfl, rfl⟩
  unpause_bounds := by
    intro w c2
    exact ⟨rfl, rfl⟩

/-- A command that does not resize the clip `c` leaves its boundaries as
they were. -/
theorem execute_bounds (ops : RendererOps W)
    (trackClips : Nat → TrackType → W → List (ClipPtr × Int))
    (law : LawfulWorld ops trackClips) (c : ClipPtr) (a : Action)
    (h : ∀ b e, a ≠ Action.ResizeClip c b e) (w : W) :
    ops.getBegin c (a.execute ops.toWorkflowOps w) = ops.getBegin c w ∧
    ops.getEnd c (a.execute ops.toWorkflowOps w) = ops.getEnd c w := by
  cases a with
  | AddClip trackId trackType clip startingPos =>
    exact law.addClip_bounds clip trackId startingPos trackType w c
  | RemoveClip trackId trackType uuid => exact law.removeClip_bounds uuid trackId trackType w c
  | ResizeClip clip newBegin newEnd =>
    have hne : c ≠ clip := by
      intro hc
      exact h newBegin newEnd (by rw [hc])
    exact law.setBoundaries_other clip newBegin newEnd w c hne
  | Pause => exact law.pause_bounds w c
  | Unpause => exact law.unpause_bounds w c

/-- Commands none of which resizes the clip `c` leave its boundaries as they
were. -/
theorem foldl_execute_bounds (ops : RendererOps W)
    (trackClips : Nat → TrackType → W → List (ClipPtr × Int))
    (law : LawfulWorld ops trackClips) (c : ClipPtr) (acts : List Action)
    (h : ∀ a ∈ acts, ∀ b e, a ≠ Action.ResizeClip c b e) (w : W) :
    ops.getBegin c (acts.foldl (fun w a => a.execute ops.toWorkflowOps w) w) = ops.getBegin c w ∧
    ops.getEnd c (acts.foldl (fun w a => a.execute ops.toWorkflowOps w) w) = ops.getEnd c w := by
  induction acts generalizing w with
  | nil => exact ⟨rfl, rfl⟩
  | cons a rest ih =>
    have h1 := execute_bounds ops trackClips law c a (h a (List.mem_cons_self _ _)) w
    have h2 := ih (fun x hx => h x (List.mem_cons_of_mem _ hx)) (a.execute ops.toWorkflowOps w)
    simp only [List.foldl_cons]
    exact ⟨h2.1.trans h1.1, h2.2.trans h1.2⟩

/-- C12: in a world that keeps the laws of clips and tracks, for a clip with
boundaries `b` and `e`, `split` returns the clip it made with boundaries
`newClipBegin` and `e`. When not rendering, on return the new clip has
those boundaries and lies on the track at `newClipPos`, the clip split has
boundaries `b` and `newClipBegin`, and nothing is queued. When rendering,
the two commands (add the new clip, resize the clip split to `b` and
`newClipBegin`) are appended inside one taking of the actions mutex, and
after the next `checkActions` the same holds of the world, provided no
command queued before names the new clip in a resize. -/
theorem split_boundaries (ops : RendererOps W)
    (trackClips : Nat → TrackType → W → List (ClipPtr × Int))
    (law : LawfulWorld ops trackClips) (r : WorkflowRenderer W) (toSplit : ClipPtr)
    (trackId : Nat) (newClipPos newClipBegin : Int) (trackType : TrackType) :
    (r.m_isRendering = false →
      SplitDone ops trackClips toSplit
        (split ops r toSplit trackId newClipPos newClipBegin trackType).1
        (ops.getBegin toSplit r.m_mainWorkflow) (ops.getEnd toSplit r.m_mainWorkflow)
        newClipBegin trackId trackType newClipPos
        (split ops r toSplit trackId newClipPos newClipBegin trackType).2.m_mainWorkflow ∧
      (split ops r toSplit trackId newClipPos newClipBegin trackType).2.m_actions =
        r.m_actions ∧
      (split ops r toSplit trackId newClipPos newClipBegin trackType).2.journal = r.journal) ∧
    (r.m_isRendering = true →
      (split ops r toSplit trackId newClipPos newClipBegin trackType).2.journal =
        r.journal ++ [RendererEvent.lockActions,
          RendererEvent.enqueued (Action.AddClip trackId trackType
            (split ops r toSplit trackId newClipPos newClipBegin trackType).1 newClipPos),
          RendererEvent.enqueued (Action.ResizeClip toSplit
            (ops.getBegin toSplit r.m_mainWorkflow) newClipBegin),
          RendererEvent.unlockActions] ∧
      (split ops r toSplit trackId newClipPos newClipBegin trackType).2.m_actions.items =
        r.m_actions.items ++ [Action.AddClip trackId trackType
            (split ops r toSplit trackId newClipPos newClipBegin trackType).1 newClipPos,
          Action.ResizeClip toSplit (ops.getBegin toSplit r.m_mainWorkflow) newClipBegin] ∧
      ((∀ a ∈ r.m_actions.items, ∀ b e,
          a ≠ Action.ResizeClip
            (split ops r toSplit trackId newClipPos newClipBegin trackType).1 b e) →
        SplitDone ops trackClips toSplit
          (split ops r toSplit trackId newClipPos newClipBegin trackType).1
          (ops.getBegin toSplit r.m_mainWorkflow) (ops.getEnd toSplit r.m_mainWorkflow)
          newClipBegin trackId trackType newClipPos
          (checkActions ops.toWorkflowOps
            (split ops r toSplit trackId newClipPos newClipBegin trackType).2).m_mainWorkflow ∧
        (checkActions ops.toWorkflowOps
          (split ops r toSplit trackId newClipPos newClipBegin trackType).2).m_actions.items
          = [])) := by
  have hne := law.newClip_ne toSplit newClipBegin (ops.getEnd toSplit r.m_mainWorkflow)
    r.m_mainWorkflow
  have hb := law.newClip_begin toSplit newClipBegin (ops.getEnd toSplit r.m_mainWorkflow)
    r.m_mainWorkflow
  have he := law.newClip_end toSplit newClipBegin (ops.getEnd toSplit r.m_mainWorkflow)
    r.m_mainWorkflow
  have ho := law.newClip_other toSplit newClipBegin (ops.getEnd toSplit r.m_mainWorkflow)
    r.m_mainWorkflow toSplit (Ne.symm hne)
  generalize hmade : ops.newClip toSplit newClipBegin (ops.getEnd toSplit r.m_mainWorkflow)
    r.m_mainWorkflow = made at hne hb he ho
  constructor
  · intro hr
    have hs : split ops r toSplit trackId newClipPos newClipBegin trackType =
        (made.1,
          { r with
            m_mainWorkflow := ops.addClip made.1 trackId newClipPos trackType
                                (ops.setEnd toSplit newClipBegin made.2) }) := by
      simp [split, hr, hmade]
    rw [hs]
    refine ⟨⟨?_, ?_, ?_, ?_, ?_⟩, rfl, rfl⟩
    · show ops.getBegin made.1 (ops.addClip made.1 trackId newClipPos trackType _) = _
      rw [(law.addClip_bounds _ _ _ _ _ _).1, law.setEnd_begin, hb]
    · show ops.getEnd made.1 (ops.addClip made.1 trackId newClipPos trackType _) = _
      rw [(law.addClip_bounds _ _ _ _ _ _).2, law.setEnd_other _ _ _ _ hne, he]
    · show ops.getBegin toSplit (ops.addClip made.1 trackId newClipPos trackType _) = _
      rw [(law.addClip_bounds _ _ _ _ _ _).1, law.setEnd_begin, ho.1]
    · show ops.getEnd toSplit (ops.addClip made.1 trackId newClipPos trackType _) = _
      rw [(law.addClip_bounds _ _ _ _ _ _).2, law.setEnd_end]
    · exact law.addClip_tracks _ _ _ _ _
  · intro hr
    have hs : split ops r toSplit trackId newClipPos newClipBegin trackType =
        (made.1, { r with
          m_mainWorkflow := made.2,
          m_actions := { items := r.m_actions.items ++
            [Action.AddClip trackId trackType made.1 newClipPos,
              Action.ResizeClip toSplit (ops.getBegin toSplit made.2) newClipBegin] },
          journal := r.journal ++ [RendererEvent.lockActions,
            RendererEvent.enqueued (Action.AddClip trackId trackType made.1 newClipPos),
            RendererEvent.enqueued
              (Action.ResizeClip toSplit (ops.getBegin toSplit made.2) newClipBegin),
            RendererEvent.unlockActions] }) := by
      simp [split, hr, hmade, lockActions, unlockActions, addAction, push,
        ActionStack.addAction, ActionStack.push]
    rw [hs, ho.1]
    refine ⟨rfl, rfl, fun hpend => ?_⟩
    rw [checkActions_eq]
    refine ⟨?_, rfl⟩
    have hp := foldl_execute_bounds ops trackClips law made.1 r.m_actions.items hpend made.2
    have hpt := fun (w : W) =>
      law.setBoundaries_other toSplit (ops.getBegin toSplit r.m_mainWorkflow) newClipBegin w
        made.1 hne
    simp only [List.foldl_append, List.foldl_cons, List.foldl_nil]
    generalize List.foldl (fun w a => Action.execute ops.toWorkflowOps a w) made.2
      r.m_actions.items = pending at hp
    simp only [Action.execute]
    refine ⟨?_, ?_, ?_, ?_, ?_⟩
    · rw [(hpt _).1, (law.addClip_bounds _ _ _ _ _ _).1, hp.1, hb]
    · rw [(hpt _).2, (law.addClip_bounds _ _ _ _ _ _).2, hp.2, he]
    · exact (law.setBoundaries_self _ _ _ _).1
    · exact (law.setBoundaries_self _ _ _ _).2
    · rw [law.setBoundaries_tracks]
      exact law.addClip_tracks _ _ _ _ _

/-- Witness for C12: the clip at address 1, with boundaries 0 and 100, split
at 40 in the reference world; the new clip, at address 2, goes to track 0
at frame 40. Not rendering, the world is changed on return; rendering, it
is after the drain. -/
theorem split_boundaries_witness :
    SplitDone editOps editTrackClips 1 2 0 100 40 0 0 40
      (split editOps (editRenderer false) 1 0 40 40 0).2.m_mainWorkflow ∧
    (split editOps (editRenderer true) 1 0 40 40 0).2.m_actions.items =
      [Action.AddClip 0 0 2 40, Action.ResizeClip 1 0 40] ∧
    SplitDone editOps editTrackClips 1 2 0 100 40 0 0 40
      (checkActions editOps.toWorkflowOps
        (split editOps (editRenderer true) 1 0 40 40 0).2).m_mainWorkflow :=
  ⟨((split_boundaries editOps editTrackClips editOps_lawful (editRenderer false)
      1 0 40 40 0).1 rfl).1,
    ((split_boundaries editOps editTrackClips editOps_lawful (editRenderer true)
      1 0 40 40 0).2 rfl).2.1,
    (((split_boundaries editOps editTrackClips editOps_lawful (editRenderer true)
      1 0 40 40 0).2 rfl).2.2 (by intro a ha; cases ha)).1⟩

/-- C13 (code bug, evaluated): clip 1 with boundaries 0 and 40, clip 2 split
off it with boundaries 40 and 100 on track 0, and `unsplit` with
`oldEnd = 100`. Not rendering, clip 1 ends with boundaries 0 and 100 and
the track holds clip 1 alone. Rendering, the commands queued are
`RemoveClip` and `ResizeClip( origin, 40, 100 )`, and after `checkActions`
clip 1 has boundaries 40 and 100: its begin has moved to the begin of the
clip split off. The track holds clip 1 alone in both cases. -/
theorem unsplit_queued_moves_origin_begin :
    (editOps.getBegin 1 (splitRenderer false).m_mainWorkflow = 0 ∧
      editOps.getEnd 1 (splitRenderer false).m_mainWorkflow = 40 ∧
      editOps.getBegin 2 (splitRenderer false).m_mainWorkflow = 40 ∧
      editTrackClips 0 0 (splitRenderer false).m_mainWorkflow = [(1, 0), (2, 40)]) ∧
    (editOps.getBegin 1 (unsplit editOps (splitRenderer false) 1 2 0 100 0).m_mainWorkflow = 0 ∧
      editOps.getEnd 1 (unsplit editOps (splitRenderer false) 1 2 0 100 0).m_mainWorkflow
        = 100 ∧
      editTrackClips 0 0 (unsplit editOps (splitRenderer false) 1 2 0 100 0).m_mainWorkflow
        = [(1, 0)]) ∧
    ((unsplit editOps (splitRenderer true) 1 2 0 100 0).m_actions.items =
        [Action.RemoveClip 0 0 2, Action.ResizeClip 1 40 100] ∧
      editOps.getBegin 1 (checkActions editOps.toWorkflowOps
        (unsplit editOps (splitRenderer true) 1 2 0 100 0)).m_mainWorkflow = 40 ∧
      editOps.getEnd 1 (checkActions editOps.toWorkflowOps
        (unsplit editOps (splitRenderer true) 1 2 0 100 0)).m_mainWorkflow = 100 ∧
      editTrackClips 0 0 (checkActions editOps.toWorkflowOps
        (unsplit editOps (splitRenderer true) 1 2 0 100 0)).m_mainWorkflow = [(1, 0)]) := by
  refine ⟨⟨rfl, rfl, rfl, rfl⟩, ⟨rfl, rfl, rfl⟩, rfl, ?_, ?_, ?_⟩ <;>
    · rw [checkActions_eq]
      rfl

end RendererEntryPoints

/-! ## The composition of the effects -/

section Effects

variable {F : Type}

open EffectsEngine

/-- The inputs of a stage after a run of `connect` calls. -/
theorem foldl_connect_inputs (fx : Effect F) (l : List Nat) (name : Nat → String) :
    (l.foldl (fun fx i => fx.connect (Slot.videoInput i) (name i)) fx) =
      { fx with inputs := fx.inputs ++ l.map (fun i => (name i, Slot.videoInput i)) } := by
  induction l generalizing fx with
  | nil => simp
  | cons i rest ih =>
    simp only [List.foldl_cons, List.map_cons]
    rw [ih]
    simp [Effect.connect]

/-- What `render` leaves in the first output slot of an engine just started:
the second stage's function of the one value at its input `in`, which is
the mixer's function of the 64 input slots under the names `track0` to
`track63`. -/
theorem render_start_output (mixer pouet : List (String × F) → F) (e : EffectsEngine F) :
    (render (start mixer pouet e)).getOutputFrame 0 =
      pouet [("in", mixer ((List.range 64).map
        (fun i => ("track" ++ toString i, e.slots (Slot.videoInput i)))))] := by
  have hf : (List.range 64).foldl
        (fun fx i => fx.connect (Slot.videoInput i) ("track" ++ toString i))
        ({ compute := mixer, inputs := [], output := none } : Effect F) =
      { compute := mixer,
        inputs := (List.range 64).map (fun i => ("track" ++ toString i, Slot.videoInput i)),
        output := none } :=
    foldl_connect_inputs _ _ (fun i => "track" ++ toString i)
  simp only [start, patchEffects, loadEffects, render, getOutputFrame, if_true, hf]
  simp [Effect.connectOut, Effect.connect, Effect.render, Function.comp_def]

/-- C14: `render` calls `render` of stage 0 (the mixer) and then of stage 1,
in that order, and on an engine just started (stages loaded and wired by
`patchEffects`) the frame it leaves in the first video output slot is a
function of the contents of the 64 input slots alone: two engines started
with the same stage functions and holding the same input frames give the
same output frame, whatever their other slots held before. -/
theorem render_deterministic (mixer pouet : List (String × F) → F) (e1 e2 : EffectsEngine F)
    (hin : ∀ i, i < 64 → e1.slots (Slot.videoInput i) = e2.slots (Slot.videoInput i)) :
    (render (start mixer pouet e1)).getOutputFrame 0 =
      (render (start mixer pouet e2)).getOutputFrame 0 ∧
    (render (start mixer pouet e1)).rendered = e1.rendered ++ [0, 1] ∧
    (render (start mixer pouet e2)).rendered = e2.rendered ++ [0, 1] := by
  refine ⟨?_, ?_, ?_⟩
  · rw [render_start_output, render_start_output]
    have hmap : (List.range 64).map
          (fun i => ("track" ++ toString i, e1.slots (Slot.videoInput i))) =
        (List.range 64).map
          (fun i => ("track" ++ toString i, e2.slots (Slot.videoInput i))) := by
      apply List.map_congr_left
      intro i hi
      rw [hin i (List.mem_range.mp hi)]
    rw [hmap]
  · simp [render, start, patchEffects, loadEffects]
  · simp [render, start, patchEffects, loadEffects]

/-- Witness for C14: two engines over number frames whose input slots hold
the same frames and whose connection between the stages holds 5 in one and
9 in the other; both compose the frame 2017, the sum of 0 to 63 plus one. -/
theorem render_deterministic_witness :
    (render (start sumMixer succEffect (numberEngine 5))).getOutputFrame 0 =
      (render (start sumMixer succEffect (numberEngine 9))).getOutputFrame 0 ∧
    (render (start sumMixer succEffect (numberEngine 5))).getOutputFrame 0 = 2017 ∧
    (render (start sumMixer succEffect (numberEngine 5))).rendered = [0, 1] := by
  have h := render_deterministic sumMixer succEffect (numberEngine 5) (numberEngine 9)
    (fun i _ => rfl)
  refine ⟨h.1, ?_, h.2.1⟩
  rw [render_start_output]
  decide

end Effects

/-! ## The frame a tick returns, and the frame it remembers -/

section Returned

variable {σ : Type}

open TrackWorkflow

theorem isActive_iff_dispatchOf (nb currentFrame : Int) (it : Int × ClipWorkflow σ) :
    isActive currentFrame it = true ↔ dispatchOf nb currentFrame it = Dispatch.renderClip := by
  rw [(dispatchOf_iff nb currentFrame it).1]
  simp [isActive]

/-- When at most one clip passes the test for rendering, the frame the loop
leaves in `ret` is the one `renderClip` returned for that clip. -/
theorem getOutputLoop_ret (ops : ClipOps σ) (fuel : Nat) (nb currentFrame : Int)
    (need : Bool) (clips : List (Int × ClipWorkflow σ)) (st st2 : LoopState σ)
    (h : getOutputLoop ops fuel nb currentFrame need clips st = some st2)
    (hone : clips.countP (isActive currentFrame) ≤ 1) :
    ∀ it ∈ clips, isActive currentFrame it = true →
      ∃ r, renderClip ops fuel it.2 currentFrame it.1 need = some r ∧ st2.ret = r.1 := by
  induction clips generalizing st with
  | nil =>
    intro it hit
    cases hit
  | cons x rest ih =>
    intro it hit hact
    simp only [getOutputLoop] at h
    cases hb : getOutputBody ops fuel nb currentFrame need st x with
    | none => simp [hb] at h
    | some st1 =>
      simp only [hb] at h
      obtain ⟨-, -, hren, -⟩ := getOutputBody_spec ops fuel nb currentFrame need st st1 x hb
      obtain ⟨-, -, hnone, -⟩ := getOutputLoop_spec ops fuel nb currentFrame need rest st1 st2 h
      by_cases hx : isActive currentFrame x = true
      · rw [List.countP_cons_of_pos _ _ hx] at hone
        have hz : rest.countP (isActive currentFrame) = 0 := by omega
        rw [List.countP_eq_zero] at hz
        have hrest : ∀ y ∈ rest, dispatchOf nb currentFrame y ≠ Dispatch.renderClip :=
          fun y hy hd => hz y hy ((isActive_iff_dispatchOf nb currentFrame y).mpr hd)
        rcases List.mem_cons.mp hit with rfl | hit2
        · obtain ⟨-, r, hr, hret⟩ := hren ((isActive_iff_dispatchOf nb currentFrame it).mp hx)
          exact ⟨r, hr, (hnone hrest).1.trans hret⟩
        · exact absurd hact (hz it hit2)
      · rw [List.countP_cons_of_neg _ _ hx] at hone
        rcases List.mem_cons.mp hit with rfl | hit2
        · exact absurd hact hx
        · exact ih st1 h hone it hit2 hact

/-- C15: on a track where at most one clip passes the test for rendering at
`currentFrame`, `getOutput` (the polls ending within the fuel) returns the
value `renderClip` returned for that clip, wherever the clip stands among
the others and however many they are, and returns none when no clip
passes the test. -/
theorem getOutput_returns_frame_of_active_clip (ops : ClipOps σ) (fuel : Nat) (nb : Int)
    (tw : TrackWorkflow σ) (lastFrame currentFrame : Int)
    (hs : ∀ it ∈ tw.m_clips, Settles ops fuel it.2)
    (hone : tw.m_clips.countP (isActive currentFrame) ≤ 1) :
    ∃ out, getOutput ops fuel nb tw lastFrame currentFrame = some out ∧
      (∀ it ∈ tw.m_clips, isActive currentFrame it = true →
        ∃ r, renderClip ops fuel it.2 currentFrame it.1
            (decide (|currentFrame - lastFrame| > 1)) = some r ∧
          out.ret = r.1) ∧
      ((∀ it ∈ tw.m_clips, isActive currentFrame it = false) → out.ret = none) := by
  obtain ⟨out, st, hout, hst, hret, -, -, -, -⟩ :=
    getOutput_returns ops fuel nb tw lastFrame currentFrame hs
  refine ⟨out, hout, ?_, ?_⟩
  · intro it hit hact
    obtain ⟨r, hr, hr2⟩ := getOutputLoop_ret ops fuel nb currentFrame _ tw.m_clips _ st hst hone
      it hit hact
    exact ⟨r, hr, hret.trans hr2⟩
  · intro hnone
    obtain ⟨-, -, hn, -⟩ := getOutputLoop_spec ops fuel nb currentFrame _ tw.m_clips _ st hst
    rw [hret]
    refine (hn ?_).1
    intro it hit hd
    have := hnone it hit
    rw [(isActive_iff_dispatchOf nb currentFrame it).mpr hd] at this
    cases this

/-- Witness for C15: `threeClipTrack` at frame 100: the first clip alone
passes the test, and the frame returned is the buffer 0 it hands out; at
frame 300 no clip passes it and no frame is returned. -/
theorem getOutput_returns_frame_of_active_clip_witness :
    threeClipTrack.m_clips.countP (isActive 100) ≤ 1 ∧
    (∃ out, getOutput simOps 2 60 threeClipTrack 99 100 = some out ∧ out.ret = some 0) ∧
    (∃ out, getOutput simOps 2 60 threeClipTrack 99 300 = some out ∧ out.ret = none) := by
  obtain ⟨out, hout, hact, -⟩ :=
    getOutput_returns_frame_of_active_clip simOps 2 60 threeClipTrack 99 100
      (by decide) (by decide)
  obtain ⟨out2, hout2, -, hnone⟩ :=
    getOutput_returns_frame_of_active_clip simOps 2 60 threeClipTrack 99 300
      (by decide) (by decide)
  refine ⟨by decide, ⟨out, hout, ?_⟩, ⟨out2, hout2, hnone (by decide)⟩⟩
  obtain ⟨r, hr, hret⟩ := hact (0, simClip State.Sleeping 100) (List.mem_cons_self _ _)
    (by decide)
  rw [hret]
  have h2 : renderClip simOps 2 (simClip State.Sleeping 100) 100 0
      (decide (|(100 : Int) - 99| > 1)) = some r := hr
  rw [show renderClip simOps 2 (simClip State.Sleeping 100) 100 0
      (decide (|(100 : Int) - 99| > 1)) = some _ from rfl] at h2
  cases h2
  rfl

/-- C20 (code bug, evaluated): the static `lastFrame` is one variable for all
tracks. `nearTrack` renders frame 10. Asked for frame 11 right after, its
clip is not sought; but when `farTrack` renders frame 500 in between,
the same request for frame 11 seeks the clip of `nearTrack`. And on one
tick at frame 50 after a jump, `nearTrack`, asked first, seeks its clip,
while `twinTrack`, asked next for the same frame, does not. -/
theorem getOutput_lastFrame_shared_between_tracks :
    (∃ t1, getOutput simOps 1 60 nearTrack 0 10 = some t1 ∧ t1.lastFrame = 10 ∧
      (∃ t2, getOutput simOps 1 60 t1.track t1.lastFrame 11 = some t2 ∧
        t2.track.m_clips.map (fun it => it.2.calls.drop 5) =
          [[Call.lockForRead, Call.unlock, Call.usleep 100, Call.lockForRead, Call.unlock,
            Call.getOutput, Call.wake]]) ∧
      (∃ u, getOutput simOps 1 60 farTrack t1.lastFrame 500 = some u ∧ u.lastFrame = 500 ∧
        ∃ t3, getOutput simOps 1 60 t1.track u.lastFrame 11 = some t3 ∧
          t3.track.m_clips.map (fun it => it.2.calls.drop 5) =
            [[Call.lockForRead, Call.unlock, Call.usleep 100, Call.lockForRead, Call.unlock,
              Call.setPosition { num := 11, den := 100 }, Call.getOutput, Call.wake]])) ∧
    (∃ a, getOutput simOps 1 60 nearTrack 0 50 = some a ∧
      a.track.m_clips.map (fun it => it.2.calls) =
        [[Call.lockForRead, Call.unlock, Call.setPosition { num := 50, den := 100 },
          Call.getOutput, Call.wake]] ∧
      ∃ b, getOutput simOps 1 60 twinTrack a.lastFrame 50 = some b ∧
        b.track.m_clips.map (fun it => it.2.calls) =
          [[Call.lockForRead, Call.unlock, Call.getOutput, Call.wake]]) := by
  refine ⟨⟨_, rfl, rfl, ⟨_, rfl, rfl⟩, ⟨_, rfl, rfl, _, rfl, rfl⟩⟩, ⟨_, rfl, rfl, _, rfl, rfl⟩⟩

end Returned

/-! ## The calls the helpers make, state by state -/

section Calls

variable {σ : Type}

open TrackWorkflow

/-- The wait for the end of a rendering, when it returns, has slept some
number of times, the clip rendering before each sleep and no longer
rendering after the last. -/
theorem waitWhileRendering_trace (ops : ClipOps σ) (fuel : Nat) (cw w : ClipWorkflow σ)
    (h : waitWhileRendering ops fuel cw = some w) :
    ∃ n, n ≤ fuel ∧ w.calls = cw.calls ++ List.replicate n (Call.usleep 100) ∧
      w.impl = (ops.usleep 100)^[n] cw.impl ∧ w.clipLength = cw.clipLength ∧
      ops.getState ((ops.usleep 100)^[n] cw.impl) ≠ State.Rendering ∧
      ∀ k, k < n → ops.getState ((ops.usleep 100)^[k] cw.impl) = State.Rendering := by
  induction fuel generalizing cw with
  | zero =>
    by_cases hr : ops.getState cw.impl = State.Rendering
    · simp [waitWhileRendering, ClipWorkflow.isRendering, ClipWorkflow.getState, hr] at h
    · simp only [waitWhileRendering, ClipWorkflow.isRendering, ClipWorkflow.getState, hr,
        decide_False, Bool.false_eq_true, if_false, Option.some.injEq] at h
      subst h
      exact ⟨0, le_refl _, by simp, rfl, rfl, hr, fun k hk => absurd hk (Nat.not_lt_zero k)⟩
  | succ m ih =>
    by_cases hr : ops.getState cw.impl = State.Rendering
    · simp only [waitWhileRendering, ClipWorkflow.isRendering, ClipWorkflow.getState, hr,
        decide_True, if_true] at h
      obtain ⟨n, hn, hc, hi, hl, hs, hk⟩ := ih (cw.usleep ops 100) h
      refine ⟨n + 1, by omega, ?_, ?_, hl, ?_, ?_⟩
      · rw [hc]
        simp [ClipWorkflow.usleep, List.replicate_succ]
      · rw [hi]
        simp [ClipWorkflow.usleep, Function.iterate_succ_apply]
      · simpa [ClipWorkflow.usleep, Function.iterate_succ_apply] using hs
      · intro k hklt
        cases k with
        | zero => simpa using hr
        | succ j =>
          have := hk j (by omega)
          simpa [ClipWorkflow.usleep, Function.iterate_succ_apply] using this
    · simp only [waitWhileRendering, ClipWorkflow.isRendering, ClipWorkflow.getState, hr,
        decide_False, Bool.false_eq_true, if_false, Option.some.injEq] at h
      subst h
      exact ⟨0, Nat.zero_le _, by simp, rfl, rfl, hr, fun k hk => absurd hk (Nat.not_lt_zero k)⟩

/-- The wait for readiness, when it returns, has slept some number of
times, the clip not ready before each sleep and ready after the last. -/
theorem waitUntilReady_trace (ops : ClipOps σ) (fuel : Nat) (cw w : ClipWorkflow σ)
    (h : waitUntilReady ops fuel cw = some w) :
    ∃ n, n ≤ fuel ∧ w.calls = cw.calls ++ List.replicate n (Call.usleep 20) ∧
      w.impl = (ops.usleep 20)^[n] cw.impl ∧ w.clipLength = cw.clipLength ∧
      ops.getState ((ops.usleep 20)^[n] cw.impl) = State.Ready ∧
      ∀ k, k < n → ops.getState ((ops.usleep 20)^[k] cw.impl) ≠ State.Ready := by
  induction fuel generalizing cw with
  | zero =>
    by_cases hr : ops.getState cw.impl = State.Ready
    · simp only [waitUntilReady, ClipWorkflow.isReady, ClipWorkflow.getState, hr,
        decide_True, Bool.true_eq_false, if_false, Option.some.injEq] at h
      subst h
      exact ⟨0, le_refl _, by simp, rfl, rfl, hr, fun k hk => absurd hk (Nat.not_lt_zero k)⟩
    · simp [waitUntilReady, ClipWorkflow.isReady, ClipWorkflow.getState, hr] at h
  | succ m ih =>
    by_cases hr : ops.getState cw.impl = State.Ready
    · simp only [waitUntilReady, ClipWorkflow.isReady, ClipWorkflow.getState, hr,
        decide_True, Bool.true_eq_false, if_false, Option.some.injEq] at h
      subst h
      exact ⟨0, Nat.zero_le _, by simp, rfl, rfl, hr, fun k hk => absurd hk (Nat.not_lt_zero k)⟩
    · simp only [waitUntilReady, ClipWorkflow.isReady, ClipWorkflow.getState, hr,
        decide_False, if_true] at h
      obtain ⟨n, hn, hc, hi, hl, hs, hk⟩ := ih (cw.usleep ops 20) h
      refine ⟨n + 1, by omega, ?_, ?_, hl, ?_, ?_⟩
      · rw [hc]
        simp [ClipWorkflow.usleep, List.replicate_succ]
      · rw [hi]
        simp [ClipWorkflow.usleep, Function.iterate_succ_apply]
      · simpa [ClipWorkflow.usleep, Function.iterate_succ_apply] using hs
      · intro k hklt
        cases k with
        | zero => simpa using hr
        | succ j =>
          have := hk j (by omega)
          simpa [ClipWorkflow.usleep, Function.iterate_succ_apply] using this

/-- `renderClip`, when its poll ends within the fuel: it locks; if the clip
is `Rendering` it unlocks, sleeps until the rendering is over and locks
again; then it does with the clip it finds what `renderObserved` says. -/
theorem renderClip_observed (ops : ClipOps σ) (fuel : Nat) (cw : ClipWorkflow σ)
    (currentFrame start : Int) (need : Bool) (hs : Settles ops fuel cw) :
    ∃ w n,
      renderClip ops fuel cw currentFrame start need =
        some (renderObserved ops w currentFrame start need) ∧
      w.calls = cw.calls ++
        ((if cw.getState ops = State.Rendering then
            [Call.lockForRead, Call.unlock] ++ List.replicate n (Call.usleep 100)
          else []) ++ [Call.lockForRead]) ∧
      w.clipLength = cw.clipLength ∧
      w.impl = (if cw.getState ops = State.Rendering then (ops.usleep 100)^[n] cw.impl
        else cw.impl) ∧
      w.getState ops ≠ State.Rendering ∧
      (cw.getState ops = State.Rendering →
        ∀ k, k < n → ops.getState ((ops.usleep 100)^[k] cw.impl) = State.Rendering) := by
  by_cases h : cw.getState ops = State.Rendering
  · have hw := hs.1 h
    rw [← waitWhileRendering_isSome_congr ops fuel cw cw.lockForRead.unlock rfl] at hw
    obtain ⟨w0, hw0⟩ := Option.isSome_iff_exists.mp hw
    obtain ⟨n, -, hc, hi, hl, hst, hk⟩ := waitWhileRendering_trace ops fuel _ _ hw0
    refine ⟨w0.lockForRead, n, ?_, ?_, hl, ?_, ?_, fun _ => hk⟩
    · unfold renderClip
      simp only [getState_lockForRead, h, if_true, hw0, Option.map_some']
      unfold renderObserved
      simp only [getState_lockForRead]
      split_ifs <;> rfl
    · simp [h, ClipWorkflow.lockForRead, hc, ClipWorkflow.unlock]
    · simp only [h, if_true]
      exact hi
    · show ops.getState w0.impl ≠ State.Rendering
      rw [hi]
      exact hst
  · refine ⟨cw.lockForRead, 0, ?_, ?_, rfl, ?_, h, fun hr => absurd hr h⟩
    · unfold renderClip
      simp only [getState_lockForRead, h, if_false]
      unfold renderObserved
      simp only [getState_lockForRead]
      split_ifs <;> rfl
    · simp [h, ClipWorkflow.lockForRead]
    · simp [h, ClipWorkflow.lockForRead]

/-- C17: `renderClip` (its poll ending within the fuel) acts by the state it
observes under the lock, after waiting out a rendering. `Sleeping`: it
unlocks, calls `setPosition` when repositioning is asked, then `getOutput`,
then `wake`, and returns the frame `getOutput` gave. `Stopped`: it unlocks,
calls `initialize`, then `startRender`, then `setPosition` with the
operands `currentFrame - start` and `length` exactly when
`start != currentFrame`, and returns none. `Ready` or `Initializing`: it
unlocks, calls `startRender` and returns none. `EndReached`: it unlocks,
makes no call and returns none. A frame is returned only when the state
observed is `Sleeping`. -/
theorem renderClip_by_observed_state (ops : ClipOps σ) (fuel : Nat) (cw : ClipWorkflow σ)
    (currentFrame start : Int) (need : Bool) (hs : Settles ops fuel cw) :
    ∃ (w : ClipWorkflow σ) (n : Nat) (r : Option Frame × ClipWorkflow σ),
      renderClip ops fuel cw currentFrame start need = some r ∧
      w.calls = cw.calls ++
        ((if cw.getState ops = State.Rendering then
            [Call.lockForRead, Call.unlock] ++ List.replicate n (Call.usleep 100)
          else []) ++ [Call.lockForRead]) ∧
      w.impl = (if cw.getState ops = State.Rendering then (ops.usleep 100)^[n] cw.impl
        else cw.impl) ∧
      w.getState ops ≠ State.Rendering ∧
      (w.getState ops = State.Sleeping →
        r.1 = (ops.getOutput
          (if need = true then
            ops.setPosition { num := currentFrame - start, den := cw.clipLength } w.impl
          else w.impl)).1 ∧
        r.2.calls = w.calls ++ [Call.unlock] ++
          (if need = true then
            [Call.setPosition { num := currentFrame - start, den := cw.clipLength }]
          else []) ++ [Call.getOutput, Call.wake]) ∧
      (w.getState ops = State.Stopped →
        r.1 = none ∧
        r.2.calls = w.calls ++ [Call.unlock, Call.initializeClip, Call.startRender] ++
          (if start ≠ currentFrame then
            [Call.setPosition { num := currentFrame - start, den := cw.clipLength }]
          else [])) ∧
      ((w.getState ops = State.Ready ∨ w.getState ops = State.Initializing) →
        r.1 = none ∧ r.2.calls = w.calls ++ [Call.unlock, Call.startRender]) ∧
      (w.getState ops = State.EndReached →
        r.1 = none ∧ r.2.calls = w.calls ++ [Call.unlock] ∧ r.2.impl = w.impl) ∧
      (r.1 ≠ none → w.getState ops = State.Sleeping) := by
  obtain ⟨w, n, hr, hc, hl, hi, hnr, -⟩ :=
    renderClip_observed ops fuel cw currentFrame start need hs
  refine ⟨w, n, renderObserved ops w currentFrame start need, hr, hc, hi, hnr, ?_, ?_, ?_, ?_, ?_⟩
  · intro hst
    simp only [ClipWorkflow.getState] at hst
    cases need <;>
      simp [renderObserved, ClipWorkflow.getState, hst, ClipWorkflow.unlock,
        ClipWorkflow.setPosition, ClipWorkflow.getOutput, ClipWorkflow.wake, hl]
  · intro hst
    simp only [ClipWorkflow.getState] at hst
    by_cases hne : start = currentFrame <;>
      simp [renderObserved, ClipWorkflow.getState, hst, ClipWorkflow.unlock,
        ClipWorkflow.setPosition, ClipWorkflow.initializeClip, ClipWorkflow.startRender, hl, hne]
  · intro hst
    simp only [ClipWorkflow.getState] at hst
    rcases hst with hst | hst <;>
      simp [renderObserved, ClipWorkflow.getState, hst, ClipWorkflow.unlock,
        ClipWorkflow.startRender]
  · intro hst
    simp only [ClipWorkflow.getState] at hst
    simp [renderObserved, ClipWorkflow.getState, hst, ClipWorkflow.unlock]
  · intro hret
    by_contra hst
    apply hret
    simp only [renderObserved, if_neg hst]
    split_ifs <;> rfl

/-- Witness for C17: a `Stopped` reference clip that starts at frame 10,
rendered at frame 20: `initialize`, `startRender`, then a seek to the
position with operands 10 and 100, and no frame. -/
theorem renderClip_by_observed_state_witness :
    ∃ r, renderClip simOps 1 (simClip State.Stopped 100) 20 10 false = some r ∧
      r.1 = none ∧
      r.2.calls = [Call.lockForRead, Call.unlock, Call.initializeClip, Call.startRender,
        Call.setPosition { num := 10, den := 100 }] := by
  obtain ⟨w, n, r, hr, hc, hi, -, -, hst, -, -, -⟩ :=
    renderClip_by_observed_state simOps 1 (simClip State.Stopped 100) 20 10 false
      (by decide)
  have hw : w.getState simOps = State.Stopped := by
    show simOps.getState w.impl = State.Stopped
    rw [hi]
    rfl
  obtain ⟨h1, h2⟩ := hst hw
  refine ⟨r, hr, h1, ?_⟩
  rw [h2, hc]
  rfl

/-- The calls `stopClipWorkflow` makes, by the state it finds, when its poll
ends within the fuel. -/
theorem stopClipWorkflow_trace (ops : ClipOps σ) (fuel : Nat) (cw : ClipWorkflow σ)
    (hs : Settles ops fuel cw) :
    ∃ w n, stopClipWorkflow ops fuel cw = some w ∧
      w.calls = cw.calls ++ ([Call.lockForRead, Call.unlock] ++
        (if cw.getState ops = State.Stopped then []
        else if cw.getState ops = State.Sleeping ∨ cw.getState ops = State.Ready ∨
            cw.getState ops = State.EndReached then
          [Call.queryStateChange State.Stopping, Call.wake, Call.stop]
        else if cw.getState ops = State.Rendering then
          List.replicate n (Call.usleep 100) ++
            [Call.queryStateChange State.Stopping, Call.wake, Call.stop]
        else if cw.getState ops = State.Initializing then
          List.replicate n (Call.usleep 20) ++ [Call.stop]
        else [])) ∧
      (cw.getState ops = State.Rendering →
        ops.getState ((ops.usleep 100)^[n] cw.impl) ≠ State.Rendering ∧
        ∀ k, k < n → ops.getState ((ops.usleep 100)^[k] cw.impl) = State.Rendering) ∧
      (cw.getState ops = State.Initializing →
        ops.getState ((ops.usleep 20)^[n] cw.impl) = State.Ready ∧
        ∀ k, k < n → ops.getState ((ops.usleep 20)^[k] cw.impl) ≠ State.Ready) := by
  by_cases h1 : cw.getState ops = State.Stopped
  · refine ⟨cw.lockForRead.unlock, 0, by simp [stopClipWorkflow, h1], ?_, ?_, ?_⟩
    · simp [h1, ClipWorkflow.lockForRead, ClipWorkflow.unlock]
    · intro h; rw [h1] at h; cases h
    · intro h; rw [h1] at h; cases h
  by_cases h2 : cw.getState ops = State.Sleeping ∨ cw.getState ops = State.Ready ∨
      cw.getState ops = State.EndReached
  · refine ⟨(((cw.lockForRead.unlock).queryStateChange ops State.Stopping).wake ops).stop ops,
      0, by simp [stopClipWorkflow, h1, h2], ?_, ?_, ?_⟩
    · simp [h1, h2, ClipWorkflow.lockForRead, ClipWorkflow.unlock,
        ClipWorkflow.queryStateChange, ClipWorkflow.wake, ClipWorkflow.stop]
    · intro h; exfalso; rw [h] at h2; revert h2; decide
    · intro h; exfalso; rw [h] at h2; revert h2; decide
  by_cases h3 : cw.getState ops = State.Rendering
  · have hw := hs.1 h3
    rw [← waitWhileRendering_isSome_congr ops fuel cw cw.lockForRead.unlock rfl] at hw
    obtain ⟨w0, hw0⟩ := Option.isSome_iff_exists.mp hw
    obtain ⟨n, -, hc, -, -, hst, hk⟩ := waitWhileRendering_trace ops fuel _ _ hw0
    refine ⟨((w0.queryStateChange ops State.Stopping).wake ops).stop ops, n,
      by simp [stopClipWorkflow, h1, h2, h3, hw0], ?_, fun _ => ⟨hst, hk⟩, ?_⟩
    · simp [h1, h2, h3, hc, ClipWorkflow.lockForRead, ClipWorkflow.unlock,
        ClipWorkflow.queryStateChange, ClipWorkflow.wake, ClipWorkflow.stop]
    · intro h; rw [h3] at h; cases h
  by_cases h4 : cw.getState ops = State.Initializing
  · have hw := hs.2 h4
    rw [← waitUntilReady_isSome_congr ops fuel cw cw.lockForRead.unlock rfl] at hw
    obtain ⟨w0, hw0⟩ := Option.isSome_iff_exists.mp hw
    obtain ⟨n, -, hc, -, -, hst, hk⟩ := waitUntilReady_trace ops fuel _ _ hw0
    refine ⟨w0.stop ops, n, by simp [stopClipWorkflow, h1, h2, h3, h4, hw0], ?_,
      fun h => absurd h h3, fun _ => ⟨hst, hk⟩⟩
    simp [h1, h2, h3, h4, hc, ClipWorkflow.lockForRead, ClipWorkflow.unlock,
      ClipWorkflow.stop]
  · refine ⟨cw.lockForRead.unlock, 0, by simp [stopClipWorkflow, h1, h2, h3, h4], ?_,
      fun h => absurd h h3, fun h => absurd h h4⟩
    simp [h1, h2, h3, h4, ClipWorkflow.lockForRead, ClipWorkflow.unlock]

/-- C18: the calls `stopClipWorkflow` (its poll ending within the fuel) makes
on the clip after taking and releasing the state lock, by the state it
finds. `Sleeping`, `Ready` or `EndReached`: `queryStateChange( Stopping )`,
`wake`, `stop`. `Rendering`: sleeps of 100 while `isRendering()` is true,
as many as it takes for it to be false, then `queryStateChange( Stopping )`,
`wake`, `stop`. `Initializing`: sleeps of 20 while `isReady()` is false, as
many as it takes for it to be true, then `stop` alone. -/
theorem stopClipWorkflow_calls_by_state (ops : ClipOps σ) (fuel : Nat) (cw : ClipWorkflow σ)
    (hs : Settles ops fuel cw) :
    ((cw.getState ops = State.Sleeping ∨ cw.getState ops = State.Ready ∨
        cw.getState ops = State.EndReached) →
      ∃ w, stopClipWorkflow ops fuel cw = some w ∧
        w.calls = cw.calls ++ [Call.lockForRead, Call.unlock,
          Call.queryStateChange State.Stopping, Call.wake, Call.stop]) ∧
    (cw.getState ops = State.Rendering →
      ∃ w n, stopClipWorkflow ops fuel cw = some w ∧
        w.calls = cw.calls ++ [Call.lockForRead, Call.unlock] ++
          List.replicate n (Call.usleep 100) ++
          [Call.queryStateChange State.Stopping, Call.wake, Call.stop] ∧
        (∀ k, k < n → (ClipWorkflow.isRendering ops
          { cw with impl := (ops.usleep 100)^[k] cw.impl }) = true) ∧
        (ClipWorkflow.isRendering ops
          { cw with impl := (ops.usleep 100)^[n] cw.impl }) = false) ∧
    (cw.getState ops = State.Initializing →
      ∃ w n, stopClipWorkflow ops fuel cw = some w ∧
        w.calls = cw.calls ++ [Call.lockForRead, Call.unlock] ++
          List.replicate n (Call.usleep 20) ++ [Call.stop] ∧
        (∀ k, k < n → (ClipWorkflow.isReady ops
          { cw with impl := (ops.usleep 20)^[k] cw.impl }) = false) ∧
        (ClipWorkflow.isReady ops
          { cw with impl := (ops.usleep 20)^[n] cw.impl }) = true) := by
  obtain ⟨w, n, hw, hc, hr, hi⟩ := stopClipWorkflow_trace ops fuel cw hs
  refine ⟨fun h => ⟨w, hw, ?_⟩, fun h => ⟨w, n, hw, ?_, ?_, ?_⟩,
    fun h => ⟨w, n, hw, ?_, ?_, ?_⟩⟩
  · have h1 : cw.getState ops ≠ State.Stopped := by
      rcases h with h | h | h <;> rw [h] <;> decide
    rw [hc, if_neg h1, if_pos h]
    simp
  · rw [hc, h]
    simp
  · intro k hk
    simp [ClipWorkflow.isRendering, ClipWorkflow.getState, (hr h).2 k hk]
  · simp [ClipWorkflow.isRendering, ClipWorkflow.getState, (hr h).1]
  · rw [hc, h]
    simp
  · intro k hk
    simp [ClipWorkflow.isReady, ClipWorkflow.getState, (hi h).2 k hk]
  · simp [ClipWorkflow.isReady, ClipWorkflow.getState, (hi h).1]

/-- Witness for C18: a reference clip caught `Initializing`, ready after one
sleep: lock, unlock, one sleep of 20, `stop`. -/
theorem stopClipWorkflow_calls_by_state_witness :
    ∃ w, stopClipWorkflow simOps 3 (simClip State.Initializing 10) = some w ∧
      w.calls = [Call.lockForRead, Call.unlock, Call.usleep 20, Call.stop] := by
  obtain ⟨w, n, hw, -, -, -⟩ :=
    (stopClipWorkflow_calls_by_state simOps 3 (simClip State.Initializing 10)
      (by decide)).2.2 rfl
  refine ⟨w, hw, ?_⟩
  have h2 : stopClipWorkflow simOps 3 (simClip State.Initializing 10) = some w := hw
  rw [show stopClipWorkflow simOps 3 (simClip State.Initializing 10) = some _ from rfl] at h2
  cases h2
  rfl

/-! ### The state lock -/

/-- Reading two traces in a row. -/
theorem lockScan_append (held : Bool) (a b : List Call) :
    lockScan held (a ++ b) = (lockScan held a).bind (fun h => lockScan h b) := by
  induction a generalizing held with
  | nil => simp [lockScan]
  | cons c rest ih =>
    cases c <;> cases held <;> simp [lockScan, ih]

/-- A trace without lock calls, read with the lock free, leaves it free. -/
theorem lockScan_free (l : List Call)
    (h : ∀ c ∈ l, c ≠ Call.lockForRead ∧ c ≠ Call.unlock) :
    lockScan false l = some false := by
  induction l with
  | nil => rfl
  | cons c rest ih =>
    have hc := h c (List.mem_cons_self _ _)
    have hrest := ih (fun x hx => h x (List.mem_cons_of_mem _ hx))
    cases c <;> simp_all [lockScan]

/-- A lock, an unlock and then calls that are not lock calls: read with the
lock free, the trace leaves it free. -/
theorem lockScan_locked_then_free (l : List Call)
    (h : ∀ c ∈ l, c ≠ Call.lockForRead ∧ c ≠ Call.unlock) :
    lockScan false (Call.lockForRead :: Call.unlock :: l) = some false := by
  simp [lockScan, lockScan_free l h]

/-- Below its wait `renderClip` unlocks first and makes no lock call after
that. -/
theorem renderObserved_calls (ops : ClipOps σ) (w : ClipWorkflow σ)
    (currentFrame start : Int) (need : Bool) :
    ∃ rest, (renderObserved ops w currentFrame start need).2.calls =
        w.calls ++ Call.unlock :: rest ∧
      ∀ c ∈ rest, c ≠ Call.lockForRead ∧ c ≠ Call.unlock := by
  unfold renderObserved
  split_ifs
  · exact ⟨[Call.setPosition { num := currentFrame - start, den := w.clipLength },
      Call.getOutput, Call.wake],
      by simp [ClipWorkflow.unlock, ClipWorkflow.setPosition, ClipWorkflow.getOutput,
        ClipWorkflow.wake], by simp⟩
  · exact ⟨[Call.getOutput, Call.wake],
      by simp [ClipWorkflow.unlock, ClipWorkflow.getOutput, ClipWorkflow.wake], by simp⟩
  · exact ⟨[Call.initializeClip, Call.startRender,
        Call.setPosition { num := currentFrame - start, den := w.clipLength }],
      by simp [ClipWorkflow.unlock, ClipWorkflow.setPosition, ClipWorkflow.initializeClip,
        ClipWorkflow.startRender], by simp⟩
  · exact ⟨[Call.initializeClip, Call.startRender],
      by simp [ClipWorkflow.unlock, ClipWorkflow.initializeClip, ClipWorkflow.startRender],
      by simp⟩
  · exact ⟨[Call.startRender], by simp [ClipWorkflow.unlock, ClipWorkflow.startRender],
      by simp⟩
  · exact ⟨[], by simp [ClipWorkflow.unlock], by simp⟩
  · exact ⟨[], by simp [ClipWorkflow.unlock], by simp⟩

/-- C19: the calls `renderClip`, `preloadClip` and `stopClipWorkflow` make on
a clip (the polls ending within the fuel, so that they return) keep the
discipline of the state lock that `lockScan` reads: the lock, only ever
taken by `lockForRead`, is taken while free and released while held, each
taking matched by one release; no sleep of a polling loop and no
`initialize`, `startRender`, `setPosition`, `getOutput`, `wake`,
`queryStateChange` or `stop` is made while it is held; and it is free on
return. -/
theorem helpers_keep_lock_discipline (ops : ClipOps σ) (fuel : Nat) (cw : ClipWorkflow σ)
    (currentFrame start : Int) (need : Bool) (hs : Settles ops fuel cw) :
    (∃ r made, renderClip ops fuel cw currentFrame start need = some r ∧
      r.2.calls = cw.calls ++ made ∧ lockScan false made = some false) ∧
    (∃ made, (preloadClip ops cw).calls = cw.calls ++ made ∧
      lockScan false made = some false) ∧
    (∃ w made, stopClipWorkflow ops fuel cw = some w ∧
      w.calls = cw.calls ++ made ∧ lockScan false made = some false) := by
  refine ⟨?_, ?_, ?_⟩
  · obtain ⟨w, n, hr, hc, -, -, -, -⟩ :=
      renderClip_observed ops fuel cw currentFrame start need hs
    obtain ⟨rest, hrest, hplain⟩ := renderObserved_calls ops w currentFrame start need
    refine ⟨_, (if cw.getState ops = State.Rendering then
          [Call.lockForRead, Call.unlock] ++ List.replicate n (Call.usleep 100)
        else []) ++ (Call.lockForRead :: Call.unlock :: rest), hr, ?_, ?_⟩
    · rw [hrest, hc]
      simp
    · rw [lockScan_append]
      have hwait : lockScan false (if cw.getState ops = State.Rendering then
            [Call.lockForRead, Call.unlock] ++ List.replicate n (Call.usleep 100)
          else []) = some false := by
        split_ifs
        · rw [List.cons_append, List.cons_append, List.nil_append]
          apply lockScan_locked_then_free
          intro c hc
          rw [List.mem_replicate] at hc
          rw [hc.2]
          simp
        · rfl
      rw [hwait]
      exact lockScan_locked_then_free rest hplain
  · by_cases h : cw.getState ops = State.Stopped
    · refine ⟨[Call.lockForRead, Call.unlock, Call.initializeClip], ?_, by simp [lockScan]⟩
      simp only [ClipWorkflow.getState] at h
      simp [preloadClip, ClipWorkflow.getState, h, ClipWorkflow.unlock,
        ClipWorkflow.lockForRead, ClipWorkflow.initializeClip]
    · refine ⟨[Call.lockForRead, Call.unlock], ?_, by simp [lockScan]⟩
      simp only [ClipWorkflow.getState] at h
      simp [preloadClip, ClipWorkflow.getState, h, ClipWorkflow.unlock,
        ClipWorkflow.lockForRead]
  · obtain ⟨w, n, hw, hc, -, -⟩ := stopClipWorkflow_trace ops fuel cw hs
    refine ⟨w, _, hw, hc, ?_⟩
    rw [List.cons_append, List.cons_append, List.nil_append]
    apply lockScan_locked_then_free
    intro c hc
    split_ifs at hc
    · cases hc
    · simp only [List.mem_cons, List.mem_singleton, List.not_mem_nil, or_false] at hc
      rcases hc with rfl | rfl | rfl <;> simp
    · simp only [List.mem_append, List.mem_replicate, List.mem_cons, List.mem_singleton,
        List.not_mem_nil, or_false] at hc
      rcases hc with ⟨-, rfl⟩ | rfl | rfl | rfl <;> simp
    · simp only [List.mem_append, List.mem_replicate, List.mem_cons, List.mem_singleton,
        List.not_mem_nil, or_false] at hc
      rcases hc with ⟨-, rfl⟩ | rfl <;> simp
    · cases hc

/-- Witness for C19: a reference clip caught `Rendering` at frame 20: the
calls of `renderClip` (lock, unlock, one sleep, lock, unlock, `getOutput`,
`wake`) keep the discipline; a trace that sleeps with the lock held does
not. -/
theorem helpers_keep_lock_discipline_witness :
    (∃ r, renderClip simOps 2 (simClip State.Rendering 100) 20 0 false = some r ∧
      r.2.calls = [Call.lockForRead, Call.unlock, Call.usleep 100, Call.lockForRead,
        Call.unlock, Call.getOutput, Call.wake] ∧
      lockScan false r.2.calls = some false) ∧
    lockScan false [Call.lockForRead, Call.usleep 100, Call.unlock] = none := by
  obtain ⟨r, made, hr, hc, hscan⟩ :=
    (helpers_keep_lock_discipline simOps 2 (simClip State.Rendering 100) 20 0 false
      (by decide)).1
  have hc2 : r.2.calls = made := by simpa [simClip] using hc
  refine ⟨⟨r, hr, ?_, by rw [hc2]; exact hscan⟩, rfl⟩
  have h2 : renderClip simOps 2 (simClip State.Rendering 100) 20 0 false = some r := hr
  rw [show renderClip simOps 2 (simClip State.Rendering 100) 20 0 false = some _ from rfl] at h2
  cases h2
  rfl

end Calls

/-! ## The remembered frame, the end of the track, seek fractions -/

section Remembered

variable {σ : Type}

open TrackWorkflow

/-- C21: a tick of `getOutput` (the polls ending within the fuel) leaves
`currentFrame` in the static `lastFrame` when some clip passes the test for
rendering, and leaves `lastFrame` as it found it when none does, so
`lastFrame` changes only on a tick with such a clip. Hence, after a tick
at `currentFrame` on which no clip passed the test, the tick at
`currentFrame + 1` treats every clip with `needRepositioning` computed
against the `lastFrame` from before the first tick, the last frame at which
a clip was rendered, and not against `currentFrame`. -/
theorem getOutput_remembers_last_active_frame (ops : ClipOps σ) (fuel : Nat) (nb : Int)
    (tw : TrackWorkflow σ) (lastFrame currentFrame : Int)
    (hs : ∀ it ∈ tw.m_clips, Settles ops fuel it.2) :
    ∃ out, getOutput ops fuel nb tw lastFrame currentFrame = some out ∧
      ((∃ it ∈ tw.m_clips, isActive currentFrame it = true) → out.lastFrame = currentFrame) ∧
      (out.lastFrame ≠ lastFrame → ∃ it ∈ tw.m_clips, isActive currentFrame it = true) ∧
      ((∀ it ∈ tw.m_clips, isActive currentFrame it = false) →
        out.lastFrame = lastFrame ∧
        ((∀ it ∈ out.track.m_clips, Settles ops fuel it.2) →
          ∃ out2, getOutput ops fuel nb out.track out.lastFrame (currentFrame + 1) = some out2 ∧
            List.Forall₂
              (Visited ops fuel nb (currentFrame + 1)
                (decide (|currentFrame + 1 - lastFrame| > 1)))
              out.track.m_clips out2.track.m_clips ∧
            ((∃ it ∈ out.track.m_clips, isActive (currentFrame + 1) it = true) →
              out2.lastFrame = currentFrame + 1))) := by
  obtain ⟨out, hout, -, -, -, hnone, hsome⟩ :=
    getOutput_spec ops fuel nb tw lastFrame currentFrame hs
  have hkeep : (∀ it ∈ tw.m_clips, isActive currentFrame it = false) →
      out.lastFrame = lastFrame := by
    intro hna
    refine (hnone ?_).2
    intro it hit hd
    have := hna it hit
    rw [(isActive_iff_dispatchOf nb currentFrame it).mpr hd] at this
    cases this
  refine ⟨out, hout, ?_, ?_, ?_⟩
  · rintro ⟨it, hit, hact⟩
    exact hsome ⟨it, hit, (isActive_iff_dispatchOf nb currentFrame it).mp hact⟩
  · intro hne
    by_contra hno
    apply hne
    apply hkeep
    intro it hit
    cases hact : isActive currentFrame it with
    | false => rfl
    | true => exact absurd ⟨it, hit, hact⟩ hno
  · intro hna
    have hl := hkeep hna
    refine ⟨hl, fun hs2 => ?_⟩
    obtain ⟨out2, hout2, -, -, hv2, -, hsome2⟩ :=
      getOutput_spec ops fuel nb out.track out.lastFrame (currentFrame + 1) hs2
    rw [hl] at hv2
    refine ⟨out2, hout2, hv2, ?_⟩
    rintro ⟨it, hit, hact⟩
    exact hsome2 ⟨it, hit, (isActive_iff_dispatchOf nb (currentFrame + 1) it).mp hact⟩

/-- Witness for C21: `resumeTrack`, last rendered at frame 100. The tick at
frame 149 finds no clip to render and leaves 100 in `lastFrame`; the tick
at frame 150 then renders the second clip and seeks it (to 0 of 100),
which it would not do against frame 149, and leaves 150 in `lastFrame`. -/
theorem getOutput_remembers_last_active_frame_witness :
    (∀ it ∈ resumeTrack.m_clips, Settles simOps 2 it.2) ∧
    (∀ it ∈ resumeTrack.m_clips, isActive 149 it = false) ∧
    (∃ out, getOutput simOps 2 60 resumeTrack 100 149 = some out ∧ out.lastFrame = 100) ∧
    ∃ out out2, getOutput simOps 2 60 resumeTrack 100 149 = some out ∧
      getOutput simOps 2 60 out.track out.lastFrame 150 = some out2 ∧
      out2.lastFrame = 150 ∧
      out2.track.m_clips.map (fun it => it.2.calls) =
        [[Call.lockForRead, Call.unlock, Call.queryStateChange State.Stopping, Call.wake,
            Call.stop, Call.lockForRead, Call.unlock],
         [Call.lockForRead, Call.unlock, Call.lockForRead, Call.unlock,
            Call.setPosition { num := 0, den := 100 }, Call.getOutput, Call.wake]] := by
  have hs : ∀ it ∈ resumeTrack.m_clips, Settles simOps 2 it.2 := by decide
  have hna : ∀ it ∈ resumeTrack.m_clips, isActive 149 it = false := by decide
  obtain ⟨out, hout, -, -, hgap⟩ :=
    getOutput_remembers_last_active_frame simOps 2 60 resumeTrack 100 149 hs
  exact ⟨hs, hna, ⟨out, hout, (hgap hna).1⟩, _, _, rfl, rfl, rfl, rfl⟩

end Remembered

section PastEnd

variable {σ : Type}

open TrackWorkflow

/-- In a map with ascending keys whose clips do not overlap and have
non-negative lengths, no clip ends after the last one does. -/
theorem end_le_last_end (clips : List (Int × ClipWorkflow σ)) (hk : KeysAscending clips)
    (hno : NonOverlapping clips) (hlen : ∀ it ∈ clips, 0 ≤ it.2.clipLength)
    (last it : Int × ClipWorkflow σ) (hlast : clips.getLast? = some last) (hit : it ∈ clips) :
    it.1 + it.2.clipLength ≤ last.1 + last.2.clipLength := by
  have hl := hlen last (List.mem_of_getLast?_eq_some hlast)
  obtain ⟨ys, rfl⟩ := List.getLast?_eq_some_iff.mp hlast
  rcases List.mem_append.mp hit with h | h
  · have h1 := (List.pairwise_append.mp hk).2.2 it h last (List.mem_singleton_self _)
    have h2 := (List.pairwise_append.mp hno).2.2 it h last (List.mem_singleton_self _)
    omega
  · rw [List.mem_singleton.mp h]

/-- C22: on a track with ascending keys whose clips do not overlap and have
non-negative lengths, at a frame where `checkEnd` is true, no clip passes
the test for rendering or the test for preloading, and `getOutput` (the
polls ending within the fuel) signals the end of the track, returns no
frame, calls `stopClipWorkflow` for every clip and no other helper, and
leaves every clip as `stopClipWorkflow` returned it. -/
theorem getOutput_past_end_stops_every_clip (ops : ClipOps σ) (fuel : Nat) (nb : Int)
    (tw : TrackWorkflow σ) (lastFrame currentFrame : Int)
    (hk : KeysAscending tw.m_clips) (hno : NonOverlapping tw.m_clips)
    (hlen : ∀ it ∈ tw.m_clips, 0 ≤ it.2.clipLength)
    (hs : ∀ it ∈ tw.m_clips, Settles ops fuel it.2)
    (hend : checkEnd tw currentFrame = true) :
    (∀ it ∈ tw.m_clips,
      ¬ (it.1 ≤ currentFrame ∧ currentFrame ≤ it.1 + it.2.clipLength) ∧
      ¬ (it.1 > currentFrame ∧ it.1 - currentFrame < nb)) ∧
    ∃ out, getOutput ops fuel nb tw lastFrame currentFrame = some out ∧
      out.ret = none ∧ out.trackEndReached = true ∧
      out.dispatched = List.replicate tw.m_clips.length Dispatch.stopClipWorkflow ∧
      Dispatch.renderClip ∉ out.dispatched ∧ Dispatch.preloadClip ∉ out.dispatched ∧
      List.Forall₂
        (fun (it v : Int × ClipWorkflow σ) =>
          v.1 = it.1 ∧ stopClipWorkflow ops fuel it.2 = some v.2)
        tw.m_clips out.track.m_clips := by
  have hpast : ∀ it ∈ tw.m_clips, it.1 + it.2.clipLength < currentFrame := by
    intro it hit
    unfold checkEnd at hend
    cases hl : tw.m_clips.getLast? with
    | none =>
      rw [List.getLast?_eq_none_iff.mp hl] at hit
      cases hit
    | some last =>
      rw [hl] at hend
      have h1 := end_le_last_end tw.m_clips hk hno hlen last it hl hit
      have h2 : last.2.clipLength + last.1 < currentFrame := of_decide_eq_true hend
      omega
  have hcls : ∀ it ∈ tw.m_clips,
      ¬ (it.1 ≤ currentFrame ∧ currentFrame ≤ it.1 + it.2.clipLength) ∧
      ¬ (it.1 > currentFrame ∧ it.1 - currentFrame < nb) := by
    intro it hit
    have h1 := hpast it hit
    have h2 := hlen it hit
    constructor <;> omega
  have hstop : ∀ it ∈ tw.m_clips,
      dispatchOf nb currentFrame it = Dispatch.stopClipWorkflow := by
    intro it hit
    refine (dispatchOf_iff nb currentFrame it).2.2.mpr ⟨(hcls it hit).1, fun h => ?_⟩
    exact (hcls it hit).2 ⟨by omega, h.2⟩
  have hnot : ∀ it ∈ tw.m_clips, dispatchOf nb currentFrame it ≠ Dispatch.renderClip := by
    intro it hit hd
    rw [hstop it hit] at hd
    cases hd
  obtain ⟨out, hout, hsig, hd, hv, hnone, -⟩ :=
    getOutput_spec ops fuel nb tw lastFrame currentFrame hs
  have hdis : out.dispatched = List.replicate tw.m_clips.length Dispatch.stopClipWorkflow := by
    rw [hd]
    apply List.eq_replicate_iff.mpr
    refine ⟨List.length_map _ _, ?_⟩
    intro d hmem
    obtain ⟨it, hit, rfl⟩ := List.mem_map.mp hmem
    exact hstop it hit
  refine ⟨hcls, out, hout, (hnone hnot).1, hsig.trans hend, hdis, ?_, ?_, ?_⟩
  · rw [hdis]
    intro hmem
    cases (List.mem_replicate.mp hmem).2
  · rw [hdis]
    intro hmem
    cases (List.mem_replicate.mp hmem).2
  · have hv2 : List.Forall₂
        (fun it v => it ∈ tw.m_clips ∧
          Visited ops fuel nb currentFrame (decide (|currentFrame - lastFrame| > 1)) it v)
        tw.m_clips out.track.m_clips := by
      rw [List.forall₂_and_left]
      exact ⟨fun _ h => h, hv⟩
    refine hv2.imp (fun it v h => ?_)
    obtain ⟨hit, hkey, -, hm⟩ := h
    rw [hstop it hit] at hm
    exact ⟨hkey, hm⟩

/-- Witness for C22: `gapTrack` at frame 251, past the end of its last clip
(250): both clips go to `stopClipWorkflow` and no frame is returned. -/
theorem getOutput_past_end_stops_every_clip_witness :
    KeysAscending gapTrack.m_clips ∧ NonOverlapping gapTrack.m_clips ∧
    (∀ it ∈ gapTrack.m_clips, 0 ≤ it.2.clipLength) ∧
    (∀ it ∈ gapTrack.m_clips, Settles simOps 2 it.2) ∧
    checkEnd gapTrack 251 = true ∧
    ∃ out, getOutput simOps 2 60 gapTrack 250 251 = some out ∧ out.ret = none ∧
      out.dispatched = [Dispatch.stopClipWorkflow, Dispatch.stopClipWorkflow] := by
  obtain ⟨-, out, hout, hret, -, hdis, -⟩ :=
    getOutput_past_end_stops_every_clip simOps 2 60 gapTrack 250 251
      (by decide) (by decide) (by decide) (by decide) (by decide)
  exact ⟨by decide, by decide, by decide, by decide, by decide, out, hout, hret, hdis⟩

end PastEnd

section SeekFraction

variable {σ : Type}

open TrackWorkflow

/-- Below its wait `renderClip` passes to `setPosition` nothing but the
operands `currentFrame - start` and the length of the clip. -/
theorem renderObserved_setPosition (ops : ClipOps σ) (w : ClipWorkflow σ)
    (currentFrame start : Int) (need : Bool) :
    ∃ rest, (renderObserved ops w currentFrame start need).2.calls = w.calls ++ rest ∧
      ∀ pos, Call.setPosition pos ∈ rest →
        pos = { num := currentFrame - start, den := w.clipLength } := by
  unfold renderObserved
  split_ifs
  · exact ⟨[Call.unlock, Call.setPosition { num := currentFrame - start, den := w.clipLength },
      Call.getOutput, Call.wake],
      by simp [ClipWorkflow.unlock, ClipWorkflow.setPosition, ClipWorkflow.getOutput,
        ClipWorkflow.wake], by simp⟩
  · exact ⟨[Call.unlock, Call.getOutput, Call.wake],
      by simp [ClipWorkflow.unlock, ClipWorkflow.getOutput, ClipWorkflow.wake], by simp⟩
  · exact ⟨[Call.unlock, Call.initializeClip, Call.startRender,
        Call.setPosition { num := currentFrame - start, den := w.clipLength }],
      by simp [ClipWorkflow.unlock, ClipWorkflow.setPosition, ClipWorkflow.initializeClip,
        ClipWorkflow.startRender], by simp⟩
  · exact ⟨[Call.unlock, Call.initializeClip, Call.startRender],
      by simp [ClipWorkflow.unlock, ClipWorkflow.initializeClip, ClipWorkflow.startRender],
      by simp⟩
  · exact ⟨[Call.unlock, Call.startRender],
      by simp [ClipWorkflow.unlock, ClipWorkflow.startRender], by simp⟩
  · exact ⟨[Call.unlock], by simp [ClipWorkflow.unlock], by simp⟩
  · exact ⟨[Call.unlock], by simp [ClipWorkflow.unlock], by simp⟩

/-- The calls `renderClip` adds to the trace of a clip, when its wait ends:
every `setPosition` among them has the operands `currentFrame - start` and
the length of the clip. -/
theorem renderClip_setPosition (ops : ClipOps σ) (fuel : Nat) (cw : ClipWorkflow σ)
    (currentFrame start : Int) (need : Bool) (hs : Settles ops fuel cw) :
    ∃ r extra, renderClip ops fuel cw currentFrame start need = some r ∧
      r.2.calls = cw.calls ++ extra ∧
      ∀ pos, Call.setPosition pos ∈ extra →
        pos = { num := currentFrame - start, den := cw.clipLength } := by
  obtain ⟨w, n, hr, hcalls, hlen, -, -, -⟩ :=
    renderClip_observed ops fuel cw currentFrame start need hs
  obtain ⟨rest, hrest, hpos⟩ := renderObserved_setPosition ops w currentFrame start need
  refine ⟨renderObserved ops w currentFrame start need,
    ((if cw.getState ops = State.Rendering then
        [Call.lockForRead, Call.unlock] ++ List.replicate n (Call.usleep 100)
      else []) ++ [Call.lockForRead]) ++ rest, hr, ?_, ?_⟩
  · rw [hrest, hcalls, List.append_assoc]
  · intro pos hmem
    rw [← hlen]
    rcases List.mem_append.mp hmem with h | h
    · exfalso
      rcases List.mem_append.mp h with h | h
      · split_ifs at h
        · simp at h
        · cases h
      · simp at h
    · exact hpos pos h

/-- C23: for a clip of length above 0 that passes the test for rendering at
`currentFrame`, every `setPosition` that `getOutput` (the polls ending
within the fuel) makes on it on that tick, whichever branch of `renderClip`
makes it, has the operands `currentFrame - start` and the length of the
clip: the divisor is not zero, and the quotient lies between 0 and 1, both
included. -/
theorem getOutput_seek_fraction_in_unit_interval (ops : ClipOps σ) (fuel : Nat) (nb : Int)
    (tw : TrackWorkflow σ) (lastFrame currentFrame : Int)
    (hs : ∀ it ∈ tw.m_clips, Settles ops fuel it.2)
    (i : Nat) (it : Int × ClipWorkflow σ) (hi : tw.m_clips[i]? = some it)
    (hact : isActive currentFrame it = true) (hpos : 0 < it.2.clipLength) :
    ∃ out v extra, getOutput ops fuel nb tw lastFrame currentFrame = some out ∧
      out.track.m_clips[i]? = some v ∧ v.1 = it.1 ∧
      v.2.calls = it.2.calls ++ extra ∧
      ∀ pos, Call.setPosition pos ∈ extra →
        pos = { num := currentFrame - it.1, den := it.2.clipLength } ∧
        pos.den ≠ 0 ∧ 0 ≤ pos.value ∧ pos.value ≤ 1 := by
  obtain ⟨out, hout, -, -, hv, -, -⟩ := getOutput_spec ops fuel nb tw lastFrame currentFrame hs
  obtain ⟨v, hvi, hkey, -, hm⟩ := forall₂_getElem? hv i it hi
  rw [(isActive_iff_dispatchOf nb currentFrame it).mp hact] at hm
  obtain ⟨r, hr, hvr⟩ := hm
  obtain ⟨r2, extra, hr2, hcalls, hseek⟩ :=
    renderClip_setPosition ops fuel it.2 currentFrame it.1
      (decide (|currentFrame - lastFrame| > 1)) (hs it (List.getElem?_mem hi))
  have he : r2 = r := Option.some.inj (hr2.symm.trans hr)
  subst he
  refine ⟨out, v, extra, hout, hvi, hkey, by rw [hvr, hcalls], ?_⟩
  intro pos hmem
  have hp := hseek pos hmem
  have hb : it.1 ≤ currentFrame ∧ currentFrame ≤ it.1 + it.2.clipLength :=
    of_decide_eq_true hact
  subst hp
  refine ⟨rfl, ne_of_gt hpos, ?_, ?_⟩
  · unfold Position.value
    apply div_nonneg
    · exact_mod_cast (by omega : (0 : Int) ≤ currentFrame - it.1)
    · exact_mod_cast le_of_lt hpos
  · unfold Position.value
    rw [div_le_one (by exact_mod_cast hpos)]
    exact_mod_cast (by omega : currentFrame - it.1 ≤ it.2.clipLength)

/-- Witness for C23: the clip of `seekTrack` (50 frames at 100), asleep, at
frame 125 after a jump from frame 0, is sought to 25 of 50; the clip of
`stoppedTrack`, stopped, at the same frame, is sought to 25 of 50 as
well. -/
theorem getOutput_seek_fraction_in_unit_interval_witness :
    (∀ it ∈ seekTrack.m_clips, Settles simOps 2 it.2) ∧
    isActive 125 (100, simClip State.Sleeping 50) = true ∧
    (∃ out v extra, getOutput simOps 2 60 seekTrack 0 125 = some out ∧
      out.track.m_clips[0]? = some v ∧
      v.2.calls = (simClip State.Sleeping 50).calls ++ extra ∧
      ∀ pos, Call.setPosition pos ∈ extra →
        pos.den ≠ 0 ∧ 0 ≤ pos.value ∧ pos.value ≤ 1) ∧
    (∃ out, getOutput simOps 2 60 seekTrack 0 125 = some out ∧
      out.track.m_clips.map (fun it => it.2.calls) =
        [[Call.lockForRead, Call.unlock, Call.setPosition { num := 25, den := 50 },
          Call.getOutput, Call.wake]]) ∧
    (∃ out, getOutput simOps 2 60 stoppedTrack 124 125 = some out ∧
      out.track.m_clips.map (fun it => it.2.calls) =
        [[Call.lockForRead, Call.unlock, Call.initializeClip, Call.startRender,
          Call.setPosition { num := 25, den := 50 }]]) := by
  obtain ⟨out, v, extra, hout, hv, -, hcalls, hseek⟩ :=
    getOutput_seek_fraction_in_unit_interval simOps 2 60 seekTrack 0 125 (by decide)
      0 (100, simClip State.Sleeping 50) rfl (by decide) (by decide)
  exact ⟨by decide, by decide,
    ⟨out, v, extra, hout, hv, hcalls, fun pos h => (hseek pos h).2⟩,
    ⟨_, rfl, rfl⟩, ⟨_, rfl, rfl⟩⟩

end SeekFraction

section Building

variable {σ : Type}

open TrackWorkflow

/-- An entry of the map after `QMap::insert` is the entry inserted or was in
the map before. -/
theorem mem_qmapInsert (key : Int) (value : ClipWorkflow σ)
    (clips : List (Int × ClipWorkflow σ)) (x : Int × ClipWorkflow σ)
    (hx : x ∈ qmapInsert key value clips) : x = (key, value) ∨ x ∈ clips := by
  induction clips with
  | nil =>
    simp only [qmapInsert, List.mem_singleton] at hx
    exact Or.inl hx
  | cons it rest ih =>
    simp only [qmapInsert] at hx
    split_ifs at hx with h1 h2
    · rcases List.mem_cons.mp hx with h | h
      · exact Or.inl h
      · exact Or.inr h
    · rcases List.mem_cons.mp hx with h | h
      · exact Or.inl h
      · exact Or.inr (List.mem_cons_of_mem _ h)
    · rcases List.mem_cons.mp hx with h | h
      · exact Or.inr (h ▸ List.mem_cons_self _ _)
      · rcases ih h with h3 | h3
        · exact Or.inl h3
        · exact Or.inr (List.mem_cons_of_mem _ h3)

/-- The map is not empty after `QMap::insert`. -/
theorem qmapInsert_ne_nil (key : Int) (value : ClipWorkflow σ)
    (clips : List (Int × ClipWorkflow σ)) : qmapInsert key value clips ≠ [] := by
  cases clips with
  | nil => simp [qmapInsert]
  | cons it rest =>
    simp only [qmapInsert]
    split_ifs <;> simp

/-- The entry inserted is in the map after `QMap::insert`. -/
theorem qmapInsert_mem (key : Int) (value : ClipWorkflow σ)
    (clips : List (Int × ClipWorkflow σ)) : (key, value) ∈ qmapInsert key value clips := by
  induction clips with
  | nil => simp [qmapInsert]
  | cons it rest ih =>
    simp only [qmapInsert]
    split_ifs
    · exact List.mem_cons_self _ _
    · exact List.mem_cons_self _ _
    · exact List.mem_cons_of_mem _ ih

/-- `QMap::insert` keeps the keys ascending. -/
theorem qmapInsert_keysAscending (key : Int) (value : ClipWorkflow σ)
    (clips : List (Int × ClipWorkflow σ)) (hk : KeysAscending clips) :
    KeysAscending (qmapInsert key value clips) := by
  unfold KeysAscending at hk ⊢
  induction clips with
  | nil => simp [qmapInsert]
  | cons it rest ih =>
    obtain ⟨hhead, htail⟩ := List.pairwise_cons.mp hk
    simp only [qmapInsert]
    split_ifs with h1 h2
    · refine List.pairwise_cons.mpr ⟨fun b hb => ?_, hk⟩
      rcases List.mem_cons.mp hb with h | h
      · rw [h]
        exact h1
      · exact lt_trans h1 (hhead b h)
    · refine List.pairwise_cons.mpr ⟨fun b hb => ?_, htail⟩
      have := hhead b hb
      show key < b.1
      omega
    · refine List.pairwise_cons.mpr ⟨fun b hb => ?_, ih htail⟩
      rcases mem_qmapInsert key value rest b hb with h | h
      · rw [h]
        show it.1 < key
        omega
      · exact hhead b h

/-- On a map that is not empty `computeLength` returns, and leaves in
`m_length` the start plus the length of the last entry; the map is as it
was. -/
theorem computeLength_spec (tw : TrackWorkflow σ) (hne : tw.m_clips ≠ []) :
    ∃ tw2 last, computeLength tw = some tw2 ∧ tw2.m_clips = tw.m_clips ∧
      tw2.m_trackId = tw.m_trackId ∧
      tw.m_clips.getLast? = some last ∧ tw2.m_length = last.1 + last.2.clipLength := by
  have hlen : ¬ tw.m_clips.length = 0 := fun h => hne (List.length_eq_zero.mp h)
  cases hl : tw.m_clips.getLast? with
  | none => exact absurd (List.getLast?_eq_none_iff.mp hl) hne
  | some last =>
    refine ⟨{ tw with m_length := last.1 + last.2.clipLength }, last, ?_, rfl, rfl, rfl, rfl⟩
    unfold computeLength
    simp only [if_neg hlen, hl]

/-- On the empty map of a new track `computeLength` has no defined
outcome. -/
theorem computeLength_empty (trackId : Nat) :
    computeLength (construct trackId : TrackWorkflow σ) = none := rfl

/-- Every `addClip` returns: the map it hands to `computeLength` is not
empty. It leaves the map with ascending keys when it found it so, with the
new clip in it, and `m_length` at the start plus the length of the last
entry. -/
theorem addClip_spec (tw : TrackWorkflow σ) (made : σ) (clipLength start : Int) :
    ∃ tw2 last, addClip tw made clipLength start = some tw2 ∧
      tw2.m_clips =
        qmapInsert start { impl := made, clipLength := clipLength, calls := [] } tw.m_clips ∧
      tw2.m_clips ≠ [] ∧
      tw2.m_clips.getLast? = some last ∧ tw2.m_length = last.1 + last.2.clipLength ∧
      (KeysAscending tw.m_clips → KeysAscending tw2.m_clips) := by
  obtain ⟨tw2, last, h1, h2, -, h3, h4⟩ :=
    computeLength_spec
      { tw with m_clips :=
          qmapInsert start { impl := made, clipLength := clipLength, calls := [] } tw.m_clips }
      (qmapInsert_ne_nil _ _ _)
  refine ⟨tw2, last, h1, h2, ?_, ?_, h4, fun hk => ?_⟩
  · rw [h2]
    exact qmapInsert_ne_nil _ _ _
  · rw [h2]
    exact h3
  · rw [h2]
    exact qmapInsert_keysAscending _ _ _ hk

/-- A sequence of `addClip` calls returns, and keeps what every `addClip`
establishes. -/
theorem addClips_spec (adds : List (σ × Int × Int)) (tw : TrackWorkflow σ)
    (hk : KeysAscending tw.m_clips)
    (hinv : tw.m_clips ≠ [] → ∃ last, tw.m_clips.getLast? = some last ∧
      tw.m_length = last.1 + last.2.clipLength) :
    ∃ tw2, addClips tw adds = some tw2 ∧ KeysAscending tw2.m_clips ∧
      (adds = [] → tw2 = tw) ∧
      ((adds ≠ [] ∨ tw.m_clips ≠ []) → tw2.m_clips ≠ [] ∧
        ∃ last, tw2.m_clips.getLast? = some last ∧
          tw2.m_length = last.1 + last.2.clipLength) := by
  induction adds generalizing tw with
  | nil =>
    refine ⟨tw, rfl, hk, fun _ => rfl, fun h => ?_⟩
    rcases h with h | h
    · exact absurd rfl h
    · exact ⟨h, hinv h⟩
  | cons a rest ih =>
    obtain ⟨tw1, last, h1, -, hne, hlast, hlen, hkeep⟩ := addClip_spec tw a.1 a.2.1 a.2.2
    obtain ⟨tw2, h2, hk2, -, hfin⟩ := ih tw1 (hkeep hk) (fun _ => ⟨last, hlast, hlen⟩)
    refine ⟨tw2, ?_, hk2, fun h => absurd h (List.cons_ne_nil _ _),
      fun _ => hfin (Or.inr hne)⟩
    simp only [addClips, h1]
    exact h2

/-- C24: `getLength` is 0 on a track as the constructor leaves it. Every
`addClip` returns, the map it hands to `computeLength` having an entry,
and leaves in `getLength` the start plus the length of the last entry of
the map. On a track built from a new one by one or more `addClip` calls,
the keys are ascending, so that the last entry is the clip with the
greatest start, `getLength` is the start plus the length of that clip, and
`checkEnd` is true at a frame exactly when `getLength` is below the
frame. -/
theorem getLength_is_end_of_last_clip (trackId : Nat) (adds : List (σ × Int × Int))
    (hne : adds ≠ []) :
    getLength (construct trackId : TrackWorkflow σ) = 0 ∧
    (∀ (tw : TrackWorkflow σ) (made : σ) (clipLength start : Int),
      qmapInsert start { impl := made, clipLength := clipLength, calls := [] } tw.m_clips ≠ [] ∧
      ∃ tw2 last, addClip tw made clipLength start = some tw2 ∧
        tw2.m_clips.getLast? = some last ∧ getLength tw2 = last.1 + last.2.clipLength) ∧
    ∃ tw last, addClips (construct trackId) adds = some tw ∧
      tw.m_clips.getLast? = some last ∧
      (∀ it ∈ tw.m_clips, it.1 ≤ last.1) ∧
      getLength tw = last.1 + last.2.clipLength ∧
      ∀ currentFrame, checkEnd tw currentFrame = true ↔ getLength tw < currentFrame := by
  refine ⟨rfl, fun tw made clipLength start => ⟨qmapInsert_ne_nil _ _ _, ?_⟩, ?_⟩
  · obtain ⟨tw2, last, h1, -, -, h2, h3, -⟩ := addClip_spec tw made clipLength start
    exact ⟨tw2, last, h1, h2, h3⟩
  · obtain ⟨tw, h1, hk, -, hfin⟩ :=
      addClips_spec adds (construct trackId : TrackWorkflow σ) List.Pairwise.nil
        (fun h => absurd rfl h)
    obtain ⟨-, last, hlast, hlen⟩ := hfin (Or.inl hne)
    refine ⟨tw, last, h1, hlast, fun it hit => key_le_last tw.m_clips hk last it hlast hit,
      hlen, fun currentFrame => ?_⟩
    unfold checkEnd getLength
    rw [hlast, hlen]
    simp only [decide_eq_true_eq]
    omega

/-- Witness for C24: `threeAdds` on a new track gives the map with the keys
0, 20, 150 and the length 250, the end of the clip at 150; `checkEnd` is
false at frame 250 and true at frame 251. -/
theorem getLength_is_end_of_last_clip_witness :
    threeAdds ≠ [] ∧
    ∃ tw, addClips (construct 0) threeAdds = some tw ∧
      tw.m_clips.map (fun it => (it.1, it.2.clipLength)) = [(0, 100), (20, 50), (150, 100)] ∧
      getLength tw = 250 ∧ checkEnd tw 250 = false ∧ checkEnd tw 251 = true ∧
      (checkEnd tw 251 = true ↔ getLength tw < 251) := by
  obtain ⟨-, -, tw, last, h1, -, -, -, h2⟩ :=
    getLength_is_end_of_last_clip 0 threeAdds (List.cons_ne_nil _ _)
  have h3 : addClips (construct 0) threeAdds = some tw := h1
  rw [show addClips (construct 0) threeAdds = some _ from rfl] at h3
  cases h3
  exact ⟨List.cons_ne_nil _ _, _, rfl, rfl, rfl, rfl, rfl, h2 251⟩

end Building

end Vlmc
